import Mathlib

/-!
# Occupancy-grid mapping and cell classification (phir2framework)

A shallow embedding of the mapping methods of `Robot.cpp` and of the
classification, grid-limit and potential-field methods of `Planning.cpp`.

Conventions of the embedding:

* `float`/`double` quantities are rationals (`ℚ`); infinities and NaN are not represented.
  The quantities on which the mapping loops and the grid limits branch (ranges, angle and
  range differences, thresholds, products converted to `int`) are rounded to the format in
  which the source holds them, operation by operation; the arithmetic on the occupancy
  evidence stored in the cells (log-odds, sonar fusion) is exact.
* `int` quantities are integers (`Int`).  The HIMM counter arithmetic and the arithmetic on
  the grid limits are wrapped to 32 bits.
* The grid is a total map from integer coordinates to cells, and every loop of the
  source is a left fold over the list of its iterates, in the source's order.
* The C math library (`sqrt`, `atan2`, `exp`, `log`), the angle helpers of `Utils.h` and
  the sensor accessors of the robot base are parameters of the embedding.
* A function that can reach its end without a `return` yields an `Option`, and so does the
  loop that calls it.
* A method whose body performs no statement is the identity on the grid.
-/

namespace Phir2

/-! ## Data model -/

/-- Occupancy category of a cell (`occType`). -/
inductive OccType where
  | UNEXPLORED
  | FREE
  | OCCUPIED
  deriving DecidableEq, Repr

/-- Planning category of a cell (`planType`). -/
inductive PlanType where
  | REGULAR
  | FRONTIER
  | DANGER
  | NEAR_WALLS
  | FRONTIER_NEAR_WALL
  deriving DecidableEq, Repr

/-- Modelled from the spec: the `Cell` class is declared in `Grid.h`, which is not part of
the sources; the fields are those of the data model (`himm`, `logodds`, `occupancy`,
`occupancySonar`, `occType`, `planType`, and `pot`, `dirX`, `dirY` per navigation variant). -/
structure Cell where
  himm : Int
  logodds : ℚ
  occupancy : ℚ
  occupancySonar : ℚ
  occType : OccType
  planType : PlanType
  pot : Nat → ℚ
  dirX : Nat → ℚ
  dirY : Nat → ℚ

/-- Modelled from the spec: the `Grid` class is declared in `Grid.h`/`Grid.cpp`, which are not
part of the sources; `getCell(x,y)` returns a stable mutable cell for any integer coordinate,
so a grid is a total map from coordinates to cells. -/
def Grid : Type := Int → Int → Cell

/-- The cell returned by `grid->getCell(x,y)`. -/
def Grid.getCell (g : Grid) (x y : Int) : Cell := g x y

/-- The grid after the cell at `(x,y)` has been overwritten through its pointer. -/
def Grid.setCell (g : Grid) (x y : Int) (c : Cell) : Grid :=
  fun i j => if i = x ∧ j = y then c else g i j

/-- Modelled from the spec: a freshly allocated cell, with neutral evidence. -/
def Cell.fresh : Cell where
  himm := 0
  logodds := 0
  occupancy := 1 / 2
  occupancySonar := 1 / 2
  occType := OccType.UNEXPLORED
  planType := PlanType.REGULAR
  pot := fun _ => 0
  dirX := fun _ => 0
  dirY := fun _ => 0

/-- Modelled from the spec: the grid in which no cell has been touched yet. -/
def Grid.fresh : Grid := fun _ _ => Cell.fresh

/-- Robot pose: metric position and heading in degrees. `Pose` is declared outside the
sources; its fields are read as `float`, the type in which the mapping methods hold the
heading (`float robotAngle = currentPose_.theta`). -/
structure Pose where
  x : ℚ
  y : ℚ
  theta : ℚ

/-- Bounding box of the region relevant for classification and planning. -/
structure GridLimits where
  minX : Int
  minY : Int
  maxX : Int
  maxY : Int
  deriving DecidableEq, Repr

/-- The numeric helpers used by the mapping methods and defined outside the sources:
`sqrt`, the composition `RAD2DEG(atan2(y,x))` and `normalizeAngleDEG`. -/
structure MathOps where
  sqrt : ℚ → ℚ
  atan2Deg : ℚ → ℚ → ℚ
  normalizeAngleDEG : ℚ → ℚ

/-- The accessors of the robot base (`base.get...`) read by the mapping methods. The ranges,
readings and beam angles are `float` values (`float maxRange = base.getMaxLaserRange()`,
`std::min(maxRange, base.getKthLaserReading(k))`). -/
structure PioneerBase where
  getMaxLaserRange : ℚ
  getNearestLaserBeam : ℚ → Int
  getAngleOfLaserBeam : Int → ℚ
  getKthLaserReading : Int → ℚ
  getMaxSonarRange : ℚ
  getNearestSonarBeam : ℚ → Int
  getAngleOfSonarBeam : Int → ℚ
  getKthSonarReading : Int → ℚ

/-- What one mapping cycle of `Robot` reads besides the grid: the numeric helpers, the
sensor readings held by `base`, the map scale `grid->getMapScale()` and `currentPose_`. -/
structure Robot where
  ops : MathOps
  base : PioneerBase
  scale : Int
  currentPose : Pose

/-! ## Floating-point values -/

/-- The integer nearest to `s`, the even one of the two when `s` lies halfway between two
integers. -/
def roundHalfEven (s : ℚ) : Int :=
  if s - ⌊s⌋ < 1 / 2 then ⌊s⌋
  else if 1 / 2 < s - ⌊s⌋ then ⌊s⌋ + 1
  else if ⌊s⌋ % 2 = 0 then ⌊s⌋ else ⌊s⌋ + 1

/-- The value nearest to `q`, ties to even, in the binary floating-point format with `p`
significand bits whose last place has exponent at least `emin`. The largest exponent is not
bounded: a result too large for the format is not turned into an infinity. -/
def roundBinary (p : Nat) (emin : Int) (q : ℚ) : ℚ :=
  (roundHalfEven (q / 2 ^ (max (Int.log 2 |q| + 1 - p) emin)) : ℚ)
    * 2 ^ (max (Int.log 2 |q| + 1 - p) emin)

/-- Rounding to `float` (IEEE single precision, round to nearest). -/
def roundFloat (q : ℚ) : ℚ := roundBinary 24 (-149) q

/-- Rounding to `double` (IEEE double precision, round to nearest). -/
def roundDouble (q : ℚ) : ℚ := roundBinary 53 (-1074) q

/-! ## Integer conversions and loops -/

/-- Truncation toward zero. -/
def truncate (q : ℚ) : Int := if 0 ≤ q then ⌊q⌋ else ⌈q⌉

/-- Conversion of a floating value to `int`: truncation toward zero. For a value outside the
range of `int` the conversion is undefined in C++; the result taken here is the one of the
x86 conversion instructions, `INT_MIN`. -/
def truncToInt (q : ℚ) : Int :=
  if -2147483648 ≤ truncate q ∧ truncate q ≤ 2147483647 then truncate q else -2147483648

/-- A 32-bit two's-complement `int` holding the integer `z`. -/
def wrapInt32 (z : Int) : Int := (z + 2147483648) % 4294967296 - 2147483648

/-- The iterates of `for (int i = lo; i <= hi; i++)`, in order. -/
def intRange (lo hi : Int) : List Int :=
  (List.range (hi + 1 - lo).toNat).map (fun (k : Nat) => lo + (k : Int))

/-- The loop `for (int i = lo; i <= hi; i++) body` acting on a state. -/
def forRange {σ : Type} (lo hi : Int) (body : Int → σ → σ) (s : σ) : σ :=
  (intRange lo hi).foldl (fun t i => body i t) s

/-- The nested loop over `x` in `[x0,x1]` (outer) and `y` in `[y0,y1]` (inner). -/
def forCells {σ : Type} (x0 x1 y0 y1 : Int) (body : Int → Int → σ → σ) (s : σ) : σ :=
  forRange x0 x1 (fun x t => forRange y0 y1 (fun y u => body x y u) t) s

/-- The cells visited by `forCells`, in visiting order. -/
def cellList (x0 x1 y0 y1 : Int) : List (Int × Int) :=
  List.product (intRange x0 x1) (intRange y0 y1)

/-! ## HIMM laser mapping (`Robot::mappingWithHIMMUsingLaser`) -/

/-- The product of a `float` and the `int` map scale, as in `maxRange*scale`: the scale is
converted to `float` and the product is rounded to `float`. -/
def Robot.timesScale (rb : Robot) (v : ℚ) : ℚ := roundFloat (v * roundFloat (rb.scale : ℚ))

/-- The value `int robotX = currentPose_.x*scale`. -/
def Robot.robotX (rb : Robot) : Int := truncToInt (rb.timesScale rb.currentPose.x)

/-- The value `int robotY = currentPose_.y*scale`. -/
def Robot.robotY (rb : Robot) : Int := truncToInt (rb.timesScale rb.currentPose.y)

/-- The value `int maxRangeInt = maxRange*scale` of the laser scans. -/
def Robot.laserRangeInt (rb : Robot) : Int :=
  truncToInt (rb.timesScale rb.base.getMaxLaserRange)

/-- The value `float r = sqrt(pow(cellX - robotX, 2) + pow(cellY - robotY, 2)) / scale`: the
quotient of the `double` returned by `sqrt` and the scale is rounded to `double`, then to
`float`. The two squares and their sum, exact in `double` for offsets below `2^26` cells,
are passed to `sqrt` unrounded. -/
def Robot.cellRange (rb : Robot) (cellX cellY : Int) : ℚ :=
  roundFloat (roundDouble
    (rb.ops.sqrt ((((cellX - rb.robotX) ^ 2 + (cellY - rb.robotY) ^ 2 : Int) : ℚ))
      / (rb.scale : ℚ)))

/-- The value
`phi = normalizeAngleDEG(RAD2DEG(atan2(cellY - robotY, cellX - robotX)) - robotAngle)`. -/
def Robot.cellBearing (rb : Robot) (cellX cellY : Int) : ℚ :=
  rb.ops.normalizeAngleDEG
    (rb.ops.atan2Deg ((cellY - rb.robotY : Int) : ℚ) ((cellX - rb.robotX : Int) : ℚ)
      - rb.currentPose.theta)

/-- The beam `k = base.getNearestLaserBeam(phi)` of a cell. -/
def Robot.laserBeam (rb : Robot) (cellX cellY : Int) : Int :=
  rb.base.getNearestLaserBeam (rb.cellBearing cellX cellY)

/-- The reading `base.getKthLaserReading(k)` of the beam nearest to a cell. -/
def Robot.laserReading (rb : Robot) (cellX cellY : Int) : ℚ :=
  rb.base.getKthLaserReading (rb.laserBeam cellX cellY)

/-- The value `lambda_r / 2` of the HIMM pass, for `float lambda_r = 0.2`: the `double`
literal is rounded to `float` and halved in `float`. -/
def himmHalfLambdaR : ℚ := roundFloat (roundFloat (roundDouble (1 / 5)) / 2)

/-- First guard of the HIMM loop body: the cell is off the beam or beyond
`min(maxRange, reading)`. The difference of the two `float` angles is rounded to `float`;
`lambda_phi / 2`, for `lambda_phi = 1.0`, is `0.5` exactly. -/
def Robot.himmSkip (rb : Robot) (cellX cellY : Int) : Prop :=
  |roundFloat (rb.cellBearing cellX cellY
        - rb.base.getAngleOfLaserBeam (rb.laserBeam cellX cellY))| > 1 / 2
    ∨ rb.cellRange cellX cellY > min rb.base.getMaxLaserRange (rb.laserReading cellX cellY)

/-- Second guard of the HIMM loop body: the cell is at the surface. The difference of the two
`float` ranges is rounded to `float` and compared with `lambda_r / 2`. -/
def Robot.himmSurface (rb : Robot) (cellX cellY : Int) : Prop :=
  rb.laserReading cellX cellY < rb.base.getMaxLaserRange
    ∧ |roundFloat (rb.cellRange cellX cellY - rb.laserReading cellX cellY)| < himmHalfLambdaR

/-- Third guard of the HIMM loop body: the cell is before the surface. -/
def Robot.himmBefore (rb : Robot) (cellX cellY : Int) : Prop :=
  rb.cellRange cellX cellY ≤ rb.laserReading cellX cellY

instance (rb : Robot) (x y : Int) : Decidable (rb.himmSkip x y) := by
  unfold Robot.himmSkip; infer_instance

instance (rb : Robot) (x y : Int) : Decidable (rb.himmSurface x y) := by
  unfold Robot.himmSurface; infer_instance

instance (rb : Robot) (x y : Int) : Decidable (rb.himmBefore x y) := by
  unfold Robot.himmBefore; infer_instance

/-- The statements `cell->himm += 3; cell->himm = std::min(cell->himm, 15);`. -/
def himmIncrement (himm : Int) : Int := min (wrapInt32 (himm + 3)) 15

/-- The statements `cell->himm -= 1; cell->himm = std::max(cell->himm, 0);`. -/
def himmDecrement (himm : Int) : Int := max (wrapInt32 (himm - 1)) 0

/-- Body of the double loop of `mappingWithHIMMUsingLaser` for the cell `(cellX, cellY)`. -/
def Robot.himmBody (rb : Robot) (cellX cellY : Int) (g : Grid) : Grid :=
  let cell := g.getCell cellX cellY
  if rb.himmSkip cellX cellY then g
  else if rb.himmSurface cellX cellY then
    g.setCell cellX cellY { cell with himm := himmIncrement cell.himm }
  else if rb.himmBefore cellX cellY then
    g.setCell cellX cellY { cell with himm := himmDecrement cell.himm }
  else g

/-- The method `Robot::mappingWithHIMMUsingLaser`. -/
def Robot.mappingWithHIMMUsingLaser (rb : Robot) (g : Grid) : Grid :=
  forCells (rb.robotX - rb.laserRangeInt) (rb.robotX + rb.laserRangeInt)
    (rb.robotY - rb.laserRangeInt) (rb.robotY + rb.laserRangeInt) rb.himmBody g

/-- Successive mapping cycles: one HIMM pass per entry, each with its own pose and readings. -/
def himmPasses (cycles : List Robot) (g : Grid) : Grid :=
  cycles.foldl (fun t rb => rb.mappingWithHIMMUsingLaser t) g

/-! ## Sonar mapping (`Robot::mappingUsingSonar`) -/

/-- The value `int maxRangeInt = maxRange * scale` of the sonar scan. -/
def Robot.sonarRangeInt (rb : Robot) : Int :=
  truncToInt (rb.timesScale rb.base.getMaxSonarRange)

/-- The beam `k = base.getNearestSonarBeam(phi)` of a cell. -/
def Robot.sonarBeam (rb : Robot) (cellX cellY : Int) : Int :=
  rb.base.getNearestSonarBeam (rb.cellBearing cellX cellY)

/-- The reading `base.getKthSonarReading(k)` of the beam nearest to a cell. -/
def Robot.sonarReading (rb : Robot) (cellX cellY : Int) : ℚ :=
  rb.base.getKthSonarReading (rb.sonarBeam cellX cellY)

/-- The value `float alpha = fabs(phi - base.getAngleOfSonarBeam(k))`; the difference of the
two `float` angles is rounded to `float`. -/
def Robot.sonarAlpha (rb : Robot) (cellX cellY : Int) : ℚ :=
  |roundFloat (rb.cellBearing cellX cellY
    - rb.base.getAngleOfSonarBeam (rb.sonarBeam cellX cellY))|

/-- The value `occUpdateMainTerm = (((R-r)/R) + ((beta-alpha)/beta))/2`, with
`R = maxRange` and `beta = lambda_phi / 2 = 15`, in exact arithmetic on the `float` values
`r` and `alpha`. For `R = 0` the source divides by zero and obtains NaN, which has no
counterpart here: the statements about the sonar pass assume `0 < R`. -/
def Robot.occUpdateMainTerm (rb : Robot) (cellX cellY : Int) : ℚ :=
  (((rb.base.getMaxSonarRange - rb.cellRange cellX cellY) / rb.base.getMaxSonarRange)
    + ((15 - rb.sonarAlpha cellX cellY) / 15)) / 2

/-- Guard `fabs(phi - base.getAngleOfSonarBeam(k)) > lambda_phi / 2`: the cell is off the beam. -/
def Robot.sonarOffBeam (rb : Robot) (cellX cellY : Int) : Prop :=
  rb.sonarAlpha cellX cellY > 15

/-- Guard of region 1: the cell is at the surface detected by the sonar. The difference of
the two `float` ranges is rounded to `float`; `lambda_r / 2`, for `lambda_r = 0.5`, is `0.25`
exactly. -/
def Robot.sonarRegion1 (rb : Robot) (cellX cellY : Int) : Prop :=
  rb.sonarReading cellX cellY < rb.base.getMaxSonarRange
    ∧ |roundFloat (rb.cellRange cellX cellY - rb.sonarReading cellX cellY)| < 1 / 4

/-- Guard of region 2: the cell is before the surface detected by the sonar. -/
def Robot.sonarRegion2 (rb : Robot) (cellX cellY : Int) : Prop :=
  rb.cellRange cellX cellY ≤ rb.sonarReading cellX cellY

instance (rb : Robot) (x y : Int) : Decidable (rb.sonarOffBeam x y) := by
  unfold Robot.sonarOffBeam; infer_instance

instance (rb : Robot) (x y : Int) : Decidable (rb.sonarRegion1 x y) := by
  unfold Robot.sonarRegion1; infer_instance

instance (rb : Robot) (x y : Int) : Decidable (rb.sonarRegion2 x y) := by
  unfold Robot.sonarRegion2; infer_instance

/-- Denominator of the binary Bayes fusion. -/
def sonarDenominator (occUpdate p : ℚ) : ℚ :=
  (occUpdate * p) + ((1 - occUpdate) * (1 - p))

/-- The assignment `occupancySonar = (occUpdate * occupancySonar) / (...)`. -/
def sonarFuse (occUpdate p : ℚ) : ℚ := (occUpdate * p) / sonarDenominator occUpdate p

/-- The statements `if (p > 0.99) p = 0.99; if (p < 0.01) p = 0.01;`. -/
def sonarClamp (p : ℚ) : ℚ :=
  let p1 := if p > 99 / 100 then 99 / 100 else p
  if p1 < 1 / 100 then 1 / 100 else p1

/-- The write performed on a cell by the sonar pass for the update value `occUpdate`. -/
def sonarWrite (occUpdate : ℚ) (cell : Cell) : Cell :=
  { cell with occupancySonar := sonarClamp (sonarFuse occUpdate cell.occupancySonar) }

/-- Body of the double loop of `mappingUsingSonar` for the cell `(cellX, cellY)`. -/
def Robot.sonarBody (rb : Robot) (cellX cellY : Int) (g : Grid) : Grid :=
  let cell := g.getCell cellX cellY
  if rb.sonarOffBeam cellX cellY then g
  else if rb.sonarRegion1 cellX cellY then
    g.setCell cellX cellY (sonarWrite (1 / 2 * rb.occUpdateMainTerm cellX cellY + 1 / 2) cell)
  else if rb.sonarRegion2 cellX cellY then
    g.setCell cellX cellY (sonarWrite (1 / 2 * (1 - rb.occUpdateMainTerm cellX cellY)) cell)
  else g

/-- The method `Robot::mappingUsingSonar`. -/
def Robot.mappingUsingSonar (rb : Robot) (g : Grid) : Grid :=
  forCells (rb.robotX - rb.sonarRangeInt) (rb.robotX + rb.sonarRangeInt)
    (rb.robotY - rb.sonarRangeInt) (rb.robotY + rb.sonarRangeInt) rb.sonarBody g

/-- The assignment `c->planType = v` through the pointer to the cell at `(x,y)`. -/
def Grid.setPlanType (g : Grid) (x y : Int) (v : PlanType) : Grid :=
  g.setCell x y { g.getCell x y with planType := v }

/-- The assignment `c->occType = v` through the pointer to the cell at `(x,y)`. -/
def Grid.setOccType (g : Grid) (x y : Int) (v : OccType) : Grid :=
  g.setCell x y { g.getCell x y with occType := v }

/-- The method `Planning::resetCellsTypes`, for the limits held in `gridLimits`. -/
def resetCellsTypes (lim : GridLimits) (g : Grid) : Grid :=
  forCells lim.minX lim.maxX lim.minY lim.maxY
    (fun i j t => t.setPlanType i j PlanType.REGULAR) g

/-- Body of the first double loop of `updateCellsTypes`: the two threshold tests on `himm`. -/
def occupancyBody (cellX cellY : Int) (g : Grid) : Grid :=
  let g1 := if (g.getCell cellX cellY).himm ≤ 5 then g.setOccType cellX cellY OccType.FREE else g
  if (g1.getCell cellX cellY).himm ≥ 10 then g1.setOccType cellX cellY OccType.OCCUPIED else g1

/-- First double loop of `updateCellsTypes` (phase 1). -/
def classifyOccupancy (lim : GridLimits) (g : Grid) : Grid :=
  forCells lim.minX lim.maxX lim.minY lim.maxY occupancyBody g

/-- The inner double loop shared by the planning tests: for every `adjacentCell` at
Chebyshev distance at most `d` from `(cellX, cellY)`, `if (test) cell->planType = v`. -/
def markIfNear (d : Int) (test : Cell → Bool) (v : PlanType) (cellX cellY : Int)
    (g : Grid) : Grid :=
  forCells (cellX - d) (cellX + d) (cellY - d) (cellY + d)
    (fun x y t => if test (t.getCell x y) then t.setPlanType cellX cellY v else t) g

/-- Body of the second double loop of `updateCellsTypes`: reset to `REGULAR`, then the
`NEAR_WALLS` scan (distance 8) and the `DANGER` scan (distance 3) of a `FREE` cell. -/
def hazardBody (cellX cellY : Int) (g : Grid) : Grid :=
  let g1 := g.setPlanType cellX cellY PlanType.REGULAR
  let g2 :=
    if (g1.getCell cellX cellY).occType = OccType.FREE then
      markIfNear 8 (fun c => decide (c.occType = OccType.OCCUPIED)) PlanType.NEAR_WALLS
        cellX cellY g1
    else g1
  if (g2.getCell cellX cellY).occType = OccType.FREE then
    markIfNear 3 (fun c => decide (c.occType = OccType.OCCUPIED)) PlanType.DANGER
      cellX cellY g2
  else g2

/-- Second double loop of `updateCellsTypes` (hazard part of phase 2). -/
def classifyHazards (lim : GridLimits) (g : Grid) : Grid :=
  forCells lim.minX lim.maxX lim.minY lim.maxY hazardBody g

/-- Body of the third double loop of `updateCellsTypes`: the `FRONTIER` scan followed by the
`FRONTIER_NEAR_WALL` scan of an `UNEXPLORED` cell, both over the 3x3 block around it. -/
def frontierBody (cellX cellY : Int) (g : Grid) : Grid :=
  if (g.getCell cellX cellY).occType = OccType.UNEXPLORED then
    let g1 := markIfNear 1 (fun c => decide (c.occType = OccType.FREE)) PlanType.FRONTIER
      cellX cellY g
    markIfNear 1
      (fun c => decide (c.planType = PlanType.DANGER) || decide (c.planType = PlanType.NEAR_WALLS))
      PlanType.FRONTIER_NEAR_WALL cellX cellY g1
  else g

/-- Third double loop of `updateCellsTypes` (frontier part of phase 2). -/
def classifyFrontiers (lim : GridLimits) (g : Grid) : Grid :=
  forCells lim.minX lim.maxX lim.minY lim.maxY frontierBody g

/-- The method `Planning::updateCellsTypes`, for the limits held in `gridLimits`. -/
def updateCellsTypes (lim : GridLimits) (g : Grid) : Grid :=
  classifyFrontiers lim (classifyHazards lim (classifyOccupancy lim g))

/-- One classification pass over fixed limits: `resetCellsTypes` then `updateCellsTypes`. -/
def classificationPass (lim : GridLimits) (g : Grid) : Grid :=
  updateCellsTypes lim (resetCellsTypes lim g)

/-! ## Grid limits (`Planning::Planning`, `setMaxUpdateRange`, `setNewRobotPose`) -/

/-- A robot position in cell coordinates. -/
structure RobotCell where
  x : Int
  y : Int
  deriving DecidableEq, Repr

/-- The members of `Planning` used by the classification and grid-limit methods, together
with the map scale `grid->getMapScale()` of the grid installed by `setGrid`. -/
structure Planning where
  scale : Int
  robotPosition : RobotCell
  newRobotPosition : RobotCell
  gridLimits : GridLimits
  newGridLimits : GridLimits
  maxUpdateRange : Int

/-- The constructor `Planning::Planning()` followed by `setGrid`; the constructor leaves
`maxUpdateRange` unset, so its initial content `junk` is arbitrary. -/
def Planning.construct (scale junk : Int) : Planning where
  scale := scale
  robotPosition := { x := 0, y := 0 }
  newRobotPosition := { x := 0, y := 0 }
  gridLimits := { minX := 1000, minY := 1000, maxX := -1000, maxY := -1000 }
  newGridLimits := { minX := 1000, minY := 1000, maxX := -1000, maxY := -1000 }
  maxUpdateRange := junk

/-- The value of `1.2*r*grid->getMapScale()`: the literal is a `double`, and each of the two
products is rounded to `double`. -/
def updateRangeProduct (r scale : Int) : ℚ :=
  roundDouble (roundDouble (roundDouble (6 / 5) * (r : ℚ)) * (scale : ℚ))

/-- The method `Planning::setMaxUpdateRange(int r)`; the assignment converts the `double`
product to `int`. -/
def Planning.setMaxUpdateRange (pl : Planning) (r : Int) : Planning :=
  { pl with maxUpdateRange := truncToInt (updateRangeProduct r pl.scale) }

/-- The value `(int)(v*grid->getMapScale())` for a `float` coordinate `v` of a pose: the scale
is converted to `float` and the product is rounded to `float` before the conversion. -/
def Planning.toCell (pl : Planning) (v : ℚ) : Int :=
  truncToInt (roundFloat (v * roundFloat (pl.scale : ℚ)))

/-- The method `Planning::setNewRobotPose(Pose p)`; the sums and differences of `int` values
are wrapped to 32 bits. -/
def Planning.setNewRobotPose (pl : Planning) (p : Pose) : Planning :=
  let nx := pl.toCell p.x
  let ny := pl.toCell p.y
  { pl with
    newRobotPosition := { x := nx, y := ny }
    newGridLimits :=
      { minX := min pl.newGridLimits.minX (wrapInt32 (nx - pl.maxUpdateRange))
        maxX := max pl.newGridLimits.maxX (wrapInt32 (nx + pl.maxUpdateRange))
        minY := min pl.newGridLimits.minY (wrapInt32 (ny - pl.maxUpdateRange))
        maxY := max pl.newGridLimits.maxY (wrapInt32 (ny + pl.maxUpdateRange)) } }

/-- The poses reported to the planner by successive `setNewRobotPose` calls. -/
def Planning.setNewRobotPoses (pl : Planning) (ps : List Pose) : Planning :=
  ps.foldl (fun q p => q.setNewRobotPose p) pl

/-- The cell `((int)(p.x*scale), (int)(p.y*scale))` that `setNewRobotPose` computes for `p`. -/
def Planning.cellOfPose (pl : Planning) (p : Pose) : RobotCell :=
  { x := pl.toCell p.x, y := pl.toCell p.y }

/-- The statements `plan = new Planning(); plan->setGrid(grid);
plan->setMaxUpdateRange(base.getMaxLaserRange());` of the constructor `Robot::Robot`: the
`float` range is converted to the `int` parameter of `setMaxUpdateRange` at the call. -/
def Robot.newPlanning (rb : Robot) (junk : Int) : Planning :=
  (Planning.construct rb.scale junk).setMaxUpdateRange (truncToInt rb.base.getMaxLaserRange)

/-- Membership of a cell in a bounding box. -/
def GridLimits.contains (lim : GridLimits) (x y : Int) : Prop :=
  lim.minX ≤ x ∧ x ≤ lim.maxX ∧ lim.minY ≤ y ∧ y ≤ lim.maxY

instance (lim : GridLimits) (x y : Int) : Decidable (lim.contains x y) := by
  unfold GridLimits.contains; infer_instance

/-- The part of `Planning::run` executed under the grid lock: `resetCellsTypes` over the
current limits, the copy of `newRobotPosition` and `newGridLimits` into `robotPosition` and
`gridLimits`, then `updateCellsTypes` over the copied limits. -/
def Planning.runClassifier (pl : Planning) (g : Grid) : Planning × Grid :=
  let g1 := resetCellsTypes pl.gridLimits g
  let pl1 := { pl with robotPosition := pl.newRobotPosition, gridLimits := pl.newGridLimits }
  (pl1, updateCellsTypes pl1.gridLimits g1)

/-! ## Cell-level readings of the mapping loops -/

/-- The square `[robotX - maxRangeInt, robotX + maxRangeInt] x [robotY - maxRangeInt,
robotY + maxRangeInt]` scanned by the laser passes. -/
def Robot.inLaserSquare (rb : Robot) (x y : Int) : Prop :=
  (rb.robotX - rb.laserRangeInt ≤ x ∧ x ≤ rb.robotX + rb.laserRangeInt)
    ∧ (rb.robotY - rb.laserRangeInt ≤ y ∧ y ≤ rb.robotY + rb.laserRangeInt)

instance (rb : Robot) (x y : Int) : Decidable (rb.inLaserSquare x y) := by
  unfold Robot.inLaserSquare; infer_instance

/-- What the body of the HIMM loop does to the cell it visits. -/
def Robot.himmCell (rb : Robot) (x y : Int) (c : Cell) : Cell :=
  if rb.himmSkip x y then c
  else if rb.himmSurface x y then { c with himm := himmIncrement c.himm }
  else if rb.himmBefore x y then { c with himm := himmDecrement c.himm }
  else c

/-- The cell `(x,y)` is scanned and found at the detected surface (the `himm += 3` branch). -/
def Robot.seesSurfaceAt (rb : Robot) (x y : Int) : Prop :=
  rb.inLaserSquare x y ∧ ¬ rb.himmSkip x y ∧ rb.himmSurface x y

/-- The cell `(x,y)` is scanned and found in free space (the `himm -= 1` branch). -/
def Robot.seesFreeAt (rb : Robot) (x y : Int) : Prop :=
  rb.inLaserSquare x y ∧ ¬ rb.himmSkip x y ∧ ¬ rb.himmSurface x y ∧ rb.himmBefore x y

instance (rb : Robot) (x y : Int) : Decidable (rb.seesSurfaceAt x y) := by
  unfold Robot.seesSurfaceAt; infer_instance

instance (rb : Robot) (x y : Int) : Decidable (rb.seesFreeAt x y) := by
  unfold Robot.seesFreeAt; infer_instance

/-- The square scanned by the sonar pass. -/
def Robot.inSonarSquare (rb : Robot) (x y : Int) : Prop :=
  (rb.robotX - rb.sonarRangeInt ≤ x ∧ x ≤ rb.robotX + rb.sonarRangeInt)
    ∧ (rb.robotY - rb.sonarRangeInt ≤ y ∧ y ≤ rb.robotY + rb.sonarRangeInt)

instance (rb : Robot) (x y : Int) : Decidable (rb.inSonarSquare x y) := by
  unfold Robot.inSonarSquare; infer_instance

/-- What the body of the sonar loop does to the cell it visits. -/
def Robot.sonarCell (rb : Robot) (x y : Int) (c : Cell) : Cell :=
  if rb.sonarOffBeam x y then c
  else if rb.sonarRegion1 x y then sonarWrite (1 / 2 * rb.occUpdateMainTerm x y + 1 / 2) c
  else if rb.sonarRegion2 x y then sonarWrite (1 / 2 * (1 - rb.occUpdateMainTerm x y)) c
  else c

/-- What the two threshold tests of phase 1 leave in `occType`, given `himm` and the
previous `occType`. -/
def occOfHimm (himm : Int) (old : OccType) : OccType :=
  if himm ≥ 10 then OccType.OCCUPIED else if himm ≤ 5 then OccType.FREE else old

/-- Some cell at Chebyshev distance at most `d` from `(x,y)` passes `test`. -/
def anyNear (g : Grid) (d : Int) (test : Cell → Bool) (x y : Int) : Bool :=
  (cellList (x - d) (x + d) (y - d) (y + d)).any (fun p => test (g p.1 p.2))

/-- The test `adjacentCell->occType == OCCUPIED`. -/
def isOccupied (c : Cell) : Bool := decide (c.occType = OccType.OCCUPIED)

/-- The test `adjacentCell->occType == FREE`. -/
def isFree (c : Cell) : Bool := decide (c.occType = OccType.FREE)

/-- The test `adjacentCell->planType == DANGER || adjacentCell->planType == NEAR_WALLS`. -/
def isHazard (c : Cell) : Bool :=
  decide (c.planType = PlanType.DANGER) || decide (c.planType = PlanType.NEAR_WALLS)

/-- The `planType` that the second loop of `updateCellsTypes` leaves in the cell `(x,y)`. -/
def hazardValue (g : Grid) (x y : Int) : PlanType :=
  if (g x y).occType = OccType.FREE then
    if anyNear g 3 isOccupied x y then PlanType.DANGER
    else if anyNear g 8 isOccupied x y then PlanType.NEAR_WALLS
    else PlanType.REGULAR
  else PlanType.REGULAR

/-- The `planType` that the third loop of `updateCellsTypes` leaves in an `UNEXPLORED` cell
`(x,y)` whose `planType` was `old`. -/
def frontierValue (g : Grid) (x y : Int) (old : PlanType) : PlanType :=
  if anyNear g 1 isHazard x y then PlanType.FRONTIER_NEAR_WALL
  else if anyNear g 1 isFree x y then PlanType.FRONTIER
  else old

/-! ## Grids for the classification examples -/

/-- The limits holding the single cell `(0,0)`. -/
def originLimits : GridLimits := { minX := 0, minY := 0, maxX := 0, maxY := 0 }

/-- A fresh grid in which the cell `(x,y)` has been replaced by `c`. -/
def gridWith (x y : Int) (c : Cell) : Grid := Grid.fresh.setCell x y c

/-- An ambiguous cell (`himm = 7`) at the origin, previously classified `occ`. -/
def ambiguousGrid (occ : OccType) : Grid :=
  gridWith 0 0 { Cell.fresh with himm := 7, occType := occ }

/-- A fresh grid whose cell `(1,0)`, outside `originLimits`, carries `occ` and `plan`. -/
def neighbourGrid (occ : OccType) (plan : PlanType) : Grid :=
  gridWith 1 0 { Cell.fresh with occType := occ, planType := plan }

/-- An ambiguous, unexplored cell at the origin next to a cell `(1,0)` carrying `occ` and
`plan`. -/
def frontierGrid (occ : OccType) (plan : PlanType) : Grid :=
  (neighbourGrid occ plan).setCell 0 0 { Cell.fresh with himm := 7 }

/-- The grid `neighbourGrid FREE REGULAR` in which the origin cell carries a stale
classification (`OCCUPIED`, `DANGER`) that its `himm = 0` does not support. -/
def staleGrid : Grid :=
  (neighbourGrid OccType.FREE PlanType.REGULAR).setCell 0 0
    { Cell.fresh with occType := OccType.OCCUPIED, planType := PlanType.DANGER }

/-! ## A small concrete scene

Map scale 1, robot at the origin heading along the x axis, laser range 3, and a single
surface detected at distance 2 straight ahead. -/

/-- Square roots of the squared distances occurring within two cells of the robot and of 9,
to two decimals. -/
def sceneSqrt (q : ℚ) : ℚ :=
  if q = 0 then 0 else if q = 1 then 1 else if q = 2 then 141 / 100
  else if q = 4 then 2 else if q = 5 then 224 / 100 else if q = 8 then 283 / 100
  else if q = 9 then 3 else 4

/-- Bearings in degrees of the cells on the axes and diagonals. -/
def sceneAtan2Deg (y x : ℚ) : ℚ :=
  if y = 0 then (if 0 ≤ x then 0 else 180)
  else if x = 0 then (if 0 < y then 90 else -90)
  else if 0 < x then (if 0 < y then 45 else -45)
  else (if 0 < y then 135 else -135)

/-- Numeric helpers of the scene. -/
def sceneOps : MathOps where
  sqrt := sceneSqrt
  atan2Deg := sceneAtan2Deg
  normalizeAngleDEG := fun a => a

/-- Sensors of the scene: beam `0` points straight ahead and reads 2, beam `1` points to the
left (90 degrees) and returns the maximum range 3; the same for laser and sonar. -/
def sceneBase : PioneerBase where
  getMaxLaserRange := 3
  getNearestLaserBeam := fun a => if a ≤ 45 then 0 else 1
  getAngleOfLaserBeam := fun k => if k = 0 then 0 else 90
  getKthLaserReading := fun k => if k = 0 then 2 else 3
  getMaxSonarRange := 3
  getNearestSonarBeam := fun a => if a ≤ 45 then 0 else 1
  getAngleOfSonarBeam := fun k => if k = 0 then 0 else 90
  getKthSonarReading := fun k => if k = 0 then 2 else 3

/-- The robot of the scene. -/
def sceneRobot : Robot where
  ops := sceneOps
  base := sceneBase
  scale := 1
  currentPose := { x := 0, y := 0, theta := 0 }

/-- The sensors of the scene when nothing is detected: every beam returns the maximum
range 3. -/
def clearBase : PioneerBase :=
  { sceneBase with
    getKthLaserReading := fun _ => 3
    getKthSonarReading := fun _ => 3 }

/-- The robot of the scene when nothing is detected. -/
def clearRobot : Robot := { sceneRobot with base := clearBase }

/-- The limits `[-3,3] x [-3,3]` around the robot of the scene. -/
def sceneLimits : GridLimits := { minX := -3, minY := -3, maxX := 3, maxY := 3 }

/-! ## Log-odds laser mapping (`Robot::inverseSensorModel`,
`Robot::mappingWithLogOddsUsingLaser`)

The two conversions and the branches of the inverse sensor model are written over an
arbitrary field, so that they can be read over the rationals stored in the cells and over
the reals; `exp` and `log` are parameters, like the other library functions. -/

/-- The method `Robot::getOccupancyFromLogOdds`: `1.0 - 1.0/(1.0+exp(logodds))`. -/
def getOccupancyFromLogOdds {F : Type} [Field F] (exp : F → F) (logodds : F) : F :=
  1 - 1 / (1 + exp logodds)

/-- The method `Robot::getLogOddsFromOccupancy`: `log(occupancy/(1.0-occupancy))`. -/
def getLogOddsFromOccupancy {F : Type} [Field F] (log : F → F) (occupancy : F) : F :=
  log (occupancy / (1 - occupancy))

/-- The three `if` statements of `Robot::inverseSensorModel` (`lambda_phi = 1.0`, so that
`lambda_phi / 2` is `0.5`), given the range `r` and bearing `phi` of the cell, the angle and
the reading of the nearest beam and the maximum range. The arithmetic in which the two
differences are evaluated is a parameter: `fl` is the rounding applied to a difference and
`halfLambdaR` the value of `lambda_r / 2`. The result is `none` when control falls off the
end of the function without a `return`. -/
def inverseSensorModelTests {F : Type} [LinearOrderedField F] (fl : F → F) (halfLambdaR : F)
    (r phi beamAngle reading maxRange : F) : Option F :=
  if |fl (phi - beamAngle)| > 1 / 2 ∨ r > min maxRange reading then some (1 / 2)
  else if reading < maxRange ∧ |fl (r - reading)| < halfLambdaR then some (9 / 10)
  else if r ≤ reading then some (1 / 10)
  else none

/-- The three `if` statements of `Robot::inverseSensorModel` in exact arithmetic
(`lambda_r = 0.1`, no rounding), as they read over the reals. -/
def inverseSensorModelBranches {F : Type} [LinearOrderedField F]
    (r phi beamAngle reading maxRange : F) : Option F :=
  inverseSensorModelTests id (1 / 20) r phi beamAngle reading maxRange

/-- The value `lambda_r / 2` of `inverseSensorModel`, for `float lambda_r = 0.1`: the `double`
literal is rounded to `float` and halved in `float`. -/
def ismHalfLambdaR : ℚ := roundFloat (roundFloat (roundDouble (1 / 10)) / 2)

/-- The value `float r = sqrt(pow(xCell - xRobot, 2) + pow(yCell - yRobot, 2)) / scale`
computed by `inverseSensorModel` from its arguments, rounded as in `Robot.cellRange`. -/
def Robot.rangeFrom (rb : Robot) (xCell yCell xRobot yRobot : Int) : ℚ :=
  roundFloat (roundDouble
    (rb.ops.sqrt ((((xCell - xRobot) ^ 2 + (yCell - yRobot) ^ 2 : Int) : ℚ))
      / (rb.scale : ℚ)))

/-- The value
`phi = normalizeAngleDEG(RAD2DEG(atan2(yCell - yRobot, xCell - xRobot)) - robotAngle)`
computed by `inverseSensorModel` from its arguments. -/
def Robot.bearingFrom (rb : Robot) (xCell yCell xRobot yRobot : Int) (robotAngle : ℚ) : ℚ :=
  rb.ops.normalizeAngleDEG
    (rb.ops.atan2Deg ((yCell - yRobot : Int) : ℚ) ((xCell - xRobot : Int) : ℚ) - robotAngle)

/-- The method `Robot::inverseSensorModel`: the differences of `float` values are rounded to
`float`. -/
def Robot.inverseSensorModel (rb : Robot) (xCell yCell xRobot yRobot : Int) (robotAngle : ℚ) :
    Option ℚ :=
  let r := rb.rangeFrom xCell yCell xRobot yRobot
  let phi := rb.bearingFrom xCell yCell xRobot yRobot robotAngle
  let k := rb.base.getNearestLaserBeam phi
  inverseSensorModelTests roundFloat ismHalfLambdaR r phi (rb.base.getAngleOfLaserBeam k)
    (rb.base.getKthLaserReading k) rb.base.getMaxLaserRange

/-- The functions `exp` and `log` of the C math library, as used on the values stored in
the cells. -/
structure LogOps where
  exp : ℚ → ℚ
  log : ℚ → ℚ

/-- The loop `for (int i = lo; i <= hi; i++) body` when the body may fail to produce a
state. -/
def forRangeM {σ : Type} (lo hi : Int) (body : Int → σ → Option σ) (s : σ) : Option σ :=
  (intRange lo hi).foldlM (fun t i => body i t) s

/-- The nested loop over `x` in `[x0,x1]` (outer) and `y` in `[y0,y1]` (inner) when the body
may fail to produce a state. -/
def forCellsM {σ : Type} (x0 x1 y0 y1 : Int) (body : Int → Int → σ → Option σ) (s : σ) :
    Option σ :=
  forRangeM x0 x1 (fun x t => forRangeM y0 y1 (fun y u => body x y u) t) s

/-- The value `r = sqrt(pow(cell->x - robotX, 2) + pow(cell->y - robotY, 2))`, in cells, that
the log-odds loop compares with `maxRangeInt`; the cell returned by `getCell(cellX, cellY)`
has `x = cellX` and `y = cellY`. -/
def Robot.cellDistance (rb : Robot) (cellX cellY : Int) : ℚ :=
  rb.ops.sqrt ((((cellX - rb.robotX) ^ 2 + (cellY - rb.robotY) ^ 2 : Int) : ℚ))

/-- The two assignments of the log-odds loop body for the update value `occupancyUpdate`. -/
def logOddsWrite (lo : LogOps) (occupancyUpdate : ℚ) (cell : Cell) : Cell :=
  { cell with
    logodds := cell.logodds + getLogOddsFromOccupancy lo.log occupancyUpdate
    occupancy := getOccupancyFromLogOdds lo.exp
      (cell.logodds + getLogOddsFromOccupancy lo.log occupancyUpdate) }

/-- The two assignments `cell->logodds += getLogOddsFromOccupancy(occupancyUpdate);
cell->occupancy = getOccupancyFromLogOdds(cell->logodds);` of the log-odds loop body, over an
arbitrary field: the new `logodds` and the new `occupancy` of a cell whose `logodds` was
`logodds`. -/
def logOddsUpdate {F : Type} [Field F] (exp log : F → F) (occupancyUpdate logodds : F) :
    F × F :=
  (logodds + getLogOddsFromOccupancy log occupancyUpdate,
    getOccupancyFromLogOdds exp (logodds + getLogOddsFromOccupancy log occupancyUpdate))

/-- Body of the double loop of `mappingWithLogOddsUsingLaser` for the cell `(cellX, cellY)`;
it produces no grid when `inverseSensorModel` returns no value. -/
def Robot.logOddsBody (rb : Robot) (lo : LogOps) (cellX cellY : Int) (g : Grid) : Option Grid :=
  let cell := g.getCell cellX cellY
  if rb.cellDistance cellX cellY < (rb.laserRangeInt : ℚ) then
    match rb.inverseSensorModel cellX cellY rb.robotX rb.robotY rb.currentPose.theta with
    | some occupancyUpdate => some (g.setCell cellX cellY (logOddsWrite lo occupancyUpdate cell))
    | none => none
  else some g

/-- The method `Robot::mappingWithLogOddsUsingLaser`. -/
def Robot.mappingWithLogOddsUsingLaser (rb : Robot) (lo : LogOps) (g : Grid) : Option Grid :=
  forCellsM (rb.robotX - rb.laserRangeInt) (rb.robotX + rb.laserRangeInt)
    (rb.robotY - rb.laserRangeInt) (rb.robotY + rb.laserRangeInt) (rb.logOddsBody lo) g

/-- The cell `(x,y)` lies in the disc scanned by the log-odds pass: inside the square and at
distance less than `maxRangeInt` cells. -/
def Robot.inLaserDisc (rb : Robot) (x y : Int) : Prop :=
  rb.inLaserSquare x y ∧ rb.cellDistance x y < (rb.laserRangeInt : ℚ)

instance (rb : Robot) (x y : Int) : Decidable (rb.inLaserDisc x y) := by
  unfold Robot.inLaserDisc; infer_instance

/-- What the body of the log-odds loop does to the cell it visits, with the neutral value
standing for a missing return value. -/
def Robot.logOddsCell (rb : Robot) (lo : LogOps) (x y : Int) (c : Cell) : Cell :=
  if rb.cellDistance x y < (rb.laserRangeInt : ℚ) then
    logOddsWrite lo
      ((rb.inverseSensorModel x y rb.robotX rb.robotY rb.currentPose.theta).getD (1 / 2)) c
  else c

/-- The body of the log-odds loop as a total function on grids. -/
def Robot.logOddsStep (rb : Robot) (lo : LogOps) (x y : Int) (g : Grid) : Grid :=
  if rb.cellDistance x y < (rb.laserRangeInt : ℚ) then
    g.setCell x y (rb.logOddsCell lo x y (g.getCell x y))
  else g

/-- First-order stand-ins for `exp` and `log` near their fixed points (`exp 0 = 1`,
`log 1 = 0`). -/
def sceneLogOps : LogOps where
  exp := fun q => 1 + q
  log := fun q => q - 1

/-! ## Potential field (`Planning::initializePotentials`, `iteratePotentials`,
`updateGradient`, `Planning::run`) -/

/-- The method `Planning::initializePotentials`: its body declares a pointer and performs no
statement. -/
def Planning.initializePotentials (_pl : Planning) (g : Grid) : Grid := g

/-- The method `Planning::iteratePotentials`: its body declares pointers and performs no
statement. -/
def Planning.iteratePotentials (_pl : Planning) (g : Grid) : Grid := g

/-- The method `Planning::updateGradient`: its body declares pointers and performs no
statement. -/
def Planning.updateGradient (_pl : Planning) (g : Grid) : Grid := g

/-- The method `Planning::run`: the classifier under the lock, then `initializePotentials`,
the loop `for(int i=0; i<100; i++) iteratePotentials()` and `updateGradient`. -/
def Planning.run (pl : Planning) (g : Grid) : Planning × Grid :=
  let pl1 := (pl.runClassifier g).1
  let g1 := (pl.runClassifier g).2
  let g2 := pl1.initializePotentials g1
  let g3 := forRange 0 99 (fun _ t => pl1.iteratePotentials t) g2
  (pl1, pl1.updateGradient g3)

/-- The limits `[-1,1] x [-1,1]`. -/
def unitLimits : GridLimits := { minX := -1, minY := -1, maxX := 1, maxY := 1 }

/-- A planner whose current and new limits are `unitLimits`. -/
def unitPlanning : Planning where
  scale := 1
  robotPosition := { x := 0, y := 0 }
  newRobotPosition := { x := 0, y := 0 }
  gridLimits := unitLimits
  newGridLimits := unitLimits
  maxUpdateRange := 1

/-- A free cell at the origin (`himm = 0`, `pot = 0`, `dir = 0`) surrounded by unexplored
frontier cells (`himm = 7`) of potential 1, except that the cell to its left has potential
`leftPot`. -/
def potentialGrid (leftPot : ℚ) : Grid := fun i j =>
  if i = 0 ∧ j = 0 then { Cell.fresh with occType := OccType.FREE }
  else
    { Cell.fresh with
      himm := 7
      planType := PlanType.FRONTIER
      pot := fun _ => if i = -1 ∧ j = 0 then leftPot else 1 }

/-! ## A sonar scene with a cell in the corner of the scanned square

Map scale 1, robot at the origin heading along the x axis, sonar range 3; the beam at 10
degrees detects a surface at distance 2.95. -/

/-- Numeric helpers of the corner scene: `sqrt 10` and `atan2(1,3)` in degrees, to three and
two decimals. -/
def cornerOps : MathOps where
  sqrt := fun q => if q = 10 then 3162 / 1000 else sceneSqrt q
  atan2Deg := fun y x => if y = 1 ∧ x = 3 then 1843 / 100 else sceneAtan2Deg y x
  normalizeAngleDEG := fun a => a

/-- Sensors of the corner scene: sonar beam `2` at 30 degrees, beam `3` at 10 degrees and
beam `4` at -10 degrees; beam `3` reads 2.95, the others return the maximum range 3. -/
def cornerBase : PioneerBase :=
  { sceneBase with
    getNearestSonarBeam := fun a => if a > 20 then 2 else if a > 0 then 3 else 4
    getAngleOfSonarBeam := fun k => 70 - 20 * (k : ℚ)
    getKthSonarReading := fun k => if k = 3 then 295 / 100 else 3 }

/-- The robot of the corner scene. -/
def cornerRobot : Robot where
  ops := cornerOps
  base := cornerBase
  scale := 1
  currentPose := { x := 0, y := 0, theta := 0 }

/-! ## A wall next to unexplored space -/

/-- The limits holding the row of cells `(0,0)`, `(1,0)`, `(2,0)`. -/
def rowLimits : GridLimits := { minX := 0, minY := 0, maxX := 2, maxY := 0 }

/-- A fresh grid with an ambiguous, unexplored cell (`himm = 7`) at `(0,0)` and strong
occupancy evidence (`himm = 12`) at `(2,0)`; the cell `(1,0)` between them has `himm = 0`. -/
def wallGrid : Grid :=
  (gridWith 2 0 { Cell.fresh with himm := 12 }).setCell 0 0 { Cell.fresh with himm := 7 }

/-! ## The laser rules on exact distances

The update rule of the HIMM pass and the inverse sensor model as the specification words
them: on the metric distance of the cell and with the decimal thresholds, in exact
arithmetic. They are compared below with the methods of the source. -/

/-- The metric distance `sqrt((cellX - robotX)^2 + (cellY - robotY)^2) / scale` of a cell to
the robot cell, without rounding. -/
def Robot.metricRange (rb : Robot) (cellX cellY : Int) : ℚ :=
  rb.ops.sqrt ((((cellX - rb.robotX) ^ 2 + (cellY - rb.robotY) ^ 2 : Int) : ℚ)) / (rb.scale : ℚ)

/-- The HIMM update rule in the words of the specification, on the metric distance and with
the thresholds `0.5` and `0.1`: the counter of the cell after the pass, given the counter
`himm` before it. -/
def Robot.himmRuleStated (rb : Robot) (cellX cellY : Int) (himm : Int) : Int :=
  if |rb.cellBearing cellX cellY - rb.base.getAngleOfLaserBeam (rb.laserBeam cellX cellY)|
        > 1 / 2
      ∨ rb.metricRange cellX cellY
        > min rb.base.getMaxLaserRange (rb.laserReading cellX cellY) then himm
  else if rb.laserReading cellX cellY < rb.base.getMaxLaserRange
      ∧ |rb.metricRange cellX cellY - rb.laserReading cellX cellY| < 1 / 10 then
    min (himm + 3) 15
  else max (himm - 1) 0

/-- The metric distance `sqrt((xCell - xRobot)^2 + (yCell - yRobot)^2) / scale` between two
cells, without rounding. -/
def Robot.metricRangeFrom (rb : Robot) (xCell yCell xRobot yRobot : Int) : ℚ :=
  rb.ops.sqrt ((((xCell - xRobot) ^ 2 + (yCell - yRobot) ^ 2 : Int) : ℚ)) / (rb.scale : ℚ)

/-- The inverse sensor model in the words of the specification, on the metric distance and
with the thresholds `0.5` and `0.05`, in exact arithmetic. -/
def Robot.inverseSensorModelStated (rb : Robot) (xCell yCell xRobot yRobot : Int)
    (robotAngle : ℚ) : Option ℚ :=
  inverseSensorModelBranches (rb.metricRangeFrom xCell yCell xRobot yRobot)
    (rb.bearingFrom xCell yCell xRobot yRobot robotAngle)
    (rb.base.getAngleOfLaserBeam
      (rb.base.getNearestLaserBeam (rb.bearingFrom xCell yCell xRobot yRobot robotAngle)))
    (rb.base.getKthLaserReading
      (rb.base.getNearestLaserBeam (rb.bearingFrom xCell yCell xRobot yRobot robotAngle)))
    rb.base.getMaxLaserRange

/-! ## Scenes with a cell at a decimal distance from the surface

The robot stands at the origin and heads along the x axis; a single beam points straight
ahead. -/

/-- Square roots of the squared distances `16` and `1521` of the cells `(4,0)` and `(39,0)`,
besides those of the small scene. -/
def axisSqrt (q : ℚ) : ℚ :=
  if q = 16 then 4 else if q = 1521 then 39 else sceneSqrt q

/-- Numeric helpers of the scenes on the axis. -/
def axisOps : MathOps where
  sqrt := axisSqrt
  atan2Deg := sceneAtan2Deg
  normalizeAngleDEG := fun a => a

/-- Sensors with a single beam at angle 0, of the given maximum range and reading. -/
def axisBase (maxRange reading : ℚ) : PioneerBase where
  getMaxLaserRange := maxRange
  getNearestLaserBeam := fun _ => 0
  getAngleOfLaserBeam := fun _ => 0
  getKthLaserReading := fun _ => reading
  getMaxSonarRange := maxRange
  getNearestSonarBeam := fun _ => 0
  getAngleOfSonarBeam := fun _ => 0
  getKthSonarReading := fun _ => reading

/-- Map scale 10 (cells of 10 cm), laser range 1 m, a surface detected at 0.5 m. -/
def decimetreRobot : Robot where
  ops := axisOps
  base := axisBase 1 (1 / 2)
  scale := 10
  currentPose := { x := 0, y := 0, theta := 0 }

/-- Map scale 20 (cells of 5 cm), laser range 3 m, a surface detected at 2 m. -/
def halfDecimetreRobot : Robot where
  ops := axisOps
  base := axisBase 3 2
  scale := 20
  currentPose := { x := 0, y := 0, theta := 0 }

/-- A fresh grid whose cell `(4,0)` carries the counter 7. -/
def sevenGrid : Grid := gridWith 4 0 { Cell.fresh with himm := 7 }

/-! ## Grid limits: the margin of a pose, and a planner for a laser of range 9 m -/

/-- The value `z` is within the range of `int`. -/
def inIntRange (z : Int) : Prop := -2147483648 ≤ z ∧ z ≤ 2147483647

instance (z : Int) : Decidable (inIntRange z) := by
  unfold inIntRange; infer_instance

/-- The four values `cell - maxUpdateRange` and `cell + maxUpdateRange` that `setNewRobotPose` computes
for the pose `p` are within the range of `int`. -/
def Planning.marginInRange (pl : Planning) (p : Pose) : Prop :=
  (inIntRange ((pl.cellOfPose p).x - pl.maxUpdateRange)
      ∧ inIntRange ((pl.cellOfPose p).x + pl.maxUpdateRange))
    ∧ (inIntRange ((pl.cellOfPose p).y - pl.maxUpdateRange)
      ∧ inIntRange ((pl.cellOfPose p).y + pl.maxUpdateRange))

/-- Map scale 10 and a maximum laser range of 9 m, for which `1.2 * 9 * 10 = 108`. -/
def nineMetreRobot : Robot where
  ops := axisOps
  base := axisBase 9 9
  scale := 10
  currentPose := { x := 0, y := 0, theta := 0 }

/-- The pose at the origin. -/
def originPose : Pose := { x := 0, y := 0, theta := 0 }

/-! ## States reached by the program -/

/-- The states of the planner and of the grid that the program reaches: the constructor of
`Robot` creates the grid and the planner and calls `setMaxUpdateRange`; afterwards each
cycle of `Robot::run` calls `setNewRobotPose` and the mapping methods, and `Planning::run`
classifies the cells. The mapping methods and the classifier exclude each other through the
mutex of the grid, so each of them is one step. -/
inductive Reachable : Planning → Grid → Prop where
  | construct (scale junk : Int) : Reachable (Planning.construct scale junk) Grid.fresh
  | setMaxUpdateRange {pl : Planning} {g : Grid} (r : Int) :
      Reachable pl g → Reachable (pl.setMaxUpdateRange r) g
  | setNewRobotPose {pl : Planning} {g : Grid} (p : Pose) :
      Reachable pl g → Reachable (pl.setNewRobotPose p) g
  | mappingWithHIMMUsingLaser {pl : Planning} {g : Grid} (rb : Robot) :
      Reachable pl g → Reachable pl (rb.mappingWithHIMMUsingLaser g)
  | mappingUsingSonar {pl : Planning} {g : Grid} (rb : Robot) :
      Reachable pl g → Reachable pl (rb.mappingUsingSonar g)
  | mappingWithLogOddsUsingLaser {pl : Planning} {g : Grid} (rb : Robot) (lo : LogOps)
      (g2 : Grid) :
      Reachable pl g → rb.mappingWithLogOddsUsingLaser lo g = some g2 → Reachable pl g2
  | run {pl : Planning} {g : Grid} : Reachable pl g → Reachable (pl.run g).1 (pl.run g).2

/-! ## Loops as folds over the visited cells -/

theorem mem_intRange (lo hi i : Int) : i ∈ intRange lo hi ↔ lo ≤ i ∧ i ≤ hi := by
  unfold intRange
  simp only [List.mem_map, List.mem_range]
  constructor
  · rintro ⟨k, hk, rfl⟩
    omega
  · rintro ⟨h1, h2⟩
    exact ⟨(i - lo).toNat, by omega, by omega⟩

theorem nodup_intRange (lo hi : Int) : (intRange lo hi).Nodup := by
  unfold intRange
  apply List.Nodup.map _ (List.nodup_range _)
  intro a b h
  simpa using h

theorem mem_cellList (x0 x1 y0 y1 i j : Int) :
    (i, j) ∈ cellList x0 x1 y0 y1 ↔ (x0 ≤ i ∧ i ≤ x1) ∧ (y0 ≤ j ∧ j ≤ y1) := by
  unfold cellList
  rw [List.pair_mem_product, mem_intRange, mem_intRange]

theorem nodup_cellList (x0 x1 y0 y1 : Int) : (cellList x0 x1 y0 y1).Nodup :=
  List.Nodup.product (nodup_intRange _ _) (nodup_intRange _ _)

theorem foldl_product {σ : Type} (body : Int → Int → σ → σ) (ys : List Int) :
    ∀ (xs : List Int) (s : σ),
      xs.foldl (fun t x => ys.foldl (fun u y => body x y u) t) s
        = (List.product xs ys).foldl (fun t p => body p.1 p.2 t) s := by
  intro xs
  induction xs with
  | nil => intro s; rfl
  | cons x xs ih =>
    intro s
    rw [List.foldl_cons, ih]
    show _ = List.foldl _ s (List.map (Prod.mk x) ys ++ List.product xs ys)
    rw [List.foldl_append, List.foldl_map]

theorem forCells_eq_foldl {σ : Type} (x0 x1 y0 y1 : Int) (body : Int → Int → σ → σ) (s : σ) :
    forCells x0 x1 y0 y1 body s
      = (cellList x0 x1 y0 y1).foldl (fun t p => body p.1 p.2 t) s := by
  unfold forCells forRange cellList
  exact foldl_product body _ _ s

/-- A loop over cells whose body, under an invariant `I` of the grid, rewrites only the
visited cell, as a function `F` of that cell, acts cell by cell. -/
theorem foldl_pointwise (body : Int → Int → Grid → Grid) (F : Int → Int → Cell → Cell)
    (I : Grid → Prop) :
    ∀ (l : List (Int × Int)), l.Nodup →
      (∀ p ∈ l, ∀ s, I s → I (body p.1 p.2 s)) →
      (∀ p ∈ l, ∀ s, I s → body p.1 p.2 s p.1 p.2 = F p.1 p.2 (s p.1 p.2)) →
      (∀ p ∈ l, ∀ s, I s → ∀ i j, ¬ (i = p.1 ∧ j = p.2) → body p.1 p.2 s i j = s i j) →
      ∀ g : Grid, I g →
        I (l.foldl (fun t p => body p.1 p.2 t) g) ∧
        ∀ i j, (l.foldl (fun t p => body p.1 p.2 t) g) i j
          = if (i, j) ∈ l then F i j (g i j) else g i j := by
  intro l
  induction l with
  | nil => intro _ _ _ _ g hg; exact ⟨hg, fun i j => by simp⟩
  | cons p l ih =>
    intro hnd hI hat hoth g hg
    rw [List.nodup_cons] at hnd
    have hp : p ∈ p :: l := List.mem_cons_self _ _
    have h1 : I (body p.1 p.2 g) := hI p hp g hg
    obtain ⟨hI2, hval⟩ := ih hnd.2
      (fun q hq => hI q (List.mem_cons_of_mem _ hq))
      (fun q hq => hat q (List.mem_cons_of_mem _ hq))
      (fun q hq => hoth q (List.mem_cons_of_mem _ hq)) (body p.1 p.2 g) h1
    refine ⟨hI2, fun i j => ?_⟩
    rw [List.foldl_cons, hval i j]
    by_cases hij : i = p.1 ∧ j = p.2
    · obtain ⟨hi, hj⟩ := hij
      subst hi hj
      have hnot : (p.1, p.2) ∉ l := hnd.1
      simp only [hnot, if_false, List.mem_cons, true_or, if_true]
      exact hat p hp g hg
    · have hne : (i, j) ≠ p := fun h => hij (by rw [← h]; exact ⟨rfl, rfl⟩)
      rw [hoth p hp g hg i j hij]
      simp only [List.mem_cons, hne, false_or]

/-- The cell-by-cell reading of a `forCells` loop. -/
theorem forCells_pointwise (x0 x1 y0 y1 : Int) (body : Int → Int → Grid → Grid)
    (F : Int → Int → Cell → Cell) (I : Grid → Prop)
    (hI : ∀ x y, (x0 ≤ x ∧ x ≤ x1) ∧ (y0 ≤ y ∧ y ≤ y1) → ∀ s, I s → I (body x y s))
    (hat : ∀ x y, (x0 ≤ x ∧ x ≤ x1) ∧ (y0 ≤ y ∧ y ≤ y1) → ∀ s, I s →
      body x y s x y = F x y (s x y))
    (hoth : ∀ x y, (x0 ≤ x ∧ x ≤ x1) ∧ (y0 ≤ y ∧ y ≤ y1) → ∀ s, I s →
      ∀ i j, ¬ (i = x ∧ j = y) → body x y s i j = s i j)
    (g : Grid) (hg : I g) :
    I (forCells x0 x1 y0 y1 body g) ∧
      ∀ i j, forCells x0 x1 y0 y1 body g i j
        = if (x0 ≤ i ∧ i ≤ x1) ∧ (y0 ≤ j ∧ j ≤ y1) then F i j (g i j) else g i j := by
  rw [forCells_eq_foldl]
  have h := foldl_pointwise body F I (cellList x0 x1 y0 y1) (nodup_cellList _ _ _ _)
    (fun p hp => hI p.1 p.2 ((mem_cellList _ _ _ _ _ _).1 hp))
    (fun p hp => hat p.1 p.2 ((mem_cellList _ _ _ _ _ _).1 hp))
    (fun p hp => hoth p.1 p.2 ((mem_cellList _ _ _ _ _ _).1 hp)) g hg
  refine ⟨h.1, fun i j => ?_⟩
  rw [h.2 i j]
  simp only [mem_cellList]

theorem setCell_same (g : Grid) (x y : Int) (c : Cell) : g.setCell x y c x y = c := by
  simp [Grid.setCell]

theorem setCell_other (g : Grid) (x y : Int) (c : Cell) (i j : Int) (h : ¬ (i = x ∧ j = y)) :
    g.setCell x y c i j = g i j := by
  simp [Grid.setCell, h]

/-! ## Floating-point rounding -/

/-- A value within half a unit of an integer rounds to it. -/
theorem roundHalfEven_eq (s : ℚ) (m : Int) (h : |s - m| < 1 / 2) : roundHalfEven s = m := by
  have h1 := (abs_lt.1 h).1
  have h2 := (abs_lt.1 h).2
  unfold roundHalfEven
  by_cases hm : (m : ℚ) ≤ s
  · have hf : ⌊s⌋ = m := by
      rw [Int.floor_eq_iff]
      constructor
      · exact hm
      · linarith
    rw [hf, if_pos (by linarith)]
  · have hm2 : s < m := not_le.1 hm
    have hf : ⌊s⌋ = m - 1 := by
      rw [Int.floor_eq_iff]
      push_cast
      constructor
      · linarith
      · linarith
    rw [hf]
    push_cast
    rw [if_neg (by linarith), if_pos (by linarith)]
    ring
/-- The binary logarithm of a value of the binade `[2^k, 2^(k+1))`. -/
theorem int_log_two_eq (q : ℚ) (k : Int) (h1 : (2 : ℚ) ^ k ≤ q) (h2 : q < (2 : ℚ) ^ (k + 1)) :
    Int.log 2 q = k := by
  have hq : 0 < q := lt_of_lt_of_le (by positivity) h1
  have hb : 1 < (2 : ℕ) := by norm_num
  have ha : k ≤ Int.log 2 q := by
    rw [← Int.zpow_le_iff_le_log hb hq]
    exact_mod_cast h1
  have hc : Int.log 2 q < k + 1 := by
    rw [← Int.lt_zpow_iff_log_lt hb hq]
    exact_mod_cast h2
  omega
/-- Evaluation of a rounding: `q` lies in the binade `[2^k, 2^(k+1))` and `m` is the integer
nearest to `q` in units of the last place. -/
theorem roundBinary_eq (p : Nat) (emin : Int) (q : ℚ) (k m : Int)
    (h1 : (2 : ℚ) ^ k ≤ |q|) (h2 : |q| < (2 : ℚ) ^ (k + 1)) (he : emin ≤ k + 1 - p)
    (hm : |q / 2 ^ (k + 1 - p) - m| < 1 / 2) :
    roundBinary p emin q = (m : ℚ) * 2 ^ (k + 1 - (p : Int)) := by
  unfold roundBinary
  rw [int_log_two_eq _ k h1 h2, max_eq_left he, roundHalfEven_eq _ m hm]

theorem roundHalfEven_intCast (m : Int) : roundHalfEven (m : ℚ) = m :=
  roundHalfEven_eq _ m (by simp)

theorem roundBinary_zero (p : Nat) (emin : Int) : roundBinary p emin 0 = 0 := by
  unfold roundBinary
  simp [roundHalfEven]

/-- An integer of fewer than `p` bits is a value of the format. -/
theorem roundBinary_intCast (p : Nat) (emin : Int) (z : Int) (hz : |z| < 2 ^ p)
    (he : emin ≤ 1 - p) : roundBinary p emin (z : ℚ) = z := by
  by_cases h0 : z = 0
  · subst h0
    simpa using roundBinary_zero p emin
  have hb : 1 < (2 : ℕ) := by norm_num
  have hpos : (0 : ℚ) < |(z : ℚ)| := abs_pos.2 (by exact_mod_cast h0)
  have h1 : (1 : ℚ) ≤ |(z : ℚ)| := by
    have : (1 : Int) ≤ |z| := Int.one_le_abs h0
    exact_mod_cast this
  have hk0 : 0 ≤ Int.log 2 |(z : ℚ)| := by
    rw [← Int.zpow_le_iff_le_log hb hpos]
    simpa using h1
  have hkp : Int.log 2 |(z : ℚ)| < p := by
    rw [← Int.lt_zpow_iff_log_lt hb hpos]
    have : ((|z| : Int) : ℚ) < ((2 ^ p : Int) : ℚ) := by exact_mod_cast hz
    simpa using this
  obtain ⟨n, hn⟩ : ∃ n : Nat, Int.log 2 |(z : ℚ)| + 1 - p = -(n : Int) :=
    ⟨(p - 1 - Int.log 2 |(z : ℚ)|).toNat, by omega⟩
  unfold roundBinary
  rw [max_eq_left (by omega), hn]
  have hq : (z : ℚ) / 2 ^ (-(n : Int)) = ((z * 2 ^ n : Int) : ℚ) := by
    rw [zpow_neg, zpow_natCast]
    push_cast
    field_simp
  rw [hq, roundHalfEven_intCast, zpow_neg, zpow_natCast]
  push_cast
  field_simp

theorem roundFloat_intCast (z : Int) (hz : |z| < 16777216) : roundFloat (z : ℚ) = z :=
  roundBinary_intCast 24 (-149) z (by norm_num; exact hz) (by norm_num)

theorem roundDouble_intCast (z : Int) (hz : |z| < 9007199254740992) :
    roundDouble (z : ℚ) = z :=
  roundBinary_intCast 53 (-1074) z (by norm_num; exact hz) (by norm_num)

theorem roundFloat_zero : roundFloat 0 = 0 := roundBinary_zero _ _

theorem roundFloat_one : roundFloat 1 = 1 := by
  simpa using roundFloat_intCast 1 (by decide)

theorem roundFloat_two : roundFloat 2 = 2 := by
  simpa using roundFloat_intCast 2 (by decide)

theorem roundFloat_three : roundFloat 3 = 3 := by
  simpa using roundFloat_intCast 3 (by decide)

theorem roundFloat_neg_one : roundFloat (-1) = -1 := by
  simpa using roundFloat_intCast (-1) (by decide)

theorem roundDouble_one : roundDouble 1 = 1 := by
  simpa using roundDouble_intCast 1 (by decide)

theorem roundDouble_two : roundDouble 2 = 2 := by
  simpa using roundDouble_intCast 2 (by decide)

/-- The `float` nearest to `0.2`, halved: the threshold `lambda_r / 2` of the HIMM pass. -/
theorem himmHalfLambdaR_eq : himmHalfLambdaR = 13421773 / 134217728 := by
  have h1 : roundDouble (1 / 5) = 3602879701896397 / 18014398509481984 := by
    unfold roundDouble
    rw [roundBinary_eq 53 (-1074) _ (-3) 7205759403792794
      (by norm_num [abs_of_pos]) (by norm_num [abs_of_pos]) (by norm_num)
      (by norm_num [abs_lt])]
    norm_num
  have h2 : roundFloat (3602879701896397 / 18014398509481984) = 13421773 / 67108864 := by
    unfold roundFloat
    rw [roundBinary_eq 24 (-149) _ (-3) 13421773
      (by norm_num [abs_of_pos]) (by norm_num [abs_of_pos]) (by norm_num)
      (by norm_num [abs_lt])]
    norm_num
  have h3 : roundFloat (13421773 / 67108864 / 2) = 13421773 / 134217728 := by
    unfold roundFloat
    rw [roundBinary_eq 24 (-149) _ (-4) 13421773
      (by norm_num [abs_of_pos]) (by norm_num [abs_of_pos]) (by norm_num)
      (by norm_num [abs_lt])]
    norm_num
  unfold himmHalfLambdaR
  rw [h1, h2, h3]

/-- The `float` nearest to `0.1`, halved: the threshold `lambda_r / 2` of
`inverseSensorModel`. -/
theorem ismHalfLambdaR_eq : ismHalfLambdaR = 13421773 / 268435456 := by
  have h1 : roundDouble (1 / 10) = 3602879701896397 / 36028797018963968 := by
    unfold roundDouble
    rw [roundBinary_eq 53 (-1074) _ (-4) 7205759403792794
      (by norm_num [abs_of_pos]) (by norm_num [abs_of_pos]) (by norm_num)
      (by norm_num [abs_lt])]
    norm_num
  have h2 : roundFloat (3602879701896397 / 36028797018963968) = 13421773 / 134217728 := by
    unfold roundFloat
    rw [roundBinary_eq 24 (-149) _ (-4) 13421773
      (by norm_num [abs_of_pos]) (by norm_num [abs_of_pos]) (by norm_num)
      (by norm_num [abs_lt])]
    norm_num
  have h3 : roundFloat (13421773 / 134217728 / 2) = 13421773 / 268435456 := by
    unfold roundFloat
    rw [roundBinary_eq 24 (-149) _ (-5) 13421773
      (by norm_num [abs_of_pos]) (by norm_num [abs_of_pos]) (by norm_num)
      (by norm_num [abs_lt])]
    norm_num
  unfold ismHalfLambdaR
  rw [h1, h2, h3]

/-! ## HIMM counter -/

theorem wrapInt32_of_range (z : Int) (h1 : -2147483648 ≤ z) (h2 : z < 2147483648) :
    wrapInt32 z = z := by
  unfold wrapInt32
  omega

theorem himmIncrement_eq (h : Int) (h1 : -2147483648 ≤ h + 3) (h2 : h + 3 < 2147483648) :
    himmIncrement h = min (h + 3) 15 := by
  unfold himmIncrement
  rw [wrapInt32_of_range _ h1 h2]

theorem himmDecrement_eq (h : Int) (h1 : -2147483648 ≤ h - 1) (h2 : h - 1 < 2147483648) :
    himmDecrement h = max (h - 1) 0 := by
  unfold himmDecrement
  rw [wrapInt32_of_range _ h1 h2]

theorem himmIncrement_bounds (h : Int) (h0 : 0 ≤ h) (h15 : h ≤ 15) :
    0 ≤ himmIncrement h ∧ himmIncrement h ≤ 15 := by
  rw [himmIncrement_eq h (by omega) (by omega)]
  omega

theorem himmDecrement_bounds (h : Int) (h0 : 0 ≤ h) (h15 : h ≤ 15) :
    0 ≤ himmDecrement h ∧ himmDecrement h ≤ 15 := by
  rw [himmDecrement_eq h (by omega) (by omega)]
  omega

/-- The HIMM pass acts cell by cell: inside the scanned square it applies `himmCell`, and it
leaves every other cell alone. -/
theorem mappingWithHIMMUsingLaser_apply (rb : Robot) (g : Grid) (i j : Int) :
    rb.mappingWithHIMMUsingLaser g i j
      = if rb.inLaserSquare i j then rb.himmCell i j (g i j) else g i j := by
  have h := (forCells_pointwise (rb.robotX - rb.laserRangeInt) (rb.robotX + rb.laserRangeInt)
    (rb.robotY - rb.laserRangeInt) (rb.robotY + rb.laserRangeInt) rb.himmBody rb.himmCell
    (fun _ => True) (fun _ _ _ _ _ => trivial)
    (fun x y _ s _ => by
      unfold Robot.himmBody Robot.himmCell Grid.getCell
      by_cases h1 : rb.himmSkip x y
      · simp only [h1, if_true]
      · by_cases h2 : rb.himmSurface x y
        · simp only [h1, h2, if_true, if_false, setCell_same]
        · by_cases h3 : rb.himmBefore x y
          · simp only [h1, h2, h3, if_true, if_false, setCell_same]
          · simp only [h1, h2, h3, if_false])
    (fun x y _ s _ i j hij => by
      unfold Robot.himmBody
      by_cases h1 : rb.himmSkip x y
      · simp only [h1, if_true]
      · by_cases h2 : rb.himmSurface x y
        · simp only [h1, h2, if_true, if_false, setCell_other _ _ _ _ _ _ hij]
        · by_cases h3 : rb.himmBefore x y
          · simp only [h1, h2, h3, if_true, if_false, setCell_other _ _ _ _ _ _ hij]
          · simp only [h1, h2, h3, if_false])
    g trivial).2 i j
  exact h

theorem himmCell_bounds (rb : Robot) (x y : Int) (c : Cell) (h0 : 0 ≤ c.himm)
    (h15 : c.himm ≤ 15) : 0 ≤ (rb.himmCell x y c).himm ∧ (rb.himmCell x y c).himm ≤ 15 := by
  unfold Robot.himmCell
  split_ifs
  · exact ⟨h0, h15⟩
  · exact himmIncrement_bounds _ h0 h15
  · exact himmDecrement_bounds _ h0 h15
  · exact ⟨h0, h15⟩

theorem mappingWithHIMMUsingLaser_bounds (rb : Robot) (g : Grid) (x y : Int)
    (h : 0 ≤ (g x y).himm ∧ (g x y).himm ≤ 15) :
    0 ≤ (rb.mappingWithHIMMUsingLaser g x y).himm
      ∧ (rb.mappingWithHIMMUsingLaser g x y).himm ≤ 15 := by
  rw [mappingWithHIMMUsingLaser_apply]
  split_ifs
  · exact himmCell_bounds rb x y _ h.1 h.2
  · exact h

theorem himmPasses_append (cs : List Robot) (rb : Robot) (g : Grid) :
    himmPasses (cs ++ [rb]) g = rb.mappingWithHIMMUsingLaser (himmPasses cs g) := by
  unfold himmPasses
  rw [List.foldl_append]
  rfl

/-- C1 (HIMM counter bounds). A cell whose `himm` lies in `[0,15]` still has `himm` in
`[0,15]` after one `mappingWithHIMMUsingLaser` pass, for every pose and every laser reading
set, and therefore after any number of passes, each with its own pose and readings. -/
theorem himm_bounds_invariant (g : Grid) (x y : Int)
    (h : 0 ≤ (g x y).himm ∧ (g x y).himm ≤ 15) :
    (∀ rb : Robot, 0 ≤ (rb.mappingWithHIMMUsingLaser g x y).himm
        ∧ (rb.mappingWithHIMMUsingLaser g x y).himm ≤ 15)
      ∧ ∀ cycles : List Robot, 0 ≤ (himmPasses cycles g x y).himm
        ∧ (himmPasses cycles g x y).himm ≤ 15 := by
  refine ⟨fun rb => mappingWithHIMMUsingLaser_bounds rb g x y h, fun cycles => ?_⟩
  induction cycles using List.reverseRecOn with
  | nil => exact h
  | append_singleton cs rb ih =>
    rw [himmPasses_append]
    exact mappingWithHIMMUsingLaser_bounds rb _ x y ih

theorem himm_bounds_invariant_witness :
    (0 ≤ (Grid.fresh 2 0).himm ∧ (Grid.fresh 2 0).himm ≤ 15)
      ∧ ((∀ rb : Robot, 0 ≤ (rb.mappingWithHIMMUsingLaser Grid.fresh 2 0).himm
          ∧ (rb.mappingWithHIMMUsingLaser Grid.fresh 2 0).himm ≤ 15)
        ∧ ∀ cycles : List Robot, 0 ≤ (himmPasses cycles Grid.fresh 2 0).himm
          ∧ (himmPasses cycles Grid.fresh 2 0).himm ≤ 15) :=
  ⟨by decide, himm_bounds_invariant Grid.fresh 2 0 (by decide)⟩

theorem truncate_intCast (z : Int) : truncate (z : ℚ) = z := by
  unfold truncate
  split_ifs <;> simp

/-- An integer within the range of `int` converts to itself. -/
theorem truncToInt_intCast (z : Int) (h : -2147483648 ≤ z ∧ z ≤ 2147483647) :
    truncToInt (z : ℚ) = z := by
  unfold truncToInt
  rw [truncate_intCast, if_pos h]

theorem truncToInt_zero : truncToInt 0 = 0 := by
  simpa using truncToInt_intCast 0 (by decide)

theorem truncToInt_three : truncToInt 3 = 3 := by
  simpa using truncToInt_intCast 3 (by decide)

/-- At map scale 1 the product with the scale is the value itself, rounded to `float`. -/
theorem timesScale_one (rb : Robot) (h : rb.scale = 1) (v : ℚ) :
    rb.timesScale v = roundFloat v := by
  unfold Robot.timesScale
  rw [h]
  simp [roundFloat_one]

theorem sceneRobot_robotX : sceneRobot.robotX = 0 := by
  unfold Robot.robotX
  rw [timesScale_one _ rfl]
  simp [sceneRobot, roundFloat_zero, truncToInt_zero]

theorem sceneRobot_robotY : sceneRobot.robotY = 0 := by
  unfold Robot.robotY
  rw [timesScale_one _ rfl]
  simp [sceneRobot, roundFloat_zero, truncToInt_zero]

theorem sceneRobot_laserRangeInt : sceneRobot.laserRangeInt = 3 := by
  unfold Robot.laserRangeInt
  rw [timesScale_one _ rfl]
  simp [sceneRobot, sceneBase, roundFloat_three, truncToInt_three]

theorem clearRobot_robotX : clearRobot.robotX = 0 := by
  unfold Robot.robotX
  rw [timesScale_one _ rfl]
  simp [clearRobot, sceneRobot, roundFloat_zero, truncToInt_zero]

theorem clearRobot_robotY : clearRobot.robotY = 0 := by
  unfold Robot.robotY
  rw [timesScale_one _ rfl]
  simp [clearRobot, sceneRobot, roundFloat_zero, truncToInt_zero]

theorem clearRobot_laserRangeInt : clearRobot.laserRangeInt = 3 := by
  unfold Robot.laserRangeInt
  rw [timesScale_one _ rfl]
  simp [clearRobot, clearBase, sceneRobot, sceneBase, roundFloat_three, truncToInt_three]

/-- In the scene, the cell two steps ahead of the robot is at the detected surface. -/
theorem sceneRobot_seesSurfaceAt : sceneRobot.seesSurfaceAt 2 0 := by
  simp [Robot.seesSurfaceAt, Robot.inLaserSquare, sceneRobot_robotX, sceneRobot_robotY,
    sceneRobot_laserRangeInt, Robot.himmSkip, Robot.himmSurface, Robot.cellRange,
    Robot.cellBearing, Robot.laserReading, Robot.laserBeam, himmHalfLambdaR_eq]
  simp [sceneRobot, sceneOps, sceneBase, sceneSqrt, sceneAtan2Deg, roundFloat_zero,
    roundFloat_two, roundDouble_two]
  norm_num

/-- When nothing is detected, the cell two steps ahead of the robot is in free space. -/
theorem clearRobot_seesFreeAt : clearRobot.seesFreeAt 2 0 := by
  simp [Robot.seesFreeAt, Robot.inLaserSquare, clearRobot_robotX, clearRobot_robotY,
    clearRobot_laserRangeInt, Robot.himmSkip, Robot.himmSurface, Robot.himmBefore,
    Robot.cellRange, Robot.cellBearing, Robot.laserReading, Robot.laserBeam,
    himmHalfLambdaR_eq]
  simp [clearRobot, clearBase, sceneRobot, sceneOps, sceneBase, sceneSqrt, sceneAtan2Deg,
    roundFloat_zero, roundFloat_two, roundDouble_two]
  norm_num

theorem roundFloat_ten : roundFloat 10 = 10 := by
  simpa using roundFloat_intCast 10 (by decide)

theorem decimetreRobot_robotX : decimetreRobot.robotX = 0 := by
  simp [Robot.robotX, Robot.timesScale, decimetreRobot, roundFloat_zero, truncToInt_zero]

theorem decimetreRobot_robotY : decimetreRobot.robotY = 0 := by
  simp [Robot.robotY, Robot.timesScale, decimetreRobot, roundFloat_zero, truncToInt_zero]

theorem decimetreRobot_laserRangeInt : decimetreRobot.laserRangeInt = 10 := by
  have h : truncToInt 10 = 10 := by simpa using truncToInt_intCast 10 (by decide)
  simp [Robot.laserRangeInt, Robot.timesScale, decimetreRobot, axisBase, roundFloat_ten, h]

/-- The quotient `4 / 10` rounded to `double`, then to `float`: the `float` nearest to
`0.4`, which lies above `0.4`. -/
theorem roundFloat_roundDouble_two_fifths :
    roundFloat (roundDouble (2 / 5)) = 13421773 / 33554432 := by
  have h1 : roundDouble (2 / 5) = 3602879701896397 / 9007199254740992 := by
    unfold roundDouble
    rw [roundBinary_eq 53 (-1074) (2 / 5) (-2) 7205759403792794
      (by norm_num [abs_of_pos]) (by norm_num [abs_of_pos]) (by norm_num)
      (by norm_num [abs_lt])]
    norm_num
  rw [h1]
  unfold roundFloat
  rw [roundBinary_eq 24 (-149) _ (-2) 13421773
    (by norm_num [abs_of_pos]) (by norm_num [abs_of_pos]) (by norm_num)
    (by norm_num [abs_lt])]
  norm_num

/-- The difference `0.4f - 0.5` is a `float`. -/
theorem roundFloat_two_fifths_sub_half :
    roundFloat (13421773 / 33554432 - 1 / 2) = -(3355443 / 33554432) := by
  unfold roundFloat
  rw [roundBinary_eq 24 (-149) _ (-4) (-13421772)
    (by norm_num [abs_of_neg]) (by norm_num [abs_of_neg]) (by norm_num)
    (by norm_num [abs_lt])]
  norm_num

theorem decimetreRobot_metricRange : decimetreRobot.metricRange 4 0 = 2 / 5 := by
  simp [Robot.metricRange, decimetreRobot_robotX, decimetreRobot_robotY]
  simp [decimetreRobot, axisOps, axisSqrt]
  norm_num

theorem decimetreRobot_cellRange : decimetreRobot.cellRange 4 0 = 13421773 / 33554432 := by
  have h : decimetreRobot.cellRange 4 0 = roundFloat (roundDouble (2 / 5)) := by
    simp [Robot.cellRange, decimetreRobot_robotX, decimetreRobot_robotY]
    simp [decimetreRobot, axisOps, axisSqrt]
    norm_num
  rw [h, roundFloat_roundDouble_two_fifths]

theorem decimetreRobot_cellBearing : decimetreRobot.cellBearing 4 0 = 0 := by
  simp [Robot.cellBearing, decimetreRobot_robotX, decimetreRobot_robotY]
  simp [decimetreRobot, axisOps, sceneAtan2Deg]

/-- C3, as stated, fails for a cell whose metric distance is a decimal fraction. At map scale
10, with a reading of 0.5 m and a maximum range of 1 m, the cell `(4,0)` straight ahead lies
in the scanned square at the metric distance 0.4: it is not skipped, and `|0.4 - 0.5| = 0.1`
is not below `0.1`, so the rule as stated turns the counter 7 into 6. The pass computes the
distance in `float`, `0.4f - 0.5` has magnitude below `0.2f / 2`, and the counter becomes
10. -/
theorem himm_update_rule_on_metric_range_fails :
    decimetreRobot.inLaserSquare 4 0
      ∧ decimetreRobot.metricRange 4 0 = 2 / 5
      ∧ decimetreRobot.laserReading 4 0 = 1 / 2
      ∧ decimetreRobot.himmRuleStated 4 0 (sevenGrid 4 0).himm = 6
      ∧ (decimetreRobot.mappingWithHIMMUsingLaser sevenGrid 4 0).himm = 10 := by
  have hsq : decimetreRobot.inLaserSquare 4 0 := by
    simp [Robot.inLaserSquare, decimetreRobot_robotX, decimetreRobot_robotY,
      decimetreRobot_laserRangeInt]
  have hz : decimetreRobot.laserReading 4 0 = 1 / 2 := rfl
  have hmax : decimetreRobot.base.getMaxLaserRange = 1 := rfl
  have hang : decimetreRobot.base.getAngleOfLaserBeam (decimetreRobot.laserBeam 4 0) = 0 :=
    rfl
  have hseven : (sevenGrid 4 0).himm = 7 := by
    simp [sevenGrid, gridWith, Grid.setCell]
  have hskip : ¬ decimetreRobot.himmSkip 4 0 := by
    unfold Robot.himmSkip
    rw [decimetreRobot_cellBearing, hang, decimetreRobot_cellRange, hz, hmax]
    norm_num [roundFloat_zero]
  have hsurf : decimetreRobot.himmSurface 4 0 := by
    unfold Robot.himmSurface
    rw [decimetreRobot_cellRange, hz, hmax, roundFloat_two_fifths_sub_half,
      himmHalfLambdaR_eq]
    norm_num [abs_lt]
  refine ⟨hsq, decimetreRobot_metricRange, hz, ?_, ?_⟩
  · unfold Robot.himmRuleStated
    rw [decimetreRobot_cellBearing, hang, decimetreRobot_metricRange, hz, hmax, hseven]
    norm_num
    exact le_abs_self _
  · rw [mappingWithHIMMUsingLaser_apply, if_pos hsq]
    unfold Robot.himmCell
    rw [if_neg hskip, if_pos hsurf]
    show himmIncrement (sevenGrid 4 0).himm = 10
    rw [hseven]
    decide

/-- C3, amended (HIMM per-cell update rule, in the arithmetic of the pass). For a non-zero
map scale and every cell of the scanned square whose counter is not at the edge of the `int`
range, with `r = cellRange` the metric distance rounded to `double` and then to `float`,
`phi = cellBearing`,
`k = laserBeam`, `z = laserReading` and `fl` the rounding to `float`: if
`|fl(phi - beamAngle(k))| > 0.5` or `r > min(maxLaserRange, z)` the pass leaves `himm`
unchanged; otherwise, if `z < maxLaserRange` and `|fl(r - z)|` is below `0.2f / 2`, the
`float` `13421773 / 134217728` just above `0.1`, `himm` becomes `min(himm+3, 15)`; otherwise
`himm` becomes `max(himm-1, 0)`. A cell that is not skipped always passes the last test
`r <= z` of the loop body, so one of the three outcomes applies. -/
theorem himm_update_rule (rb : Robot) (g : Grid) (x y : Int)
    (_hscale : rb.scale ≠ 0) (hsq : rb.inLaserSquare x y)
    (hint : -2147483648 < (g x y).himm ∧ (g x y).himm + 3 < 2147483648) :
    rb.cellRange x y = roundFloat (roundDouble (rb.metricRange x y))
      ∧ himmHalfLambdaR = 13421773 / 134217728
      ∧ ((|roundFloat (rb.cellBearing x y
                - rb.base.getAngleOfLaserBeam (rb.laserBeam x y))| > 1 / 2
            ∨ rb.cellRange x y > min rb.base.getMaxLaserRange (rb.laserReading x y)) →
          (rb.mappingWithHIMMUsingLaser g x y).himm = (g x y).himm)
      ∧ (¬ (|roundFloat (rb.cellBearing x y
                - rb.base.getAngleOfLaserBeam (rb.laserBeam x y))| > 1 / 2
            ∨ rb.cellRange x y > min rb.base.getMaxLaserRange (rb.laserReading x y)) →
          (rb.laserReading x y < rb.base.getMaxLaserRange
            ∧ |roundFloat (rb.cellRange x y - rb.laserReading x y)| < himmHalfLambdaR) →
          (rb.mappingWithHIMMUsingLaser g x y).himm = min ((g x y).himm + 3) 15)
      ∧ (¬ (|roundFloat (rb.cellBearing x y
                - rb.base.getAngleOfLaserBeam (rb.laserBeam x y))| > 1 / 2
            ∨ rb.cellRange x y > min rb.base.getMaxLaserRange (rb.laserReading x y)) →
          ¬ (rb.laserReading x y < rb.base.getMaxLaserRange
            ∧ |roundFloat (rb.cellRange x y - rb.laserReading x y)| < himmHalfLambdaR) →
          (rb.mappingWithHIMMUsingLaser g x y).himm = max ((g x y).himm - 1) 0)
      ∧ (¬ (|roundFloat (rb.cellBearing x y
                - rb.base.getAngleOfLaserBeam (rb.laserBeam x y))| > 1 / 2
            ∨ rb.cellRange x y > min rb.base.getMaxLaserRange (rb.laserReading x y)) →
          rb.cellRange x y ≤ rb.laserReading x y) := by
  have hbefore : ¬ rb.himmSkip x y → rb.himmBefore x y := by
    intro hs
    unfold Robot.himmSkip at hs
    unfold Robot.himmBefore
    push_neg at hs
    exact le_trans hs.2 (min_le_right _ _)
  rw [mappingWithHIMMUsingLaser_apply, if_pos hsq]
  refine ⟨rfl, himmHalfLambdaR_eq, fun hs => ?_, fun hs hf => ?_, fun hs hf => ?_,
    fun hs => hbefore hs⟩
  · have hs2 : rb.himmSkip x y := hs
    unfold Robot.himmCell
    rw [if_pos hs2]
  · have hs2 : ¬ rb.himmSkip x y := hs
    have hf2 : rb.himmSurface x y := hf
    unfold Robot.himmCell
    rw [if_neg hs2, if_pos hf2]
    exact himmIncrement_eq _ (by omega) (by omega)
  · have hs2 : ¬ rb.himmSkip x y := hs
    have hf2 : ¬ rb.himmSurface x y := hf
    unfold Robot.himmCell
    rw [if_neg hs2, if_neg hf2, if_pos (hbefore hs2)]
    exact himmDecrement_eq _ (by omega) (by omega)

theorem himm_update_rule_witness :
    (sceneRobot.scale ≠ 0 ∧ sceneRobot.inLaserSquare 2 0
        ∧ (-2147483648 < (Grid.fresh 2 0).himm ∧ (Grid.fresh 2 0).himm + 3 < 2147483648)
        ∧ ¬ (|roundFloat (sceneRobot.cellBearing 2 0
              - sceneRobot.base.getAngleOfLaserBeam (sceneRobot.laserBeam 2 0))| > 1 / 2
            ∨ sceneRobot.cellRange 2 0
              > min sceneRobot.base.getMaxLaserRange (sceneRobot.laserReading 2 0))
        ∧ (sceneRobot.laserReading 2 0 < sceneRobot.base.getMaxLaserRange
            ∧ |roundFloat (sceneRobot.cellRange 2 0 - sceneRobot.laserReading 2 0)|
              < himmHalfLambdaR))
      ∧ (sceneRobot.mappingWithHIMMUsingLaser Grid.fresh 2 0).himm
          = min ((Grid.fresh 2 0).himm + 3) 15 :=
  ⟨⟨by decide, sceneRobot_seesSurfaceAt.1, by decide, sceneRobot_seesSurfaceAt.2.1,
      sceneRobot_seesSurfaceAt.2.2⟩,
    (himm_update_rule sceneRobot Grid.fresh 2 0 (by decide) sceneRobot_seesSurfaceAt.1
      (by decide)).2.2.2.1 sceneRobot_seesSurfaceAt.2.1 sceneRobot_seesSurfaceAt.2.2⟩

theorem mappingWithHIMMUsingLaser_surface (rb : Robot) (g : Grid) (x y : Int)
    (h : rb.seesSurfaceAt x y) :
    (rb.mappingWithHIMMUsingLaser g x y).himm = himmIncrement (g x y).himm := by
  rw [mappingWithHIMMUsingLaser_apply, if_pos h.1]
  unfold Robot.himmCell
  rw [if_neg h.2.1, if_pos h.2.2]

theorem mappingWithHIMMUsingLaser_free (rb : Robot) (g : Grid) (x y : Int)
    (h : rb.seesFreeAt x y) :
    (rb.mappingWithHIMMUsingLaser g x y).himm = himmDecrement (g x y).himm := by
  rw [mappingWithHIMMUsingLaser_apply, if_pos h.1]
  unfold Robot.himmCell
  rw [if_neg h.2.1, if_neg h.2.2.1, if_pos h.2.2.2]

/-- Consecutive at-surface updates add 3 each, up to the cap 15. -/
theorem himmPasses_surface (g : Grid) (x y : Int)
    (h : 0 ≤ (g x y).himm ∧ (g x y).himm ≤ 15) :
    ∀ cycles : List Robot, (∀ rb ∈ cycles, rb.seesSurfaceAt x y) →
      (himmPasses cycles g x y).himm = min ((g x y).himm + 3 * (cycles.length : Int)) 15 := by
  intro cycles
  induction cycles using List.reverseRecOn with
  | nil =>
    intro _
    show (g x y).himm = _
    simp only [List.length_nil, Nat.cast_zero]
    omega
  | append_singleton cs rb ih =>
    intro hall
    have ih2 := ih (fun r hr => hall r (List.mem_append_left _ hr))
    rw [himmPasses_append,
      mappingWithHIMMUsingLaser_surface rb _ x y (hall rb (by simp)), ih2,
      himmIncrement_eq _ (by omega) (by omega)]
    simp only [List.length_append, List.length_singleton, Nat.cast_add, Nat.cast_one]
    omega

/-- Consecutive free-space updates subtract 1 each, down to the floor 0. -/
theorem himmPasses_free (g : Grid) (x y : Int)
    (h : 0 ≤ (g x y).himm ∧ (g x y).himm ≤ 15) :
    ∀ cycles : List Robot, (∀ rb ∈ cycles, rb.seesFreeAt x y) →
      (himmPasses cycles g x y).himm = max ((g x y).himm - (cycles.length : Int)) 0 := by
  intro cycles
  induction cycles using List.reverseRecOn with
  | nil =>
    intro _
    show (g x y).himm = _
    simp only [List.length_nil, Nat.cast_zero]
    omega
  | append_singleton cs rb ih =>
    intro hall
    have ih2 := ih (fun r hr => hall r (List.mem_append_left _ hr))
    rw [himmPasses_append,
      mappingWithHIMMUsingLaser_free rb _ x y (hall rb (by simp)), ih2,
      himmDecrement_eq _ (by omega) (by omega)]
    simp only [List.length_append, List.length_singleton, Nat.cast_add, Nat.cast_one]
    omega

/-! ## Classification loops, cell by cell -/

theorem setPlanType_same (g : Grid) (x y : Int) (v : PlanType) :
    g.setPlanType x y v x y = { g x y with planType := v } := by
  simp [Grid.setPlanType, Grid.setCell, Grid.getCell]

theorem setPlanType_other (g : Grid) (x y : Int) (v : PlanType) (i j : Int)
    (h : ¬ (i = x ∧ j = y)) : g.setPlanType x y v i j = g i j := by
  simp [Grid.setPlanType, Grid.setCell, h]

theorem setPlanType_occType (g : Grid) (x y : Int) (v : PlanType) (i j : Int) :
    (g.setPlanType x y v i j).occType = (g i j).occType := by
  by_cases h : i = x ∧ j = y
  · obtain ⟨hi, hj⟩ := h
    subst hi hj
    rw [setPlanType_same]
  · rw [setPlanType_other _ _ _ _ _ _ h]

theorem setPlanType_setPlanType (g : Grid) (x y : Int) (a b : PlanType) :
    (g.setPlanType x y a).setPlanType x y b = g.setPlanType x y b := by
  funext i j
  by_cases h : i = x ∧ j = y
  · obtain ⟨hi, hj⟩ := h
    subst hi hj
    rw [setPlanType_same, setPlanType_same, setPlanType_same]
  · rw [setPlanType_other _ _ _ _ _ _ h, setPlanType_other _ _ _ _ _ _ h,
      setPlanType_other _ _ _ _ _ _ h]

theorem anyNear_congr (g t : Grid) (d : Int) (test : Cell → Bool) (x y : Int)
    (h : ∀ i j, test (t i j) = test (g i j)) : anyNear t d test x y = anyNear g d test x y := by
  unfold anyNear
  simp only [h]

theorem anyNear_iff (g : Grid) (d : Int) (test : Cell → Bool) (x y : Int) :
    anyNear g d test x y = true
      ↔ ∃ i j, (x - d ≤ i ∧ i ≤ x + d) ∧ (y - d ≤ j ∧ j ≤ y + d) ∧ test (g i j) = true := by
  unfold anyNear
  rw [List.any_eq_true]
  constructor
  · rintro ⟨⟨i, j⟩, hmem, ht⟩
    rw [mem_cellList] at hmem
    exact ⟨i, j, hmem.1, hmem.2, ht⟩
  · rintro ⟨i, j, h1, h2, ht⟩
    exact ⟨(i, j), (mem_cellList _ _ _ _ _ _).2 ⟨h1, h2⟩, ht⟩

theorem foldl_mark_fixed (test : Cell → Bool) (v : PlanType) (cx cy : Int) (g : Grid) :
    ∀ l : List (Int × Int),
      l.foldl (fun t p => if test (t.getCell p.1 p.2) then t.setPlanType cx cy v else t)
        (g.setPlanType cx cy v) = g.setPlanType cx cy v := by
  intro l
  induction l with
  | nil => rfl
  | cons p l ih =>
    rw [List.foldl_cons, setPlanType_setPlanType, ite_self, ih]

theorem foldl_mark (test : Cell → Bool) (v : PlanType) (cx cy : Int) (g : Grid) :
    ∀ l : List (Int × Int),
      l.foldl (fun t p => if test (t.getCell p.1 p.2) then t.setPlanType cx cy v else t) g
        = if l.any (fun p => test (g p.1 p.2)) then g.setPlanType cx cy v else g := by
  intro l
  induction l with
  | nil => rfl
  | cons p l ih =>
    rw [List.foldl_cons, List.any_cons]
    by_cases hp : test (g.getCell p.1 p.2) = true
    · have hp2 : test (g p.1 p.2) = true := hp
      rw [if_pos hp, foldl_mark_fixed, hp2, Bool.true_or, if_pos rfl]
    · have hp2 : test (g p.1 p.2) = false := by
        simpa [Grid.getCell] using hp
      rw [if_neg hp, ih, hp2, Bool.false_or]

/-- An inner scan marks the centre cell exactly when some cell of the block passes the test
in the grid the scan started from. -/
theorem markIfNear_eq (d : Int) (test : Cell → Bool) (v : PlanType) (cx cy : Int) (g : Grid) :
    markIfNear d test v cx cy g
      = if anyNear g d test cx cy then g.setPlanType cx cy v else g := by
  unfold markIfNear anyNear
  rw [forCells_eq_foldl]
  exact foldl_mark test v cx cy g _

theorem anyNear_isOccupied_congr (g t : Grid) (d x y : Int)
    (h : ∀ i j, (t i j).occType = (g i j).occType) :
    anyNear t d isOccupied x y = anyNear g d isOccupied x y :=
  anyNear_congr g t d isOccupied x y (fun i j => by unfold isOccupied; rw [h])

theorem anyNear_isFree_congr (g t : Grid) (d x y : Int)
    (h : ∀ i j, (t i j).occType = (g i j).occType) :
    anyNear t d isFree x y = anyNear g d isFree x y :=
  anyNear_congr g t d isFree x y (fun i j => by unfold isFree; rw [h])

theorem hazardValue_congr (g t : Grid) (x y : Int)
    (h : ∀ i j, (t i j).occType = (g i j).occType) : hazardValue t x y = hazardValue g x y := by
  unfold hazardValue
  rw [h, anyNear_isOccupied_congr g t 3 x y h, anyNear_isOccupied_congr g t 8 x y h]

/-- The body of the second loop writes `hazardValue` into the `planType` of the visited
cell. -/
theorem hazardBody_eq (x y : Int) (g : Grid) :
    hazardBody x y g = g.setPlanType x y (hazardValue g x y) := by
  have hocc : ∀ (t : Grid) (v : PlanType) (d : Int),
      (∀ i j, (t i j).occType = (g i j).occType) →
      anyNear (t.setPlanType x y v) d (fun c => decide (c.occType = OccType.OCCUPIED)) x y
        = anyNear g d isOccupied x y := fun t v d ht =>
    anyNear_isOccupied_congr g (t.setPlanType x y v) d x y
      (fun i j => by rw [setPlanType_occType, ht])
  unfold hazardBody hazardValue
  simp only [Grid.getCell, markIfNear_eq]
  by_cases hf : (g x y).occType = OccType.FREE
  · rw [hocc g PlanType.REGULAR 8 (fun _ _ => rfl)]
    cases h8 : anyNear g 8 isOccupied x y <;> cases h3 : anyNear g 3 isOccupied x y <;>
      simp [setPlanType_occType, hf, hocc g _ 3 (fun _ _ => rfl),
        hocc (g.setPlanType x y PlanType.REGULAR) _ 3 (fun i j => setPlanType_occType g x y _ i j),
        h3, setPlanType_setPlanType]
  · simp [setPlanType_occType, hf]

theorem isHazard_frontierValue (g : Grid) (x y : Int) (c : Cell) (h : isHazard c = false) :
    isHazard { c with planType := frontierValue g x y c.planType } = false := by
  unfold frontierValue
  split_ifs
  · rfl
  · rfl
  · exact h

theorem frontierValue_congr (g t : Grid) (x y : Int) (old : PlanType)
    (hocc : ∀ i j, (t i j).occType = (g i j).occType)
    (hhaz : ∀ i j, isHazard (t i j) = isHazard (g i j)) :
    frontierValue t x y old = frontierValue g x y old := by
  unfold frontierValue
  rw [anyNear_congr g t 1 isHazard x y hhaz, anyNear_isFree_congr g t 1 x y hocc]

/-- The body of the third loop writes `frontierValue` into the `planType` of an `UNEXPLORED`
cell, provided the cell does not itself carry a hazard type when it is visited. -/
theorem frontierBody_eq (x y : Int) (g : Grid)
    (h : (g x y).occType = OccType.UNEXPLORED → isHazard (g x y) = false) :
    frontierBody x y g
      = if (g x y).occType = OccType.UNEXPLORED then
          g.setPlanType x y (frontierValue g x y (g x y).planType)
        else g := by
  unfold frontierBody
  simp only [Grid.getCell, markIfNear_eq]
  by_cases hu : (g x y).occType = OccType.UNEXPLORED
  · have hnh := h hu
    rw [if_pos hu, if_pos hu]
    have hfree : anyNear g 1 (fun c => decide (c.occType = OccType.FREE)) x y
        = anyNear g 1 isFree x y := rfl
    have hhaz : ∀ t : Grid, (∀ i j, isHazard (t i j) = isHazard (g i j)) →
        anyNear t 1 (fun c => decide (c.planType = PlanType.DANGER)
          || decide (c.planType = PlanType.NEAR_WALLS)) x y = anyNear g 1 isHazard x y :=
      fun t ht => anyNear_congr g t 1 isHazard x y ht
    rw [hfree]
    unfold frontierValue
    cases hfr : anyNear g 1 isFree x y
    · simp only [Bool.false_eq_true, if_false]
      rw [hhaz g (fun _ _ => rfl)]
      cases hz : anyNear g 1 isHazard x y
      · simp only [Bool.false_eq_true, if_false]
        funext i j
        by_cases hij : i = x ∧ j = y
        · obtain ⟨hi, hj⟩ := hij
          subst hi hj
          rw [setPlanType_same]
        · rw [setPlanType_other _ _ _ _ _ _ hij]
      · simp only [if_true]
    · simp only [if_true]
      have hview : ∀ i j, isHazard (g.setPlanType x y PlanType.FRONTIER i j)
          = isHazard (g i j) := by
        intro i j
        by_cases hij : i = x ∧ j = y
        · obtain ⟨hi, hj⟩ := hij
          subst hi hj
          rw [setPlanType_same, hnh]
          rfl
        · rw [setPlanType_other _ _ _ _ _ _ hij]
      rw [hhaz _ hview]
      cases hz : anyNear g 1 isHazard x y
      · simp only [Bool.false_eq_true, if_false, if_true]
      · simp only [if_true, setPlanType_setPlanType]
  · rw [if_neg hu, if_neg hu]

theorem resetCellsTypes_apply (lim : GridLimits) (g : Grid) (i j : Int) :
    resetCellsTypes lim g i j
      = if lim.contains i j then { g i j with planType := PlanType.REGULAR } else g i j := by
  have h := (forCells_pointwise lim.minX lim.maxX lim.minY lim.maxY
    (fun i j t => t.setPlanType i j PlanType.REGULAR)
    (fun _ _ c => { c with planType := PlanType.REGULAR }) (fun _ => True)
    (fun _ _ _ _ _ => trivial)
    (fun x y _ s _ => setPlanType_same s x y _)
    (fun x y _ s _ i j hij => setPlanType_other s x y _ i j hij) g trivial).2 i j
  unfold resetCellsTypes GridLimits.contains
  rw [h]
  by_cases hc : (lim.minX ≤ i ∧ i ≤ lim.maxX) ∧ (lim.minY ≤ j ∧ j ≤ lim.maxY)
  · rw [if_pos hc, if_pos ⟨hc.1.1, hc.1.2, hc.2.1, hc.2.2⟩]
  · rw [if_neg hc, if_neg (fun h => hc ⟨⟨h.1, h.2.1⟩, h.2.2.1, h.2.2.2⟩)]

theorem occupancyBody_same (x y : Int) (s : Grid) :
    occupancyBody x y s x y
      = { s x y with occType := occOfHimm (s x y).himm (s x y).occType } := by
  unfold occupancyBody occOfHimm Grid.setOccType Grid.getCell
  by_cases h5 : (s x y).himm ≤ 5
  · have h10 : ¬ (s x y).himm ≥ 10 := by omega
    simp [h5, h10, setCell_same]
  · by_cases h10 : (s x y).himm ≥ 10
    · simp [h5, h10, setCell_same]
    · simp [h5, h10]

theorem occupancyBody_other (x y : Int) (s : Grid) (i j : Int) (hij : ¬ (i = x ∧ j = y)) :
    occupancyBody x y s i j = s i j := by
  unfold occupancyBody Grid.setOccType
  split_ifs <;> simp [setCell_other _ _ _ _ _ _ hij]

/-- Phase 1, cell by cell. -/
theorem classifyOccupancy_apply (lim : GridLimits) (g : Grid) (i j : Int) :
    classifyOccupancy lim g i j
      = if lim.contains i j then
          { g i j with occType := occOfHimm (g i j).himm (g i j).occType }
        else g i j := by
  have h := (forCells_pointwise lim.minX lim.maxX lim.minY lim.maxY occupancyBody
    (fun _ _ c => { c with occType := occOfHimm c.himm c.occType }) (fun _ => True)
    (fun _ _ _ _ _ => trivial)
    (fun x y _ s _ => occupancyBody_same x y s)
    (fun x y _ s _ i j hij => occupancyBody_other x y s i j hij) g trivial).2 i j
  unfold classifyOccupancy GridLimits.contains
  rw [h]
  by_cases hc : (lim.minX ≤ i ∧ i ≤ lim.maxX) ∧ (lim.minY ≤ j ∧ j ≤ lim.maxY)
  · rw [if_pos hc, if_pos ⟨hc.1.1, hc.1.2, hc.2.1, hc.2.2⟩]
  · rw [if_neg hc, if_neg (fun h => hc ⟨⟨h.1, h.2.1⟩, h.2.2.1, h.2.2.2⟩)]

/-- The hazard loop, cell by cell. -/
theorem classifyHazards_apply (lim : GridLimits) (g : Grid) (i j : Int) :
    classifyHazards lim g i j
      = if lim.contains i j then { g i j with planType := hazardValue g i j } else g i j := by
  have h := (forCells_pointwise lim.minX lim.maxX lim.minY lim.maxY hazardBody
    (fun x y c => { c with planType := hazardValue g x y })
    (fun s => ∀ i j, (s i j).occType = (g i j).occType)
    (fun x y _ s hs i j => by rw [hazardBody_eq, setPlanType_occType, hs])
    (fun x y _ s hs => by rw [hazardBody_eq, setPlanType_same, hazardValue_congr g s x y hs])
    (fun x y _ s _ i j hij => by rw [hazardBody_eq, setPlanType_other _ _ _ _ _ _ hij])
    g (fun _ _ => rfl)).2 i j
  unfold classifyHazards GridLimits.contains
  rw [h]
  by_cases hc : (lim.minX ≤ i ∧ i ≤ lim.maxX) ∧ (lim.minY ≤ j ∧ j ≤ lim.maxY)
  · rw [if_pos hc, if_pos ⟨hc.1.1, hc.1.2, hc.2.1, hc.2.2⟩]
  · rw [if_neg hc, if_neg (fun h => hc ⟨⟨h.1, h.2.1⟩, h.2.2.1, h.2.2.2⟩)]

/-- The frontier loop, cell by cell, when no `UNEXPLORED` cell inside the limits carries a
hazard type at its start (as is the case after the hazard loop). -/
theorem classifyFrontiers_apply (lim : GridLimits) (g : Grid)
    (hpre : ∀ i j, lim.contains i j → (g i j).occType = OccType.UNEXPLORED →
      isHazard (g i j) = false) (i j : Int) :
    classifyFrontiers lim g i j
      = if lim.contains i j ∧ (g i j).occType = OccType.UNEXPLORED then
          { g i j with planType := frontierValue g i j (g i j).planType }
        else g i j := by
  have hbody : ∀ x y, (lim.minX ≤ x ∧ x ≤ lim.maxX) ∧ (lim.minY ≤ y ∧ y ≤ lim.maxY) →
      ∀ s : Grid, ((∀ i j, (s i j).occType = (g i j).occType)
          ∧ ∀ i j, isHazard (s i j) = isHazard (g i j)) →
        frontierBody x y s
          = if (g x y).occType = OccType.UNEXPLORED then
              s.setPlanType x y (frontierValue g x y (s x y).planType)
            else s := by
    intro x y hxy s hs
    rw [frontierBody_eq x y s (fun hu => by
      rw [hs.2]
      exact hpre x y ⟨hxy.1.1, hxy.1.2, hxy.2.1, hxy.2.2⟩ (by rw [← hs.1]; exact hu)),
      hs.1, frontierValue_congr g s x y _ hs.1 hs.2]
  have hsafe : ∀ x y, (lim.minX ≤ x ∧ x ≤ lim.maxX) ∧ (lim.minY ≤ y ∧ y ≤ lim.maxY) →
      ∀ s : Grid, ((∀ i j, (s i j).occType = (g i j).occType)
          ∧ ∀ i j, isHazard (s i j) = isHazard (g i j)) →
        (g x y).occType = OccType.UNEXPLORED → isHazard (s x y) = false := by
    intro x y hxy s hs hu
    rw [hs.2]
    exact hpre x y ⟨hxy.1.1, hxy.1.2, hxy.2.1, hxy.2.2⟩ hu
  have h := (forCells_pointwise lim.minX lim.maxX lim.minY lim.maxY frontierBody
    (fun x y c => if (g x y).occType = OccType.UNEXPLORED then
      { c with planType := frontierValue g x y c.planType } else c)
    (fun s => (∀ i j, (s i j).occType = (g i j).occType)
      ∧ ∀ i j, isHazard (s i j) = isHazard (g i j))
    (fun x y hxy s hs => by
      rw [hbody x y hxy s hs]
      by_cases hu : (g x y).occType = OccType.UNEXPLORED
      · rw [if_pos hu]
        refine ⟨fun i j => by rw [setPlanType_occType, hs.1], fun i j => ?_⟩
        by_cases hij : i = x ∧ j = y
        · obtain ⟨hi, hj⟩ := hij
          subst hi hj
          rw [setPlanType_same, isHazard_frontierValue g i j _ (hsafe i j hxy s hs hu),
            ← hs.2, hsafe i j hxy s hs hu]
        · rw [setPlanType_other _ _ _ _ _ _ hij, hs.2]
      · rw [if_neg hu]
        exact hs)
    (fun x y hxy s hs => by
      rw [hbody x y hxy s hs]
      by_cases hu : (g x y).occType = OccType.UNEXPLORED
      · simp only [hu, if_true, setPlanType_same]
      · simp only [hu, if_false])
    (fun x y hxy s hs i j hij => by
      rw [hbody x y hxy s hs]
      by_cases hu : (g x y).occType = OccType.UNEXPLORED
      · simp only [hu, if_true, setPlanType_other _ _ _ _ _ _ hij]
      · simp only [hu, if_false])
    g ⟨fun _ _ => rfl, fun _ _ => rfl⟩).2 i j
  unfold classifyFrontiers GridLimits.contains
  rw [h]
  by_cases hc : (lim.minX ≤ i ∧ i ≤ lim.maxX) ∧ (lim.minY ≤ j ∧ j ≤ lim.maxY)
  · have hc2 : lim.minX ≤ i ∧ i ≤ lim.maxX ∧ lim.minY ≤ j ∧ j ≤ lim.maxY :=
      ⟨hc.1.1, hc.1.2, hc.2.1, hc.2.2⟩
    by_cases hu : (g i j).occType = OccType.UNEXPLORED
    · rw [if_pos hc, if_pos hu, if_pos ⟨hc2, hu⟩]
    · rw [if_pos hc, if_neg hu, if_neg (fun h => hu h.2)]
  · rw [if_neg hc, if_neg (fun h => hc ⟨⟨h.1.1, h.1.2.1⟩, h.1.2.2.1, h.1.2.2.2⟩)]

theorem hazards_pre (lim : GridLimits) (g : Grid) (i j : Int)
    (hc : lim.contains i j)
    (hu : (classifyHazards lim g i j).occType = OccType.UNEXPLORED) :
    isHazard (classifyHazards lim g i j) = false := by
  rw [classifyHazards_apply, if_pos hc] at hu ⊢
  have hg : (g i j).occType = OccType.UNEXPLORED := hu
  have hv : hazardValue g i j = PlanType.REGULAR := by
    unfold hazardValue
    rw [if_neg (by rw [hg]; decide)]
  unfold isHazard
  simp [hv]

theorem classifyHazards_occType (lim : GridLimits) (g : Grid) (i j : Int) :
    (classifyHazards lim g i j).occType = (g i j).occType := by
  rw [classifyHazards_apply]
  split_ifs <;> rfl

/-- The occupancy category left by `updateCellsTypes` is the one set by phase 1. -/
theorem updateCellsTypes_occType (lim : GridLimits) (g : Grid) (i j : Int) :
    (updateCellsTypes lim g i j).occType = (classifyOccupancy lim g i j).occType := by
  unfold updateCellsTypes
  rw [classifyFrontiers_apply lim _ (hazards_pre lim _)]
  split_ifs <;> simp [classifyHazards_occType]

/-- The planning category left by `updateCellsTypes`: inside the limits, `frontierValue` for
a cell that phase 1 leaves `UNEXPLORED` and `hazardValue` for any other cell; outside the
limits, the category the cell had. -/
theorem updateCellsTypes_planType (lim : GridLimits) (g : Grid) (i j : Int) :
    (updateCellsTypes lim g i j).planType
      = if lim.contains i j then
          (if (classifyOccupancy lim g i j).occType = OccType.UNEXPLORED then
            frontierValue (classifyHazards lim (classifyOccupancy lim g)) i j PlanType.REGULAR
          else hazardValue (classifyOccupancy lim g) i j)
        else (g i j).planType := by
  unfold updateCellsTypes
  rw [classifyFrontiers_apply lim _ (hazards_pre lim _), classifyHazards_occType]
  by_cases hc : lim.contains i j
  · by_cases hu : (classifyOccupancy lim g i j).occType = OccType.UNEXPLORED
    · rw [if_pos ⟨hc, hu⟩, if_pos hc, if_pos hu]
      have hv : (classifyHazards lim (classifyOccupancy lim g) i j).planType
          = PlanType.REGULAR := by
        rw [classifyHazards_apply, if_pos hc]
        show hazardValue (classifyOccupancy lim g) i j = PlanType.REGULAR
        unfold hazardValue
        rw [if_neg (by rw [hu]; decide)]
      show frontierValue _ i j _ = _
      rw [hv]
    · rw [if_neg (fun h => hu h.2), if_pos hc, if_neg hu, classifyHazards_apply, if_pos hc]
  · rw [if_neg (fun h => hc h.1), if_neg hc, classifyHazards_apply, if_neg hc,
      classifyOccupancy_apply, if_neg hc]

/-- C5 (occupancy classification, phase 1). For every cell inside the grid limits, after
`updateCellsTypes` its `occType` is `FREE` if `himm <= 5`, `OCCUPIED` if `himm >= 10`, and
the `occType` it had before the pass if `6 <= himm <= 9`. -/
theorem occupancy_classification (lim : GridLimits) (g : Grid) (x y : Int)
    (h : lim.contains x y) :
    ((g x y).himm ≤ 5 → (updateCellsTypes lim g x y).occType = OccType.FREE)
      ∧ ((g x y).himm ≥ 10 → (updateCellsTypes lim g x y).occType = OccType.OCCUPIED)
      ∧ (6 ≤ (g x y).himm ∧ (g x y).himm ≤ 9 →
          (updateCellsTypes lim g x y).occType = (g x y).occType) := by
  rw [updateCellsTypes_occType, classifyOccupancy_apply, if_pos h]
  show (_ → occOfHimm _ _ = _) ∧ (_ → occOfHimm _ _ = _) ∧ (_ → occOfHimm _ _ = _)
  unfold occOfHimm
  refine ⟨fun h5 => ?_, fun h10 => ?_, fun h69 => ?_⟩
  · rw [if_neg (by omega), if_pos h5]
  · rw [if_pos h10]
  · rw [if_neg (by omega), if_neg (by omega)]

theorem anyNear_isOccupied_iff (g : Grid) (d x y : Int) :
    anyNear g d isOccupied x y = true
      ↔ ∃ i j, (x - d ≤ i ∧ i ≤ x + d) ∧ (y - d ≤ j ∧ j ≤ y + d)
          ∧ (g i j).occType = OccType.OCCUPIED := by
  rw [anyNear_iff]
  simp only [isOccupied, decide_eq_true_eq]

theorem anyNear_isFree_iff (g : Grid) (d x y : Int) :
    anyNear g d isFree x y = true
      ↔ ∃ i j, (x - d ≤ i ∧ i ≤ x + d) ∧ (y - d ≤ j ∧ j ≤ y + d)
          ∧ (g i j).occType = OccType.FREE := by
  rw [anyNear_iff]
  simp only [isFree, decide_eq_true_eq]

theorem isHazard_iff (c : Cell) :
    isHazard c = true ↔ c.planType = PlanType.DANGER ∨ c.planType = PlanType.NEAR_WALLS := by
  simp only [isHazard, Bool.or_eq_true, decide_eq_true_eq]

theorem anyNear_isHazard_iff (g : Grid) (d x y : Int) :
    anyNear g d isHazard x y = true
      ↔ ∃ i j, (x - d ≤ i ∧ i ≤ x + d) ∧ (y - d ≤ j ∧ j ≤ y + d)
          ∧ ((g i j).planType = PlanType.DANGER ∨ (g i j).planType = PlanType.NEAR_WALLS) := by
  rw [anyNear_iff]
  simp only [isHazard_iff]

/-- C6 (hazard classification with DANGER precedence). For every cell inside the grid limits
that is `FREE` after phase 1, `updateCellsTypes` leaves `planType = DANGER` if some cell at
Chebyshev distance at most 3 is `OCCUPIED` (all occupancy categories as phase 1 leaves them),
otherwise `NEAR_WALLS` if some cell at Chebyshev distance at most 8 is `OCCUPIED`, otherwise
`REGULAR`; in particular a cell with an `OCCUPIED` cell within distance 3 is not left
`NEAR_WALLS`. -/
theorem hazard_classification (lim : GridLimits) (g : Grid) (x y : Int)
    (h : lim.contains x y)
    (hfree : (classifyOccupancy lim g x y).occType = OccType.FREE) :
    ((∃ i j, (x - 3 ≤ i ∧ i ≤ x + 3) ∧ (y - 3 ≤ j ∧ j ≤ y + 3)
          ∧ (classifyOccupancy lim g i j).occType = OccType.OCCUPIED) →
        (updateCellsTypes lim g x y).planType = PlanType.DANGER
          ∧ (updateCellsTypes lim g x y).planType ≠ PlanType.NEAR_WALLS)
      ∧ ((¬ ∃ i j, (x - 3 ≤ i ∧ i ≤ x + 3) ∧ (y - 3 ≤ j ∧ j ≤ y + 3)
            ∧ (classifyOccupancy lim g i j).occType = OccType.OCCUPIED) →
          (∃ i j, (x - 8 ≤ i ∧ i ≤ x + 8) ∧ (y - 8 ≤ j ∧ j ≤ y + 8)
            ∧ (classifyOccupancy lim g i j).occType = OccType.OCCUPIED) →
          (updateCellsTypes lim g x y).planType = PlanType.NEAR_WALLS)
      ∧ ((¬ ∃ i j, (x - 8 ≤ i ∧ i ≤ x + 8) ∧ (y - 8 ≤ j ∧ j ≤ y + 8)
            ∧ (classifyOccupancy lim g i j).occType = OccType.OCCUPIED) →
          (updateCellsTypes lim g x y).planType = PlanType.REGULAR) := by
  have hne : ¬ (classifyOccupancy lim g x y).occType = OccType.UNEXPLORED := by
    rw [hfree]; decide
  rw [updateCellsTypes_planType, if_pos h, if_neg hne]
  unfold hazardValue
  rw [if_pos hfree]
  refine ⟨fun h3 => ?_, fun h3 h8 => ?_, fun h8 => ?_⟩
  · rw [if_pos ((anyNear_isOccupied_iff _ 3 x y).2 h3)]
    exact ⟨rfl, by decide⟩
  · rw [if_neg (fun hh => h3 ((anyNear_isOccupied_iff _ 3 x y).1 hh)),
      if_pos ((anyNear_isOccupied_iff _ 8 x y).2 h8)]
  · have h3 : ¬ anyNear (classifyOccupancy lim g) 3 isOccupied x y = true := by
      intro hh
      obtain ⟨i, j, hi, hj, ho⟩ := (anyNear_isOccupied_iff _ 3 x y).1 hh
      exact h8 ⟨i, j, ⟨by omega, by omega⟩, ⟨by omega, by omega⟩, ho⟩
    rw [if_neg h3, if_neg (fun hh => h8 ((anyNear_isOccupied_iff _ 8 x y).1 hh))]

/-- The frontier loop neither creates nor removes a hazard type: a cell carries `DANGER` or
`NEAR_WALLS` after `updateCellsTypes` exactly when it does after the hazard loop. -/
theorem updateCellsTypes_isHazard (lim : GridLimits) (g : Grid) (i j : Int) :
    isHazard (updateCellsTypes lim g i j)
      = isHazard (classifyHazards lim (classifyOccupancy lim g) i j) := by
  unfold updateCellsTypes
  rw [classifyFrontiers_apply lim _ (hazards_pre lim _)]
  by_cases hc : lim.contains i j
      ∧ (classifyHazards lim (classifyOccupancy lim g) i j).occType = OccType.UNEXPLORED
  · rw [if_pos hc, isHazard_frontierValue _ i j _ (hazards_pre lim _ i j hc.1 hc.2),
      hazards_pre lim _ i j hc.1 hc.2]
  · rw [if_neg hc]

/-- C7 (frontier classification). For every cell inside the grid limits that is `UNEXPLORED`
after phase 1 and has no cell in its 3x3 block whose `planType` is `DANGER` or `NEAR_WALLS`
(read when the frontier loop runs, that is after the hazard loop, or read in the grid that
`updateCellsTypes` returns): `updateCellsTypes` leaves `planType = FRONTIER` (and not
`FRONTIER_NEAR_WALL`) if one of its 8 neighbours is `FREE`, and `REGULAR` if none is. -/
theorem frontier_classification (lim : GridLimits) (g : Grid) (x y : Int)
    (h : lim.contains x y)
    (hun : (classifyOccupancy lim g x y).occType = OccType.UNEXPLORED)
    (hclear :
      (∀ i j, (x - 1 ≤ i ∧ i ≤ x + 1) → (y - 1 ≤ j ∧ j ≤ y + 1) →
        (classifyHazards lim (classifyOccupancy lim g) i j).planType ≠ PlanType.DANGER
          ∧ (classifyHazards lim (classifyOccupancy lim g) i j).planType
              ≠ PlanType.NEAR_WALLS)
      ∨ (∀ i j, (x - 1 ≤ i ∧ i ≤ x + 1) → (y - 1 ≤ j ∧ j ≤ y + 1) →
        (updateCellsTypes lim g i j).planType ≠ PlanType.DANGER
          ∧ (updateCellsTypes lim g i j).planType ≠ PlanType.NEAR_WALLS)) :
    ((∃ i j, ¬ (i = x ∧ j = y) ∧ (x - 1 ≤ i ∧ i ≤ x + 1) ∧ (y - 1 ≤ j ∧ j ≤ y + 1)
          ∧ (classifyOccupancy lim g i j).occType = OccType.FREE) →
        (updateCellsTypes lim g x y).planType = PlanType.FRONTIER
          ∧ (updateCellsTypes lim g x y).planType ≠ PlanType.FRONTIER_NEAR_WALL)
      ∧ ((¬ ∃ i j, ¬ (i = x ∧ j = y) ∧ (x - 1 ≤ i ∧ i ≤ x + 1) ∧ (y - 1 ≤ j ∧ j ≤ y + 1)
            ∧ (classifyOccupancy lim g i j).occType = OccType.FREE) →
          (updateCellsTypes lim g x y).planType = PlanType.REGULAR) := by
  have hz : ¬ anyNear (classifyHazards lim (classifyOccupancy lim g)) 1 isHazard x y = true := by
    intro hh
    obtain ⟨i, j, hi, hj, ho⟩ := (anyNear_iff _ 1 isHazard x y).1 hh
    rcases hclear with hcl | hcl
    · rcases (isHazard_iff _).1 ho with ho | ho
      · exact (hcl i j hi hj).1 ho
      · exact (hcl i j hi hj).2 ho
    · rw [← updateCellsTypes_isHazard] at ho
      rcases (isHazard_iff _).1 ho with ho | ho
      · exact (hcl i j hi hj).1 ho
      · exact (hcl i j hi hj).2 ho
  rw [updateCellsTypes_planType, if_pos h, if_pos hun]
  unfold frontierValue
  rw [if_neg hz]
  refine ⟨fun hf => ?_, fun hf => ?_⟩
  · obtain ⟨i, j, _, hi, hj, ho⟩ := hf
    rw [if_pos ((anyNear_isFree_iff _ 1 x y).2
      ⟨i, j, hi, hj, by rw [classifyHazards_occType]; exact ho⟩)]
    exact ⟨rfl, by decide⟩
  · rw [if_neg]
    intro hh
    obtain ⟨i, j, hi, hj, ho⟩ := (anyNear_isFree_iff _ 1 x y).1 hh
    rw [classifyHazards_occType] at ho
    refine hf ⟨i, j, ?_, hi, hj, ho⟩
    rintro ⟨rfl, rfl⟩
    rw [hun] at ho
    exact absurd ho (by decide)

/-! ## Classification pass: dependence on the stored state -/

theorem isHazard_congr (c d : Cell) (h : c.planType = d.planType) : isHazard c = isHazard d := by
  unfold isHazard
  rw [h]

theorem occOfHimm_idem (h : Int) (o : OccType) : occOfHimm h (occOfHimm h o) = occOfHimm h o := by
  unfold occOfHimm
  split_ifs <;> rfl

theorem classifyOccupancy_occType (lim : GridLimits) (g : Grid) (i j : Int) :
    (classifyOccupancy lim g i j).occType
      = if lim.contains i j then occOfHimm (g i j).himm (g i j).occType
        else (g i j).occType := by
  rw [classifyOccupancy_apply]
  split_ifs <;> rfl

theorem resetCellsTypes_occType (lim : GridLimits) (g : Grid) (i j : Int) :
    (resetCellsTypes lim g i j).occType = (g i j).occType := by
  rw [resetCellsTypes_apply]
  split_ifs <;> rfl

theorem resetCellsTypes_himm (lim : GridLimits) (g : Grid) (i j : Int) :
    (resetCellsTypes lim g i j).himm = (g i j).himm := by
  rw [resetCellsTypes_apply]
  split_ifs <;> rfl

theorem resetCellsTypes_planType_outside (lim : GridLimits) (g : Grid) (i j : Int)
    (h : ¬ lim.contains i j) : (resetCellsTypes lim g i j).planType = (g i j).planType := by
  rw [resetCellsTypes_apply, if_neg h]

theorem updateCellsTypes_himm (lim : GridLimits) (g : Grid) (i j : Int) :
    (updateCellsTypes lim g i j).himm = (g i j).himm := by
  unfold updateCellsTypes
  rw [classifyFrontiers_apply lim _ (hazards_pre lim _), classifyHazards_apply,
    classifyOccupancy_apply]
  split_ifs <;> rfl

/-- Inside the limits, the result of `updateCellsTypes` depends on the grid only through the
occupancy categories left by phase 1 and the hazard status of the cells outside the limits. -/
theorem updateCellsTypes_congr (lim : GridLimits) (a b : Grid)
    (hocc : ∀ i j, (classifyOccupancy lim a i j).occType = (classifyOccupancy lim b i j).occType)
    (hout : ∀ i j, ¬ lim.contains i j → isHazard (a i j) = isHazard (b i j))
    (x y : Int) (hc : lim.contains x y) :
    (updateCellsTypes lim a x y).occType = (updateCellsTypes lim b x y).occType
      ∧ (updateCellsTypes lim a x y).planType = (updateCellsTypes lim b x y).planType := by
  refine ⟨by rw [updateCellsTypes_occType, updateCellsTypes_occType, hocc], ?_⟩
  have hhv : ∀ i j, hazardValue (classifyOccupancy lim a) i j
      = hazardValue (classifyOccupancy lim b) i j :=
    fun i j => hazardValue_congr _ _ i j hocc
  have hhaz : ∀ i j, isHazard (classifyHazards lim (classifyOccupancy lim a) i j)
      = isHazard (classifyHazards lim (classifyOccupancy lim b) i j) := by
    intro i j
    rw [classifyHazards_apply, classifyHazards_apply]
    by_cases hij : lim.contains i j
    · rw [if_pos hij, if_pos hij]
      exact isHazard_congr _ _ (hhv i j)
    · rw [if_neg hij, if_neg hij, classifyOccupancy_apply, classifyOccupancy_apply,
        if_neg hij, if_neg hij]
      exact hout i j hij
  rw [updateCellsTypes_planType, updateCellsTypes_planType, if_pos hc, if_pos hc, hocc, hhv,
    frontierValue_congr _ _ x y _
      (fun i j => by rw [classifyHazards_occType, classifyHazards_occType, hocc]) hhaz]

/-- Re-running `updateCellsTypes` after a reset over the same limits reproduces the
classification, whatever limits the reset preceding the first run used. -/
theorem reclassify_eq (lim lim0 : GridLimits) (g : Grid) (x y : Int) :
    (updateCellsTypes lim (resetCellsTypes lim
          (updateCellsTypes lim (resetCellsTypes lim0 g))) x y).occType
        = (updateCellsTypes lim (resetCellsTypes lim0 g) x y).occType
      ∧ (updateCellsTypes lim (resetCellsTypes lim
          (updateCellsTypes lim (resetCellsTypes lim0 g))) x y).planType
        = (updateCellsTypes lim (resetCellsTypes lim0 g) x y).planType := by
  by_cases hc : lim.contains x y
  · refine updateCellsTypes_congr lim _ _ (fun i j => ?_) (fun i j hij => ?_) x y hc
    · rw [classifyOccupancy_occType, resetCellsTypes_occType, resetCellsTypes_himm,
        updateCellsTypes_occType, updateCellsTypes_himm, classifyOccupancy_occType]
      by_cases hij : lim.contains i j
      · simp only [if_pos hij, occOfHimm_idem]
      · simp only [if_neg hij]
    · refine isHazard_congr _ _ ?_
      rw [resetCellsTypes_planType_outside _ _ _ _ hij, updateCellsTypes_planType, if_neg hij]
  · refine ⟨?_, ?_⟩
    · rw [updateCellsTypes_occType, classifyOccupancy_occType, if_neg hc,
        resetCellsTypes_occType]
    · rw [updateCellsTypes_planType, if_neg hc, resetCellsTypes_planType_outside _ _ _ _ hc]

/-- C8 (classification determinism). For every grid state and grid limits, running the
classification pass (`resetCellsTypes` followed by `updateCellsTypes`) twice in succession
leaves in every cell the same `occType` and `planType` as running it once. The same holds for
the classifier as `Planning::run` executes it (reset over the current limits, then update
over the new limits): a second run, with no new pose in between, changes no `occType` and no
`planType`. -/
theorem classification_idempotent :
    (∀ (lim : GridLimits) (g : Grid) (x y : Int),
      (classificationPass lim (classificationPass lim g) x y).occType
          = (classificationPass lim g x y).occType
        ∧ (classificationPass lim (classificationPass lim g) x y).planType
          = (classificationPass lim g x y).planType)
      ∧ (∀ (pl : Planning) (g : Grid) (x y : Int),
        (((pl.runClassifier g).1.runClassifier (pl.runClassifier g).2).2 x y).occType
            = ((pl.runClassifier g).2 x y).occType
          ∧ (((pl.runClassifier g).1.runClassifier (pl.runClassifier g).2).2 x y).planType
            = ((pl.runClassifier g).2 x y).planType) :=
  ⟨fun lim g x y => reclassify_eq lim lim g x y,
    fun pl g x y => reclassify_eq pl.newGridLimits pl.gridLimits g x y⟩

theorem pass_neighbour_occupied :
    (classificationPass originLimits
      (neighbourGrid OccType.OCCUPIED PlanType.REGULAR) 0 0).planType = PlanType.DANGER := by
  unfold classificationPass
  simp only [updateCellsTypes_planType, classifyHazards_apply, classifyOccupancy_apply,
    resetCellsTypes_apply, hazardValue, frontierValue]
  decide

set_option maxRecDepth 100000 in
theorem pass_neighbour_free :
    (classificationPass originLimits
      (neighbourGrid OccType.FREE PlanType.REGULAR) 0 0).planType = PlanType.REGULAR := by
  unfold classificationPass
  simp only [updateCellsTypes_planType, classifyHazards_apply, classifyOccupancy_apply,
    resetCellsTypes_apply, hazardValue, frontierValue]
  decide

theorem pass_frontier_hazard :
    (classificationPass originLimits
      (frontierGrid OccType.UNEXPLORED PlanType.DANGER) 0 0).planType
        = PlanType.FRONTIER_NEAR_WALL := by
  unfold classificationPass
  simp only [updateCellsTypes_planType, classifyHazards_apply, classifyOccupancy_apply,
    resetCellsTypes_apply, hazardValue, frontierValue]
  decide

theorem pass_frontier_regular :
    (classificationPass originLimits
      (frontierGrid OccType.UNEXPLORED PlanType.REGULAR) 0 0).planType = PlanType.REGULAR := by
  unfold classificationPass
  simp only [updateCellsTypes_planType, classifyHazards_apply, classifyOccupancy_apply,
    resetCellsTypes_apply, hazardValue, frontierValue]
  decide

theorem pass_ambiguous (occ : OccType) :
    (classificationPass originLimits (ambiguousGrid occ) 0 0).occType = occ := by
  unfold classificationPass
  simp only [updateCellsTypes_occType, classifyOccupancy_apply, resetCellsTypes_apply]
  rfl

/-- C9, as stated, fails: grids with the same `himm` everywhere can leave the pass with
different classifications inside the limits.  An ambiguous cell (`himm = 7`) keeps the
`occType` stored before the pass; a stored `occType` outside the limits decides the hazard
type of a cell inside; a stored `planType` outside the limits decides its frontier type. -/
theorem classification_carries_stored_state :
    ((∀ i j, (ambiguousGrid OccType.FREE i j).himm = (ambiguousGrid OccType.OCCUPIED i j).himm)
        ∧ originLimits.contains 0 0
        ∧ (classificationPass originLimits (ambiguousGrid OccType.FREE) 0 0).occType
            ≠ (classificationPass originLimits (ambiguousGrid OccType.OCCUPIED) 0 0).occType)
      ∧ ((∀ i j, (neighbourGrid OccType.OCCUPIED PlanType.REGULAR i j).himm
            = (neighbourGrid OccType.FREE PlanType.REGULAR i j).himm)
        ∧ (classificationPass originLimits
              (neighbourGrid OccType.OCCUPIED PlanType.REGULAR) 0 0).planType
            ≠ (classificationPass originLimits
              (neighbourGrid OccType.FREE PlanType.REGULAR) 0 0).planType)
      ∧ ((∀ i j, (frontierGrid OccType.UNEXPLORED PlanType.DANGER i j).himm
            = (frontierGrid OccType.UNEXPLORED PlanType.REGULAR i j).himm)
        ∧ (classificationPass originLimits
              (frontierGrid OccType.UNEXPLORED PlanType.DANGER) 0 0).planType
            ≠ (classificationPass originLimits
              (frontierGrid OccType.UNEXPLORED PlanType.REGULAR) 0 0).planType) := by
  refine ⟨⟨fun i j => ?_, by decide, ?_⟩, ⟨fun i j => ?_, ?_⟩, ⟨fun i j => ?_, ?_⟩⟩
  · unfold ambiguousGrid gridWith Grid.setCell
    split_ifs <;> rfl
  · rw [pass_ambiguous, pass_ambiguous]
    decide
  · unfold neighbourGrid gridWith Grid.setCell
    split_ifs <;> rfl
  · rw [pass_neighbour_occupied, pass_neighbour_free]
    decide
  · unfold frontierGrid neighbourGrid gridWith Grid.setCell
    split_ifs <;> rfl
  · rw [pass_frontier_hazard, pass_frontier_regular]
    decide

/-- C9, amended. Two grid states with the same grid limits and the same `himm` in every cell,
the same `occType` in every cell that lies outside the limits or has `6 <= himm <= 9`, and the
same `planType` in every cell outside the limits (so differing at most in the `planType`
stored inside the limits and in the `occType` stored in cells inside the limits with
`himm <= 5` or `himm >= 10`) have, after one classification pass, the same `occType` and the
same `planType` in every cell inside the limits. -/
theorem classification_recomputed (lim : GridLimits) (a b : Grid)
    (hhimm : ∀ i j, (a i j).himm = (b i j).himm)
    (hocc : ∀ i j, (¬ lim.contains i j ∨ (6 ≤ (a i j).himm ∧ (a i j).himm ≤ 9)) →
      (a i j).occType = (b i j).occType)
    (hplan : ∀ i j, ¬ lim.contains i j → (a i j).planType = (b i j).planType)
    (x y : Int) (hc : lim.contains x y) :
    (classificationPass lim a x y).occType = (classificationPass lim b x y).occType
      ∧ (classificationPass lim a x y).planType = (classificationPass lim b x y).planType := by
  unfold classificationPass
  refine updateCellsTypes_congr lim _ _ (fun i j => ?_) (fun i j hij => ?_) x y hc
  · rw [classifyOccupancy_occType, classifyOccupancy_occType, resetCellsTypes_occType,
      resetCellsTypes_occType, resetCellsTypes_himm, resetCellsTypes_himm, hhimm]
    by_cases hij : lim.contains i j
    · rw [if_pos hij, if_pos hij]
      unfold occOfHimm
      by_cases h10 : (b i j).himm ≥ 10
      · rw [if_pos h10, if_pos h10]
      · by_cases h5 : (b i j).himm ≤ 5
        · rw [if_neg h10, if_neg h10, if_pos h5, if_pos h5]
        · rw [if_neg h10, if_neg h10, if_neg h5, if_neg h5]
          exact hocc i j (Or.inr (by rw [hhimm]; omega))
    · rw [if_neg hij, if_neg hij]
      exact hocc i j (Or.inl hij)
  · refine isHazard_congr _ _ ?_
    rw [resetCellsTypes_planType_outside _ _ _ _ hij,
      resetCellsTypes_planType_outside _ _ _ _ hij]
    exact hplan i j hij

theorem staleGrid_himm (i j : Int) :
    (neighbourGrid OccType.FREE PlanType.REGULAR i j).himm = (staleGrid i j).himm := by
  unfold staleGrid neighbourGrid gridWith Grid.setCell
  split_ifs <;> rfl

theorem staleGrid_outside (i j : Int) (h : ¬ originLimits.contains i j) :
    neighbourGrid OccType.FREE PlanType.REGULAR i j = staleGrid i j := by
  have h0 : ¬ (i = 0 ∧ j = 0) := by
    rintro ⟨rfl, rfl⟩
    exact h (by decide)
  unfold staleGrid
  rw [setCell_other _ _ _ _ _ _ h0]

theorem staleGrid_not_ambiguous (i j : Int) :
    ¬ (6 ≤ (neighbourGrid OccType.FREE PlanType.REGULAR i j).himm
      ∧ (neighbourGrid OccType.FREE PlanType.REGULAR i j).himm ≤ 9) := by
  unfold neighbourGrid gridWith Grid.setCell Grid.fresh
  split_ifs <;> decide

theorem classification_recomputed_witness :
    ((∀ i j, (neighbourGrid OccType.FREE PlanType.REGULAR i j).himm = (staleGrid i j).himm)
        ∧ (∀ i j, (¬ originLimits.contains i j
              ∨ (6 ≤ (neighbourGrid OccType.FREE PlanType.REGULAR i j).himm
                ∧ (neighbourGrid OccType.FREE PlanType.REGULAR i j).himm ≤ 9)) →
            (neighbourGrid OccType.FREE PlanType.REGULAR i j).occType = (staleGrid i j).occType)
        ∧ (∀ i j, ¬ originLimits.contains i j →
            (neighbourGrid OccType.FREE PlanType.REGULAR i j).planType
              = (staleGrid i j).planType)
        ∧ originLimits.contains 0 0
        ∧ (neighbourGrid OccType.FREE PlanType.REGULAR 0 0).occType ≠ (staleGrid 0 0).occType
        ∧ (neighbourGrid OccType.FREE PlanType.REGULAR 0 0).planType
            ≠ (staleGrid 0 0).planType)
      ∧ (classificationPass originLimits
            (neighbourGrid OccType.FREE PlanType.REGULAR) 0 0).occType
          = (classificationPass originLimits staleGrid 0 0).occType
      ∧ (classificationPass originLimits
            (neighbourGrid OccType.FREE PlanType.REGULAR) 0 0).planType
          = (classificationPass originLimits staleGrid 0 0).planType :=
  ⟨⟨staleGrid_himm,
      fun i j h => h.elim (fun ho => by rw [staleGrid_outside i j ho])
        (fun ha => absurd ha (staleGrid_not_ambiguous i j)),
      fun i j ho => by rw [staleGrid_outside i j ho],
      by decide, by decide, by decide⟩,
    classification_recomputed originLimits (neighbourGrid OccType.FREE PlanType.REGULAR)
      staleGrid staleGrid_himm
      (fun i j h => h.elim (fun ho => by rw [staleGrid_outside i j ho])
        (fun ha => absurd ha (staleGrid_not_ambiguous i j)))
      (fun i j ho => by rw [staleGrid_outside i j ho]) 0 0 (by decide)⟩

/-! ## Classification examples -/

theorem occupancy_classification_witness :
    (originLimits.contains 0 0 ∧ (Grid.fresh 0 0).himm ≤ 5)
      ∧ (updateCellsTypes originLimits Grid.fresh 0 0).occType = OccType.FREE :=
  ⟨⟨by decide, by decide⟩,
    (occupancy_classification originLimits Grid.fresh 0 0 (by decide)).1 (by decide)⟩

theorem neighbourGrid_phase1 (occ : OccType) (plan : PlanType) (i j : Int) :
    (classifyOccupancy originLimits (neighbourGrid occ plan) i j).occType
      = if i = 0 ∧ j = 0 then OccType.FREE
        else if i = 1 ∧ j = 0 then occ else OccType.UNEXPLORED := by
  rw [classifyOccupancy_occType]
  unfold originLimits GridLimits.contains neighbourGrid gridWith Grid.setCell Grid.fresh
  by_cases h0 : i = 0 ∧ j = 0
  · obtain ⟨hi, hj⟩ := h0
    subst hi hj
    rfl
  · have hc : ¬ ((0 : Int) ≤ i ∧ i ≤ 0 ∧ (0 : Int) ≤ j ∧ j ≤ 0) := fun h => h0 ⟨by omega, by omega⟩
    simp only [hc, h0, if_false]
    split_ifs <;> rfl

theorem hazard_classification_witness :
    (originLimits.contains 0 0
        ∧ (classifyOccupancy originLimits
            (neighbourGrid OccType.OCCUPIED PlanType.REGULAR) 0 0).occType = OccType.FREE
        ∧ (classifyOccupancy originLimits
            (neighbourGrid OccType.OCCUPIED PlanType.REGULAR) 1 0).occType = OccType.OCCUPIED)
      ∧ (updateCellsTypes originLimits
          (neighbourGrid OccType.OCCUPIED PlanType.REGULAR) 0 0).planType = PlanType.DANGER :=
  ⟨⟨by decide, by rw [neighbourGrid_phase1]; decide, by rw [neighbourGrid_phase1]; decide⟩,
    ((hazard_classification originLimits (neighbourGrid OccType.OCCUPIED PlanType.REGULAR) 0 0
      (by decide) (by rw [neighbourGrid_phase1]; decide)).1
      ⟨1, 0, by decide, by decide, by rw [neighbourGrid_phase1]; decide⟩).1⟩

theorem frontierGrid_phase1 (occ : OccType) (plan : PlanType) (i j : Int) :
    (classifyOccupancy originLimits (frontierGrid occ plan) i j).occType
      = if i = 1 ∧ j = 0 then occ else OccType.UNEXPLORED := by
  rw [classifyOccupancy_occType]
  unfold originLimits GridLimits.contains frontierGrid neighbourGrid gridWith Grid.setCell
    Grid.fresh
  by_cases h0 : i = 0 ∧ j = 0
  · obtain ⟨hi, hj⟩ := h0
    subst hi hj
    rfl
  · have hc : ¬ ((0 : Int) ≤ i ∧ i ≤ 0 ∧ (0 : Int) ≤ j ∧ j ≤ 0) := fun h => h0 ⟨by omega, by omega⟩
    simp only [hc, h0, if_false]
    split_ifs <;> rfl

theorem classifyHazards_planType (lim : GridLimits) (g : Grid) (i j : Int) :
    (classifyHazards lim g i j).planType
      = if lim.contains i j then hazardValue g i j else (g i j).planType := by
  rw [classifyHazards_apply]
  split_ifs <;> rfl

theorem frontierGrid_hazards (occ : OccType) (plan : PlanType) (i j : Int) :
    (classifyHazards originLimits
        (classifyOccupancy originLimits (frontierGrid occ plan)) i j).planType
      = if i = 1 ∧ j = 0 then plan else PlanType.REGULAR := by
  rw [classifyHazards_planType]
  by_cases h0 : i = 0 ∧ j = 0
  · obtain ⟨hi, hj⟩ := h0
    subst hi hj
    rw [if_pos (by decide)]
    unfold hazardValue
    rw [frontierGrid_phase1]
    rfl
  · have hc : ¬ originLimits.contains i j := by
      intro h
      have h2 : (0 : Int) ≤ i ∧ i ≤ 0 ∧ (0 : Int) ≤ j ∧ j ≤ 0 := h
      exact h0 ⟨by omega, by omega⟩
    rw [if_neg hc, classifyOccupancy_apply, if_neg hc]
    unfold frontierGrid neighbourGrid gridWith Grid.setCell Grid.fresh
    simp only [h0, if_false]
    split_ifs <;> rfl

theorem frontier_classification_witness :
    (originLimits.contains 0 0
        ∧ (classifyOccupancy originLimits
            (frontierGrid OccType.FREE PlanType.REGULAR) 0 0).occType = OccType.UNEXPLORED
        ∧ (classifyOccupancy originLimits
            (frontierGrid OccType.FREE PlanType.REGULAR) 1 0).occType = OccType.FREE)
      ∧ (updateCellsTypes originLimits
          (frontierGrid OccType.FREE PlanType.REGULAR) 0 0).planType = PlanType.FRONTIER :=
  ⟨⟨by decide, by rw [frontierGrid_phase1]; decide, by rw [frontierGrid_phase1]; decide⟩,
    ((frontier_classification originLimits (frontierGrid OccType.FREE PlanType.REGULAR) 0 0
      (by decide) (by rw [frontierGrid_phase1]; decide)
      (Or.inl (fun i j _ _ => by rw [frontierGrid_hazards]; split_ifs <;> decide))).1
      ⟨1, 0, by decide, by decide, by decide, by rw [frontierGrid_phase1]; decide⟩).1⟩

/-! ## Evidence saturation -/

/-- C4 (evidence saturation). For every cell inside the grid limits whose `himm` lies in
`[0,15]`: after 5 or more consecutive HIMM passes that find the cell at the detected surface,
`himm` is 15 (so it stays 15 under further such passes) and the next classification pass
(`updateCellsTypes`, after a reset over any earlier limits) sets `occType = OCCUPIED`; after 15
or more consecutive passes that find the cell in free space, `himm` is 0 (and stays 0) and the
next classification pass sets `occType = FREE`. -/
theorem himm_saturation (lim lim0 : GridLimits) (g : Grid) (x y : Int)
    (hlim : lim.contains x y) (h : 0 ≤ (g x y).himm ∧ (g x y).himm ≤ 15) :
    (∀ cycles : List Robot, 5 ≤ cycles.length → (∀ rb ∈ cycles, rb.seesSurfaceAt x y) →
        (himmPasses cycles g x y).himm = 15
          ∧ (updateCellsTypes lim (resetCellsTypes lim0 (himmPasses cycles g)) x y).occType
              = OccType.OCCUPIED)
      ∧ (∀ cycles : List Robot, 15 ≤ cycles.length → (∀ rb ∈ cycles, rb.seesFreeAt x y) →
        (himmPasses cycles g x y).himm = 0
          ∧ (updateCellsTypes lim (resetCellsTypes lim0 (himmPasses cycles g)) x y).occType
              = OccType.FREE) := by
  refine ⟨fun cycles hlen hall => ?_, fun cycles hlen hall => ?_⟩
  · have hv : (himmPasses cycles g x y).himm = 15 := by
      rw [himmPasses_surface g x y h cycles hall]
      omega
    refine ⟨hv, ?_⟩
    rw [updateCellsTypes_occType, classifyOccupancy_occType, if_pos hlim, resetCellsTypes_himm,
      hv]
    rfl
  · have hv : (himmPasses cycles g x y).himm = 0 := by
      rw [himmPasses_free g x y h cycles hall]
      omega
    refine ⟨hv, ?_⟩
    rw [updateCellsTypes_occType, classifyOccupancy_occType, if_pos hlim, resetCellsTypes_himm,
      hv]
    rfl

theorem himm_saturation_witness :
    (sceneLimits.contains 2 0 ∧ (0 ≤ (Grid.fresh 2 0).himm ∧ (Grid.fresh 2 0).himm ≤ 15)
        ∧ sceneRobot.seesSurfaceAt 2 0 ∧ clearRobot.seesFreeAt 2 0)
      ∧ ((himmPasses (List.replicate 5 sceneRobot) Grid.fresh 2 0).himm = 15
        ∧ (updateCellsTypes sceneLimits (resetCellsTypes sceneLimits
            (himmPasses (List.replicate 5 sceneRobot) Grid.fresh)) 2 0).occType
              = OccType.OCCUPIED)
      ∧ ((himmPasses (List.replicate 15 clearRobot) Grid.fresh 2 0).himm = 0
        ∧ (updateCellsTypes sceneLimits (resetCellsTypes sceneLimits
            (himmPasses (List.replicate 15 clearRobot) Grid.fresh)) 2 0).occType
              = OccType.FREE) :=
  ⟨⟨by decide, by decide, sceneRobot_seesSurfaceAt, clearRobot_seesFreeAt⟩,
    (himm_saturation sceneLimits sceneLimits Grid.fresh 2 0 (by decide) (by decide)).1
      (List.replicate 5 sceneRobot) (by simp)
      (fun rb hrb => by rw [List.eq_of_mem_replicate hrb]; exact sceneRobot_seesSurfaceAt),
    (himm_saturation sceneLimits sceneLimits Grid.fresh 2 0 (by decide) (by decide)).2
      (List.replicate 15 clearRobot) (by simp)
      (fun rb hrb => by rw [List.eq_of_mem_replicate hrb]; exact clearRobot_seesFreeAt)⟩

/-! ## Sonar occupancy -/

/-- The sonar pass acts cell by cell: inside the scanned square it applies `sonarCell`, and
it leaves every other cell alone. -/
theorem mappingUsingSonar_apply (rb : Robot) (g : Grid) (i j : Int) :
    rb.mappingUsingSonar g i j
      = if rb.inSonarSquare i j then rb.sonarCell i j (g i j) else g i j := by
  have h := (forCells_pointwise (rb.robotX - rb.sonarRangeInt) (rb.robotX + rb.sonarRangeInt)
    (rb.robotY - rb.sonarRangeInt) (rb.robotY + rb.sonarRangeInt) rb.sonarBody rb.sonarCell
    (fun _ => True) (fun _ _ _ _ _ => trivial)
    (fun x y _ s _ => by
      unfold Robot.sonarBody Robot.sonarCell Grid.getCell
      by_cases h1 : rb.sonarOffBeam x y
      · simp only [h1, if_true]
      · by_cases h2 : rb.sonarRegion1 x y
        · simp only [h1, h2, if_true, if_false, setCell_same]
        · by_cases h3 : rb.sonarRegion2 x y
          · simp only [h1, h2, h3, if_true, if_false, setCell_same]
          · simp only [h1, h2, h3, if_false])
    (fun x y _ s _ i j hij => by
      unfold Robot.sonarBody
      by_cases h1 : rb.sonarOffBeam x y
      · simp only [h1, if_true]
      · by_cases h2 : rb.sonarRegion1 x y
        · simp only [h1, h2, if_true, if_false, setCell_other _ _ _ _ _ _ hij]
        · by_cases h3 : rb.sonarRegion2 x y
          · simp only [h1, h2, h3, if_true, if_false, setCell_other _ _ _ _ _ _ hij]
          · simp only [h1, h2, h3, if_false])
    g trivial).2 i j
  exact h

/-- The fusion denominator is at least `1/100` for an update value in `[0,1]` and a prior
in `[0.01, 0.99]`. -/
theorem sonarDenominator_pos (u p : ℚ) (hu0 : 0 ≤ u) (hu1 : u ≤ 1) (hp0 : 1 / 100 ≤ p)
    (hp1 : p ≤ 99 / 100) : 1 / 100 ≤ sonarDenominator u p := by
  unfold sonarDenominator
  nlinarith [mul_nonneg hu0 (sub_nonneg.2 hp0),
    mul_nonneg (sub_nonneg.2 hu1) (sub_nonneg.2 hp1)]

theorem setNewRobotPose_maxUpdateRange (pl : Planning) (p : Pose) :
    (pl.setNewRobotPose p).maxUpdateRange = pl.maxUpdateRange := rfl

theorem setNewRobotPose_scale (pl : Planning) (p : Pose) :
    (pl.setNewRobotPose p).scale = pl.scale := rfl

theorem setNewRobotPose_cellOfPose (pl : Planning) (p q : Pose) :
    (pl.setNewRobotPose p).cellOfPose q = pl.cellOfPose q := rfl

/-- One call of `setNewRobotPose` only moves the limits outward. -/
theorem setNewRobotPose_grow (pl : Planning) (p : Pose) :
    (pl.setNewRobotPose p).newGridLimits.minX ≤ pl.newGridLimits.minX
      ∧ (pl.setNewRobotPose p).newGridLimits.minY ≤ pl.newGridLimits.minY
      ∧ pl.newGridLimits.maxX ≤ (pl.setNewRobotPose p).newGridLimits.maxX
      ∧ pl.newGridLimits.maxY ≤ (pl.setNewRobotPose p).newGridLimits.maxY :=
  ⟨min_le_left _ _, min_le_left _ _, le_max_left _ _, le_max_left _ _⟩

theorem wrapInt32_of_inIntRange (z : Int) (h : inIntRange z) : wrapInt32 z = z :=
  wrapInt32_of_range z h.1 (by have := h.2; omega)

/-- When the sums and differences stay within the range of `int`, the limits after one call
contain the margin around the cell of the pose. -/
theorem setNewRobotPose_contains (pl : Planning) (p : Pose) (h : pl.marginInRange p) :
    (pl.setNewRobotPose p).newGridLimits.minX ≤ (pl.cellOfPose p).x - pl.maxUpdateRange
      ∧ (pl.cellOfPose p).x + pl.maxUpdateRange ≤ (pl.setNewRobotPose p).newGridLimits.maxX
      ∧ (pl.setNewRobotPose p).newGridLimits.minY ≤ (pl.cellOfPose p).y - pl.maxUpdateRange
      ∧ (pl.cellOfPose p).y + pl.maxUpdateRange
          ≤ (pl.setNewRobotPose p).newGridLimits.maxY := by
  obtain ⟨⟨h1, h2⟩, h3, h4⟩ := h
  have e1 := wrapInt32_of_inIntRange _ h1
  have e2 := wrapInt32_of_inIntRange _ h2
  have e3 := wrapInt32_of_inIntRange _ h3
  have e4 := wrapInt32_of_inIntRange _ h4
  unfold Planning.cellOfPose at e1 e2 e3 e4
  unfold Planning.setNewRobotPose Planning.cellOfPose
  simp only
  rw [e1, e2, e3, e4]
  exact ⟨min_le_right _ _, le_max_right _ _, min_le_right _ _, le_max_right _ _⟩

/-- A sequence of `setNewRobotPose` calls keeps `maxUpdateRange` and the scale, and only moves
the limits outward. -/
theorem setNewRobotPoses_grow (ps : List Pose) :
    ∀ pl : Planning,
      (pl.setNewRobotPoses ps).maxUpdateRange = pl.maxUpdateRange
        ∧ (pl.setNewRobotPoses ps).scale = pl.scale
        ∧ (pl.setNewRobotPoses ps).newGridLimits.minX ≤ pl.newGridLimits.minX
        ∧ (pl.setNewRobotPoses ps).newGridLimits.minY ≤ pl.newGridLimits.minY
        ∧ pl.newGridLimits.maxX ≤ (pl.setNewRobotPoses ps).newGridLimits.maxX
        ∧ pl.newGridLimits.maxY ≤ (pl.setNewRobotPoses ps).newGridLimits.maxY := by
  induction ps with
  | nil => intro pl; exact ⟨rfl, rfl, le_refl _, le_refl _, le_refl _, le_refl _⟩
  | cons q rest ih =>
    intro pl
    have h1 := setNewRobotPose_grow pl q
    have h2 := ih (pl.setNewRobotPose q)
    show (Planning.setNewRobotPoses (pl.setNewRobotPose q) rest).maxUpdateRange = _ ∧ _
    rw [setNewRobotPose_maxUpdateRange, setNewRobotPose_scale] at h2
    exact ⟨h2.1, h2.2.1, le_trans h2.2.2.1 h1.1, le_trans h2.2.2.2.1 h1.2.1,
      le_trans h1.2.2.1 h2.2.2.2.2.1, le_trans h1.2.2.2 h2.2.2.2.2.2⟩

/-- After a sequence of `setNewRobotPose` calls the limits contain the margin around the cell
of every pose of the sequence whose sums and differences stay within the range of `int`. -/
theorem setNewRobotPoses_contain (ps : List Pose) :
    ∀ pl : Planning, ∀ p ∈ ps, pl.marginInRange p →
      (pl.setNewRobotPoses ps).newGridLimits.minX ≤ (pl.cellOfPose p).x - pl.maxUpdateRange
        ∧ (pl.cellOfPose p).x + pl.maxUpdateRange ≤ (pl.setNewRobotPoses ps).newGridLimits.maxX
        ∧ (pl.setNewRobotPoses ps).newGridLimits.minY ≤ (pl.cellOfPose p).y - pl.maxUpdateRange
        ∧ (pl.cellOfPose p).y + pl.maxUpdateRange
            ≤ (pl.setNewRobotPoses ps).newGridLimits.maxY := by
  induction ps with
  | nil => intro pl p hp; exact absurd hp (List.not_mem_nil _)
  | cons q rest ih =>
    intro pl p hp hin
    show (Planning.setNewRobotPoses (pl.setNewRobotPose q) rest).newGridLimits.minX ≤ _ ∧ _
    rcases List.mem_cons.1 hp with hpq | hpr
    · subst hpq
      have h1 := setNewRobotPose_contains pl p hin
      have h2 := setNewRobotPoses_grow rest (pl.setNewRobotPose p)
      exact ⟨le_trans h2.2.2.1 h1.1, le_trans h1.2.1 h2.2.2.2.2.1,
        le_trans h2.2.2.2.1 h1.2.2.1, le_trans h1.2.2.2 h2.2.2.2.2.2⟩
    · have h := ih (pl.setNewRobotPose q) p hpr hin
      rw [setNewRobotPose_maxUpdateRange, setNewRobotPose_cellOfPose] at h
      exact h

/-- A value in `[n, n+1)`, for a non-negative `int` `n`, converts to `n`. -/
theorem truncToInt_eq (q : ℚ) (n : Int) (h0 : 0 ≤ n) (h1 : (n : ℚ) ≤ q) (h2 : q < n + 1)
    (h3 : n ≤ 2147483647) : truncToInt q = n := by
  have hq : 0 ≤ q := le_trans (by exact_mod_cast h0) h1
  have ht : truncate q = n := by
    unfold truncate
    rw [if_pos hq, Int.floor_eq_iff]
    exact ⟨h1, h2⟩
  unfold truncToInt
  rw [ht, if_pos ⟨by omega, h3⟩]

/-- The product `1.2*9*10` in `double` arithmetic lies below 108. -/
theorem updateRangeProduct_nine_ten :
    updateRangeProduct 9 10 = 7599824371187711 / 70368744177664 := by
  have h1 : roundDouble (6 / 5) = 5404319552844595 / 4503599627370496 := by
    unfold roundDouble
    rw [roundBinary_eq 53 (-1074) _ 0 5404319552844595
      (by norm_num [abs_of_pos]) (by norm_num [abs_of_pos]) (by norm_num)
      (by norm_num [abs_lt])]
    norm_num
  have h2 : roundDouble (5404319552844595 / 4503599627370496 * 9)
      = 6079859496950169 / 562949953421312 := by
    unfold roundDouble
    rw [roundBinary_eq 53 (-1074) _ 3 6079859496950169
      (by norm_num [abs_of_pos]) (by norm_num [abs_of_pos]) (by norm_num)
      (by norm_num [abs_lt])]
    norm_num
  have h3 : roundDouble (6079859496950169 / 562949953421312 * 10)
      = 7599824371187711 / 70368744177664 := by
    unfold roundDouble
    rw [roundBinary_eq 53 (-1074) _ 6 7599824371187711
      (by norm_num [abs_of_pos]) (by norm_num [abs_of_pos]) (by norm_num)
      (by norm_num [abs_lt])]
    norm_num
  unfold updateRangeProduct
  push_cast
  rw [h1, h2, h3]

theorem nineMetreRobot_maxUpdateRange (junk : Int) :
    (nineMetreRobot.newPlanning junk).maxUpdateRange = 107 := by
  have h9 : truncToInt nineMetreRobot.base.getMaxLaserRange = 9 := by
    have : nineMetreRobot.base.getMaxLaserRange = ((9 : Int) : ℚ) := by
      norm_num [nineMetreRobot, axisBase]
    rw [this, truncToInt_intCast 9 (by decide)]
  show truncToInt (updateRangeProduct (truncToInt nineMetreRobot.base.getMaxLaserRange) 10)
    = 107
  rw [h9, updateRangeProduct_nine_ten]
  exact truncToInt_eq _ 107 (by decide) (by norm_num) (by norm_num) (by decide)

theorem nineMetreRobot_cellOfPose (junk : Int) :
    (nineMetreRobot.newPlanning junk).cellOfPose originPose = { x := 0, y := 0 } := by
  simp [Planning.cellOfPose, Planning.toCell, originPose, roundFloat_zero, truncToInt_zero]

/-- C10, as stated, fails for the margin `m = 1.2 * maxSensorRange * scale`. At map scale 10
with a maximum laser range of 9 m this margin is 108 cells, but `setMaxUpdateRange` evaluates
`1.2*9*10` in `double` arithmetic, where the product lies below 108, and the conversion to
`int` leaves `maxUpdateRange = 107`. After the constructor and one `setNewRobotPose` call at
the origin the limits are `[-107, 107] x [-107, 107]`: the cell `(108, 0)`, at 108 cells from
the robot cell `(0, 0)`, lies outside. -/
theorem gridLimits_margin_falls_short :
    (6 / 5 : ℚ) * nineMetreRobot.base.getMaxLaserRange * (nineMetreRobot.scale : ℚ) = 108
      ∧ (nineMetreRobot.newPlanning 0).maxUpdateRange = 107
      ∧ (nineMetreRobot.newPlanning 0).cellOfPose originPose = { x := 0, y := 0 }
      ∧ ((nineMetreRobot.newPlanning 0).setNewRobotPoses [originPose]).newGridLimits
          = { minX := -107, minY := -107, maxX := 107, maxY := 107 }
      ∧ ¬ ((nineMetreRobot.newPlanning 0).setNewRobotPoses
            [originPose]).newGridLimits.contains 108 0 := by
  have hm := nineMetreRobot_maxUpdateRange 0
  have hc := nineMetreRobot_cellOfPose 0
  have hx : (nineMetreRobot.newPlanning 0).toCell originPose.x = 0 :=
    congrArg RobotCell.x hc
  have hy : (nineMetreRobot.newPlanning 0).toCell originPose.y = 0 :=
    congrArg RobotCell.y hc
  have hl : (nineMetreRobot.newPlanning 0).newGridLimits
      = { minX := 1000, minY := 1000, maxX := -1000, maxY := -1000 } := rfl
  have hbox : ((nineMetreRobot.newPlanning 0).setNewRobotPoses [originPose]).newGridLimits
      = { minX := -107, minY := -107, maxX := 107, maxY := 107 } := by
    show ((nineMetreRobot.newPlanning 0).setNewRobotPose originPose).newGridLimits = _
    unfold Planning.setNewRobotPose
    simp only
    rw [hx, hy, hm, hl]
    decide
  refine ⟨by norm_num [nineMetreRobot, axisBase], hm, hc, hbox, ?_⟩
  rw [hbox]
  decide

/-- C10, amended (grid-limits invariant for the margin the program stores). The planner built
by the constructor of `Robot` has the limits `min = 1000`, `max = -1000`, and its margin
`m = maxUpdateRange` is the product `1.2 * r * scale`, evaluated in `double` arithmetic and
converted to `int`, for `r` the maximum laser range converted to `int`. Every
`setNewRobotPose` call, in any state, leaves `minX`, `minY` no larger and `maxX`, `maxY` no
smaller. After any sequence of calls the limits contain `[x - m, x + m] x [y - m, y + m]`
for the cell `(x, y)` computed for every pose passed so far for which these four sums and
differences are within the range of `int`; so they contain every cell within `m` of that
cell in both coordinates. -/
theorem gridLimits_invariant (rb : Robot) (junk : Int) (ps : List Pose) :
    ((rb.newPlanning junk).newGridLimits
        = { minX := 1000, minY := 1000, maxX := -1000, maxY := -1000 })
      ∧ ((rb.newPlanning junk).maxUpdateRange
          = truncToInt (roundDouble (roundDouble (roundDouble (6 / 5)
              * ((truncToInt rb.base.getMaxLaserRange : Int) : ℚ)) * (rb.scale : ℚ))))
      ∧ (∀ (pl : Planning) (p : Pose),
          (pl.setNewRobotPose p).newGridLimits.minX ≤ pl.newGridLimits.minX
            ∧ (pl.setNewRobotPose p).newGridLimits.minY ≤ pl.newGridLimits.minY
            ∧ pl.newGridLimits.maxX ≤ (pl.setNewRobotPose p).newGridLimits.maxX
            ∧ pl.newGridLimits.maxY ≤ (pl.setNewRobotPose p).newGridLimits.maxY)
      ∧ (∀ p ∈ ps, (rb.newPlanning junk).marginInRange p →
          (((rb.newPlanning junk).setNewRobotPoses ps).newGridLimits.minX
              ≤ ((rb.newPlanning junk).cellOfPose p).x - (rb.newPlanning junk).maxUpdateRange
            ∧ ((rb.newPlanning junk).cellOfPose p).x + (rb.newPlanning junk).maxUpdateRange
              ≤ ((rb.newPlanning junk).setNewRobotPoses ps).newGridLimits.maxX
            ∧ ((rb.newPlanning junk).setNewRobotPoses ps).newGridLimits.minY
              ≤ ((rb.newPlanning junk).cellOfPose p).y - (rb.newPlanning junk).maxUpdateRange
            ∧ ((rb.newPlanning junk).cellOfPose p).y + (rb.newPlanning junk).maxUpdateRange
              ≤ ((rb.newPlanning junk).setNewRobotPoses ps).newGridLimits.maxY))
      ∧ (∀ p ∈ ps, (rb.newPlanning junk).marginInRange p → ∀ i j : Int,
          |i - ((rb.newPlanning junk).cellOfPose p).x| ≤ (rb.newPlanning junk).maxUpdateRange →
          |j - ((rb.newPlanning junk).cellOfPose p).y| ≤ (rb.newPlanning junk).maxUpdateRange →
          ((rb.newPlanning junk).setNewRobotPoses ps).newGridLimits.contains i j) := by
  refine ⟨rfl, rfl, fun pl p => setNewRobotPose_grow pl p, fun p hp hin => ?_,
    fun p hp hin i j hi hj => ?_⟩
  · exact setNewRobotPoses_contain ps _ p hp hin
  · have hc := setNewRobotPoses_contain ps (rb.newPlanning junk) p hp hin
    have hx := abs_le.1 hi
    have hy := abs_le.1 hj
    unfold GridLimits.contains
    omega

theorem gridLimits_invariant_witness :
    (originPose ∈ [originPose] ∧ (nineMetreRobot.newPlanning 0).marginInRange originPose)
      ∧ ((nineMetreRobot.newPlanning 0).setNewRobotPoses [originPose]).newGridLimits.contains
          107 (-107) := by
  have hm := nineMetreRobot_maxUpdateRange 0
  have hc := nineMetreRobot_cellOfPose 0
  have hin : (nineMetreRobot.newPlanning 0).marginInRange originPose := by
    unfold Planning.marginInRange
    rw [hc, hm]
    decide
  refine ⟨⟨by simp, hin⟩, ?_⟩
  have h := (gridLimits_invariant nineMetreRobot 0 [originPose]).2.2.2.2 originPose (by simp)
    hin 107 (-107)
  rw [hc, hm] at h
  exact h (by decide) (by decide)

/-! ## Inverse sensor model -/

/-- When the first test fails the cell is not beyond the reading, so the third test holds,
in whatever arithmetic the differences are evaluated. -/
theorem inverseSensorModelTests_cases {F : Type} [LinearOrderedField F] (fl : F → F)
    (halfLambdaR r phi beamAngle reading maxRange : F) :
    inverseSensorModelTests fl halfLambdaR r phi beamAngle reading maxRange = some (1 / 2)
      ∨ inverseSensorModelTests fl halfLambdaR r phi beamAngle reading maxRange
          = some (9 / 10)
      ∨ inverseSensorModelTests fl halfLambdaR r phi beamAngle reading maxRange
          = some (1 / 10) := by
  unfold inverseSensorModelTests
  by_cases h1 : |fl (phi - beamAngle)| > 1 / 2 ∨ r > min maxRange reading
  · exact Or.inl (if_pos h1)
  · by_cases h2 : reading < maxRange ∧ |fl (r - reading)| < halfLambdaR
    · exact Or.inr (Or.inl (by rw [if_neg h1, if_pos h2]))
    · have h3 : r ≤ reading := by
        push_neg at h1
        exact le_trans h1.2 (min_le_right _ _)
      exact Or.inr (Or.inr (by rw [if_neg h1, if_neg h2, if_pos h3]))

theorem inverseSensorModelTests_isSome {F : Type} [LinearOrderedField F] (fl : F → F)
    (halfLambdaR r phi beamAngle reading maxRange : F) :
    ∃ v, inverseSensorModelTests fl halfLambdaR r phi beamAngle reading maxRange = some v := by
  rcases inverseSensorModelTests_cases fl halfLambdaR r phi beamAngle reading maxRange
    with h | h | h
  · exact ⟨_, h⟩
  · exact ⟨_, h⟩
  · exact ⟨_, h⟩

/-- The three tests in exact arithmetic, written out. -/
theorem inverseSensorModelBranches_eq {F : Type} [LinearOrderedField F]
    (r phi beamAngle reading maxRange : F) :
    inverseSensorModelBranches r phi beamAngle reading maxRange
      = if |phi - beamAngle| > 1 / 2 ∨ r > min maxRange reading then some (1 / 2)
        else if reading < maxRange ∧ |r - reading| < 1 / 20 then some (9 / 10)
        else if r ≤ reading then some (1 / 10)
        else none := rfl

theorem inverseSensorModelBranches_isSome {F : Type} [LinearOrderedField F]
    (r phi beamAngle reading maxRange : F) :
    ∃ v, inverseSensorModelBranches r phi beamAngle reading maxRange = some v :=
  inverseSensorModelTests_isSome _ _ _ _ _ _ _

theorem inverseSensorModel_isSome (rb : Robot) (xCell yCell xRobot yRobot : Int)
    (robotAngle : ℚ) :
    ∃ v, rb.inverseSensorModel xCell yCell xRobot yRobot robotAngle = some v :=
  inverseSensorModelTests_isSome _ _ _ _ _ _ _

/-- The quotient `39 / 20` rounded to `double`, then to `float`: the `float` nearest to
`1.95`, which lies above `1.95`. -/
theorem roundFloat_roundDouble_thirty_nine_twentieths :
    roundFloat (roundDouble (39 / 20)) = 8178893 / 4194304 := by
  have h1 : roundDouble (39 / 20) = 8782019273372467 / 4503599627370496 := by
    unfold roundDouble
    rw [roundBinary_eq 53 (-1074) _ 0 8782019273372467
      (by norm_num [abs_of_pos]) (by norm_num [abs_of_pos]) (by norm_num)
      (by norm_num [abs_lt])]
    norm_num
  rw [h1]
  unfold roundFloat
  rw [roundBinary_eq 24 (-149) _ 0 16357786
    (by norm_num [abs_of_pos]) (by norm_num [abs_of_pos]) (by norm_num)
    (by norm_num [abs_lt])]
  norm_num

/-- The difference `1.95f - 2` is a `float`. -/
theorem roundFloat_thirty_nine_twentieths_sub_two :
    roundFloat (8178893 / 4194304 - 2) = -(209715 / 4194304) := by
  unfold roundFloat
  rw [roundBinary_eq 24 (-149) _ (-5) (-13421760)
    (by norm_num [abs_of_neg]) (by norm_num [abs_of_neg]) (by norm_num)
    (by norm_num [abs_lt])]
  norm_num

theorem halfDecimetreRobot_metricRangeFrom :
    halfDecimetreRobot.metricRangeFrom 39 0 0 0 = 39 / 20 := by
  simp [Robot.metricRangeFrom, halfDecimetreRobot, axisOps, axisSqrt]

theorem halfDecimetreRobot_rangeFrom :
    halfDecimetreRobot.rangeFrom 39 0 0 0 = 8178893 / 4194304 := by
  have h : halfDecimetreRobot.rangeFrom 39 0 0 0 = roundFloat (roundDouble (39 / 20)) := by
    simp [Robot.rangeFrom, halfDecimetreRobot, axisOps, axisSqrt]
  rw [h, roundFloat_roundDouble_thirty_nine_twentieths]

theorem halfDecimetreRobot_bearingFrom : halfDecimetreRobot.bearingFrom 39 0 0 0 0 = 0 := by
  simp [Robot.bearingFrom, halfDecimetreRobot, axisOps, sceneAtan2Deg]

/-- C11, as stated, fails for a cell whose metric distance is a decimal fraction. At map scale
20, with a reading of 2 m and a maximum range of 3 m, the cell `(39,0)` straight ahead of a
robot at the origin lies at the metric distance 1.95: `|1.95 - 2| = 0.05` is not below
`0.05` and the cell lies before the surface, so the model as stated returns 0.1. The method
computes the distance in `float`, `1.95f - 2` has magnitude below `0.1f / 2`, and the value
returned is 0.9. -/
theorem inverseSensorModel_on_metric_range_fails :
    halfDecimetreRobot.metricRangeFrom 39 0 0 0 = 39 / 20
      ∧ halfDecimetreRobot.base.getKthLaserReading
          (halfDecimetreRobot.base.getNearestLaserBeam
            (halfDecimetreRobot.bearingFrom 39 0 0 0 0)) = 2
      ∧ halfDecimetreRobot.inverseSensorModelStated 39 0 0 0 0 = some (1 / 10)
      ∧ halfDecimetreRobot.inverseSensorModel 39 0 0 0 0 = some (9 / 10) := by
  have hz : halfDecimetreRobot.base.getKthLaserReading
      (halfDecimetreRobot.base.getNearestLaserBeam
        (halfDecimetreRobot.bearingFrom 39 0 0 0 0)) = 2 := rfl
  have hang : halfDecimetreRobot.base.getAngleOfLaserBeam
      (halfDecimetreRobot.base.getNearestLaserBeam
        (halfDecimetreRobot.bearingFrom 39 0 0 0 0)) = 0 := rfl
  have hmax : halfDecimetreRobot.base.getMaxLaserRange = 3 := rfl
  refine ⟨halfDecimetreRobot_metricRangeFrom, hz, ?_, ?_⟩
  · unfold Robot.inverseSensorModelStated
    rw [inverseSensorModelBranches_eq, halfDecimetreRobot_metricRangeFrom, hz, hang, hmax,
      halfDecimetreRobot_bearingFrom]
    norm_num
    exact le_abs_self _
  · unfold Robot.inverseSensorModel inverseSensorModelTests
    simp only
    rw [halfDecimetreRobot_rangeFrom, hz, hang, hmax, halfDecimetreRobot_bearingFrom,
      roundFloat_thirty_nine_twentieths_sub_two, ismHalfLambdaR_eq]
    norm_num [roundFloat_zero, abs_lt]

/-- C11, amended (inverse sensor model values, in the arithmetic of the method). For a
non-zero map scale and every cell, pose and laser reading set, with `r = rangeFrom` the metric distance rounded to
`double` and then to `float`, `phi` the bearing of the cell, `k` the nearest beam, `z` its
reading and `fl` the rounding to `float`: `inverseSensorModel` returns 0.5 when
`|fl(phi - beamAngle(k))| > 0.5` or `r > min(maxLaserRange, z)`; otherwise 0.9 when
`z < maxLaserRange` and `|fl(r - z)|` is below `0.1f / 2`, the `float`
`13421773 / 268435456` just above `0.05`; otherwise 0.1, the cell then lying before the
surface (`r <= z`). -/
theorem inverseSensorModel_values (rb : Robot) (xCell yCell xRobot yRobot : Int)
    (robotAngle : ℚ) (_hscale : rb.scale ≠ 0) :
    rb.rangeFrom xCell yCell xRobot yRobot
        = roundFloat (roundDouble (rb.metricRangeFrom xCell yCell xRobot yRobot))
      ∧ ismHalfLambdaR = 13421773 / 268435456
      ∧ ((|roundFloat (rb.bearingFrom xCell yCell xRobot yRobot robotAngle
              - rb.base.getAngleOfLaserBeam (rb.base.getNearestLaserBeam
                  (rb.bearingFrom xCell yCell xRobot yRobot robotAngle)))| > 1 / 2
            ∨ rb.rangeFrom xCell yCell xRobot yRobot
              > min rb.base.getMaxLaserRange (rb.base.getKthLaserReading
                  (rb.base.getNearestLaserBeam
                    (rb.bearingFrom xCell yCell xRobot yRobot robotAngle)))) →
          rb.inverseSensorModel xCell yCell xRobot yRobot robotAngle = some (1 / 2))
      ∧ (¬ (|roundFloat (rb.bearingFrom xCell yCell xRobot yRobot robotAngle
                - rb.base.getAngleOfLaserBeam (rb.base.getNearestLaserBeam
                    (rb.bearingFrom xCell yCell xRobot yRobot robotAngle)))| > 1 / 2
            ∨ rb.rangeFrom xCell yCell xRobot yRobot
              > min rb.base.getMaxLaserRange (rb.base.getKthLaserReading
                  (rb.base.getNearestLaserBeam
                    (rb.bearingFrom xCell yCell xRobot yRobot robotAngle)))) →
          ((rb.base.getKthLaserReading (rb.base.getNearestLaserBeam
                  (rb.bearingFrom xCell yCell xRobot yRobot robotAngle))
                < rb.base.getMaxLaserRange
              ∧ |roundFloat (rb.rangeFrom xCell yCell xRobot yRobot
                  - rb.base.getKthLaserReading (rb.base.getNearestLaserBeam
                      (rb.bearingFrom xCell yCell xRobot yRobot robotAngle)))|
                < ismHalfLambdaR) →
            rb.inverseSensorModel xCell yCell xRobot yRobot robotAngle = some (9 / 10))
          ∧ (¬ (rb.base.getKthLaserReading (rb.base.getNearestLaserBeam
                    (rb.bearingFrom xCell yCell xRobot yRobot robotAngle))
                  < rb.base.getMaxLaserRange
                ∧ |roundFloat (rb.rangeFrom xCell yCell xRobot yRobot
                    - rb.base.getKthLaserReading (rb.base.getNearestLaserBeam
                        (rb.bearingFrom xCell yCell xRobot yRobot robotAngle)))|
                  < ismHalfLambdaR) →
              rb.rangeFrom xCell yCell xRobot yRobot
                  ≤ rb.base.getKthLaserReading (rb.base.getNearestLaserBeam
                      (rb.bearingFrom xCell yCell xRobot yRobot robotAngle))
                ∧ rb.inverseSensorModel xCell yCell xRobot yRobot robotAngle
                    = some (1 / 10))) := by
  unfold Robot.inverseSensorModel inverseSensorModelTests
  simp only
  refine ⟨rfl, ismHalfLambdaR_eq, fun h1 => by rw [if_pos h1],
    fun h1 => ⟨fun h2 => by rw [if_neg h1, if_pos h2], fun h2 => ?_⟩⟩
  have h3 : rb.rangeFrom xCell yCell xRobot yRobot
      ≤ rb.base.getKthLaserReading (rb.base.getNearestLaserBeam
          (rb.bearingFrom xCell yCell xRobot yRobot robotAngle)) := by
    push_neg at h1
    exact le_trans h1.2 (min_le_right _ _)
  exact ⟨h3, by rw [if_neg h1, if_neg h2, if_pos h3]⟩

theorem inverseSensorModel_values_witness :
    (halfDecimetreRobot.scale ≠ 0
        ∧ ¬ (|roundFloat (halfDecimetreRobot.bearingFrom 39 0 0 0 0
                - halfDecimetreRobot.base.getAngleOfLaserBeam
                    (halfDecimetreRobot.base.getNearestLaserBeam
                      (halfDecimetreRobot.bearingFrom 39 0 0 0 0)))| > 1 / 2
            ∨ halfDecimetreRobot.rangeFrom 39 0 0 0
              > min halfDecimetreRobot.base.getMaxLaserRange
                  (halfDecimetreRobot.base.getKthLaserReading
                    (halfDecimetreRobot.base.getNearestLaserBeam
                      (halfDecimetreRobot.bearingFrom 39 0 0 0 0))))
        ∧ (halfDecimetreRobot.base.getKthLaserReading
                (halfDecimetreRobot.base.getNearestLaserBeam
                  (halfDecimetreRobot.bearingFrom 39 0 0 0 0))
              < halfDecimetreRobot.base.getMaxLaserRange
            ∧ |roundFloat (halfDecimetreRobot.rangeFrom 39 0 0 0
                - halfDecimetreRobot.base.getKthLaserReading
                    (halfDecimetreRobot.base.getNearestLaserBeam
                      (halfDecimetreRobot.bearingFrom 39 0 0 0 0)))| < ismHalfLambdaR))
      ∧ halfDecimetreRobot.inverseSensorModel 39 0 0 0 0 = some (9 / 10) := by
  have hz : halfDecimetreRobot.base.getKthLaserReading
      (halfDecimetreRobot.base.getNearestLaserBeam
        (halfDecimetreRobot.bearingFrom 39 0 0 0 0)) = 2 := rfl
  have hang : halfDecimetreRobot.base.getAngleOfLaserBeam
      (halfDecimetreRobot.base.getNearestLaserBeam
        (halfDecimetreRobot.bearingFrom 39 0 0 0 0)) = 0 := rfl
  have hmax : halfDecimetreRobot.base.getMaxLaserRange = 3 := rfl
  have h1 : ¬ (|roundFloat (halfDecimetreRobot.bearingFrom 39 0 0 0 0
        - halfDecimetreRobot.base.getAngleOfLaserBeam
            (halfDecimetreRobot.base.getNearestLaserBeam
              (halfDecimetreRobot.bearingFrom 39 0 0 0 0)))| > 1 / 2
      ∨ halfDecimetreRobot.rangeFrom 39 0 0 0
        > min halfDecimetreRobot.base.getMaxLaserRange
            (halfDecimetreRobot.base.getKthLaserReading
              (halfDecimetreRobot.base.getNearestLaserBeam
                (halfDecimetreRobot.bearingFrom 39 0 0 0 0)))) := by
    rw [hz, hang, hmax, halfDecimetreRobot_bearingFrom, halfDecimetreRobot_rangeFrom]
    norm_num [roundFloat_zero]
  have h2 : halfDecimetreRobot.base.getKthLaserReading
        (halfDecimetreRobot.base.getNearestLaserBeam
          (halfDecimetreRobot.bearingFrom 39 0 0 0 0))
        < halfDecimetreRobot.base.getMaxLaserRange
      ∧ |roundFloat (halfDecimetreRobot.rangeFrom 39 0 0 0
          - halfDecimetreRobot.base.getKthLaserReading
              (halfDecimetreRobot.base.getNearestLaserBeam
                (halfDecimetreRobot.bearingFrom 39 0 0 0 0)))| < ismHalfLambdaR := by
    rw [hz, hmax, halfDecimetreRobot_rangeFrom, roundFloat_thirty_nine_twentieths_sub_two,
      ismHalfLambdaR_eq]
    norm_num [abs_lt]
  exact ⟨⟨by decide, h1, h2⟩,
    ((inverseSensorModel_values halfDecimetreRobot 39 0 0 0 0 (by decide)).2.2.2 h1).1 h2⟩

/-- C17, as stated, fails: over the reals, and for the rational values of the embedding with
every cell, pose and reading set, no input makes all three tests of `inverseSensorModel`
fail. -/
theorem inverseSensorModel_no_fall_through :
    (¬ ∃ r phi beamAngle reading maxRange : ℝ,
        inverseSensorModelBranches r phi beamAngle reading maxRange = none)
      ∧ ¬ ∃ (rb : Robot) (xCell yCell xRobot yRobot : Int) (robotAngle : ℚ),
          rb.inverseSensorModel xCell yCell xRobot yRobot robotAngle = none := by
  constructor
  · rintro ⟨r, phi, beamAngle, reading, maxRange, h⟩
    obtain ⟨v, hv⟩ := inverseSensorModelBranches_isSome r phi beamAngle reading maxRange
    rw [hv] at h
    exact Option.noConfusion h
  · rintro ⟨rb, xCell, yCell, xRobot, yRobot, robotAngle, h⟩
    obtain ⟨v, hv⟩ := inverseSensorModel_isSome rb xCell yCell xRobot yRobot robotAngle
    rw [hv] at h
    exact Option.noConfusion h

/-- C17, amended. For every cell, pose and laser reading, over real-valued ranges and angles,
at least one of the three conditions of `inverseSensorModel` holds: when the first fails,
`r <= min(maxRange, reading) <= reading`, which is the third. Control therefore never reaches
the end of the function, and the value returned is 0.5, 0.9 or 0.1. -/
theorem inverseSensorModel_returns :
    (∀ r phi beamAngle reading maxRange : ℝ,
        (|phi - beamAngle| > 1 / 2 ∨ r > min maxRange reading)
            ∨ (reading < maxRange ∧ |r - reading| < 1 / 20) ∨ r ≤ reading)
      ∧ (∀ r phi beamAngle reading maxRange : ℝ,
          inverseSensorModelBranches r phi beamAngle reading maxRange = some (1 / 2)
            ∨ inverseSensorModelBranches r phi beamAngle reading maxRange = some (9 / 10)
            ∨ inverseSensorModelBranches r phi beamAngle reading maxRange = some (1 / 10))
      ∧ ∀ (rb : Robot) (xCell yCell xRobot yRobot : Int) (robotAngle : ℚ),
          rb.inverseSensorModel xCell yCell xRobot yRobot robotAngle = some (1 / 2)
            ∨ rb.inverseSensorModel xCell yCell xRobot yRobot robotAngle = some (9 / 10)
            ∨ rb.inverseSensorModel xCell yCell xRobot yRobot robotAngle = some (1 / 10) := by
  refine ⟨fun r phi beamAngle reading maxRange => ?_,
    fun r phi beamAngle reading maxRange => inverseSensorModelTests_cases _ _ _ _ _ _ _,
    fun rb xCell yCell xRobot yRobot robotAngle => inverseSensorModelTests_cases _ _ _ _ _ _ _⟩
  by_cases h1 : |phi - beamAngle| > 1 / 2 ∨ r > min maxRange reading
  · exact Or.inl h1
  · push_neg at h1
    exact Or.inr (Or.inr (le_trans h1.2 (min_le_right _ _)))

/-! ## Log-odds conversions over the reals -/

/-- C12 (log-odds consistency). Over the reals, `getOccupancyFromLogOdds(l) = 1 - 1/(1 +
exp(l))` is strictly increasing in `l`, lies strictly between 0 and 1 for every `l`, and
equals 0.5 at `l = 0`. -/
theorem getOccupancyFromLogOdds_consistent :
    StrictMono (getOccupancyFromLogOdds Real.exp)
      ∧ (∀ l : ℝ, 0 < getOccupancyFromLogOdds Real.exp l
          ∧ getOccupancyFromLogOdds Real.exp l < 1)
      ∧ getOccupancyFromLogOdds Real.exp 0 = 1 / 2 := by
  refine ⟨fun a b hab => ?_, fun l => ?_, ?_⟩
  · unfold getOccupancyFromLogOdds
    have ha : 0 < 1 + Real.exp a := by positivity
    have hlt : 1 + Real.exp a < 1 + Real.exp b := by
      have := Real.exp_lt_exp.2 hab
      linarith
    have := one_div_lt_one_div_of_lt ha hlt
    linarith
  · unfold getOccupancyFromLogOdds
    have he : 0 < Real.exp l := Real.exp_pos l
    have h1 : 0 < 1 / (1 + Real.exp l) := by positivity
    have h2 : 1 / (1 + Real.exp l) < 1 := by
      rw [div_lt_one (by positivity)]
      linarith
    exact ⟨by linarith, by linarith⟩
  · unfold getOccupancyFromLogOdds
    rw [Real.exp_zero]
    norm_num

/-- Values of the inverse sensor model in the small scene: at the surface, before it, and
off the beam. -/
theorem inverseSensorModel_scene :
    sceneRobot.inverseSensorModel 2 0 0 0 0 = some (9 / 10)
      ∧ sceneRobot.inverseSensorModel 1 0 0 0 0 = some (1 / 10)
      ∧ sceneRobot.inverseSensorModel 2 1 0 0 0 = some (1 / 2) := by
  have h5 : roundFloat (roundDouble (224 / 100)) = 9395241 / 4194304 := by
    have h1 : roundDouble (224 / 100) = 1261007895663739 / 562949953421312 := by
      unfold roundDouble
      rw [roundBinary_eq 53 (-1074) _ 1 5044031582654956
        (by norm_num [abs_of_pos]) (by norm_num [abs_of_pos]) (by norm_num)
        (by norm_num [abs_lt])]
      norm_num
    rw [h1]
    unfold roundFloat
    rw [roundBinary_eq 24 (-149) _ 1 9395241
      (by norm_num [abs_of_pos]) (by norm_num [abs_of_pos]) (by norm_num)
      (by norm_num [abs_lt])]
    norm_num
  refine ⟨?_, ?_, ?_⟩ <;>
    simp [Robot.inverseSensorModel, inverseSensorModelTests, Robot.rangeFrom,
      Robot.bearingFrom, sceneRobot, sceneOps, sceneBase, sceneSqrt, sceneAtan2Deg,
      roundFloat_zero, roundFloat_one, roundFloat_two, roundDouble_one, roundDouble_two,
      roundFloat_neg_one, ismHalfLambdaR_eq, h5] <;>
    norm_num [roundFloat_zero, roundFloat_neg_one]

/-! ## Log-odds laser mapping -/

theorem forRangeM_some {σ : Type} (body : Int → σ → Option σ) (f : Int → σ → σ)
    (h : ∀ i s, body i s = some (f i s)) (lo hi : Int) (s : σ) :
    forRangeM lo hi body s = some (forRange lo hi f s) := by
  unfold forRangeM forRange
  generalize intRange lo hi = l
  induction l generalizing s with
  | nil => rfl
  | cons a l ih =>
    rw [List.foldlM_cons, h a s, List.foldl_cons]
    exact ih (f a s)

theorem forCellsM_some {σ : Type} (body : Int → Int → σ → Option σ) (f : Int → Int → σ → σ)
    (h : ∀ x y s, body x y s = some (f x y s)) (x0 x1 y0 y1 : Int) (s : σ) :
    forCellsM x0 x1 y0 y1 body s = some (forCells x0 x1 y0 y1 f s) := by
  unfold forCellsM forCells
  exact forRangeM_some _ _ (fun x t => forRangeM_some _ _ (fun y u => h x y u) y0 y1 t) x0 x1 s

theorem logOddsBody_eq (rb : Robot) (lo : LogOps) (x y : Int) (g : Grid) :
    rb.logOddsBody lo x y g = some (rb.logOddsStep lo x y g) := by
  unfold Robot.logOddsBody Robot.logOddsStep Robot.logOddsCell
  obtain ⟨v, hv⟩ := inverseSensorModel_isSome rb x y rb.robotX rb.robotY rb.currentPose.theta
  by_cases hd : rb.cellDistance x y < (rb.laserRangeInt : ℚ)
  · simp only [hd, if_true, hv, Option.getD_some]
  · simp only [hd, if_false]

/-- The log-odds pass always produces a grid, and acts cell by cell: inside the scanned
square it applies `logOddsCell`, and it leaves every other cell alone. -/
theorem mappingWithLogOddsUsingLaser_apply (rb : Robot) (lo : LogOps) (g : Grid) :
    ∃ g2 : Grid, rb.mappingWithLogOddsUsingLaser lo g = some g2
      ∧ ∀ i j, g2 i j
          = if rb.inLaserSquare i j then rb.logOddsCell lo i j (g i j) else g i j := by
  refine ⟨_, forCellsM_some _ _ (logOddsBody_eq rb lo) _ _ _ _ g, fun i j => ?_⟩
  have h := (forCells_pointwise (rb.robotX - rb.laserRangeInt) (rb.robotX + rb.laserRangeInt)
    (rb.robotY - rb.laserRangeInt) (rb.robotY + rb.laserRangeInt) (rb.logOddsStep lo)
    (rb.logOddsCell lo) (fun _ => True) (fun _ _ _ _ _ => trivial)
    (fun x y _ s _ => by
      unfold Robot.logOddsStep Grid.getCell
      by_cases hd : rb.cellDistance x y < (rb.laserRangeInt : ℚ)
      · simp only [hd, if_true, setCell_same]
      · unfold Robot.logOddsCell
        simp only [hd, if_false])
    (fun x y _ s _ i j hij => by
      unfold Robot.logOddsStep
      by_cases hd : rb.cellDistance x y < (rb.laserRangeInt : ℚ)
      · simp only [hd, if_true, setCell_other _ _ _ _ _ _ hij]
      · simp only [hd, if_false])
    g trivial).2 i j
  exact h

/-- C18 (no-information observations are neutral). When `log 1 = 0`, the log-odds pass
returns a grid in which every cell of the scan disc for which `inverseSensorModel` returns
0.5 (as it does when the cell is outside the beam's angular window or beyond
`min(maxLaserRange, reading(k))`) has the `logodds` it had before, the increment
`log(0.5/(1-0.5))` being 0; and every cell outside the scan disc is exactly as it was. -/
theorem logodds_neutral_observation (rb : Robot) (lo : LogOps) (g : Grid)
    (hlog : lo.log 1 = 0) :
    getLogOddsFromOccupancy lo.log (1 / 2) = 0
      ∧ ∃ g2 : Grid, rb.mappingWithLogOddsUsingLaser lo g = some g2
        ∧ (∀ x y, rb.inLaserDisc x y →
            rb.inverseSensorModel x y rb.robotX rb.robotY rb.currentPose.theta = some (1 / 2) →
            (g2 x y).logodds = (g x y).logodds)
        ∧ (∀ x y, rb.inLaserDisc x y →
            (|roundFloat (rb.cellBearing x y
                  - rb.base.getAngleOfLaserBeam (rb.laserBeam x y))| > 1 / 2
              ∨ rb.cellRange x y > min rb.base.getMaxLaserRange (rb.laserReading x y)) →
            (g2 x y).logodds = (g x y).logodds)
        ∧ (∀ x y, ¬ rb.inLaserDisc x y → g2 x y = g x y) := by
  have hinc : getLogOddsFromOccupancy lo.log (1 / 2) = 0 := by
    unfold getLogOddsFromOccupancy
    have h1 : (1 / 2 : ℚ) / (1 - 1 / 2) = 1 := by norm_num
    rw [h1, hlog]
  obtain ⟨g2, hg2, hval⟩ := mappingWithLogOddsUsingLaser_apply rb lo g
  have hhalf : ∀ x y, rb.inLaserDisc x y →
      rb.inverseSensorModel x y rb.robotX rb.robotY rb.currentPose.theta = some (1 / 2) →
      (g2 x y).logodds = (g x y).logodds := by
    intro x y hd h05
    rw [hval x y, if_pos hd.1]
    unfold Robot.logOddsCell
    rw [if_pos hd.2, h05, Option.getD_some]
    show (g x y).logodds + getLogOddsFromOccupancy lo.log (1 / 2) = _
    rw [hinc, add_zero]
  refine ⟨hinc, g2, hg2, hhalf, fun x y hd hskip => hhalf x y hd ?_, fun x y hd => ?_⟩
  · unfold Robot.inverseSensorModel inverseSensorModelTests
    exact if_pos hskip
  · rw [hval x y]
    by_cases hsq : rb.inLaserSquare x y
    · rw [if_pos hsq]
      unfold Robot.logOddsCell
      rw [if_neg (fun hlt => hd ⟨hsq, hlt⟩)]
    · rw [if_neg hsq]

theorem sceneRobot_inLaserDisc : sceneRobot.inLaserDisc 2 1 := by
  simp [Robot.inLaserDisc, Robot.inLaserSquare, Robot.cellDistance, sceneRobot_robotX,
    sceneRobot_robotY, sceneRobot_laserRangeInt]
  simp [sceneRobot, sceneOps, sceneSqrt]
  norm_num

theorem sceneRobot_neutral :
    sceneRobot.inverseSensorModel 2 1 sceneRobot.robotX sceneRobot.robotY
      sceneRobot.currentPose.theta = some (1 / 2) := by
  rw [sceneRobot_robotX, sceneRobot_robotY]
  exact inverseSensorModel_scene.2.2

theorem logodds_neutral_observation_witness :
    (sceneLogOps.log 1 = 0 ∧ sceneRobot.inLaserDisc 2 1
        ∧ sceneRobot.inverseSensorModel 2 1 sceneRobot.robotX sceneRobot.robotY
            sceneRobot.currentPose.theta = some (1 / 2))
      ∧ ∃ g2 : Grid, sceneRobot.mappingWithLogOddsUsingLaser sceneLogOps Grid.fresh = some g2
          ∧ (g2 2 1).logodds = (Grid.fresh 2 1).logodds :=
  ⟨⟨by norm_num [sceneLogOps], sceneRobot_inLaserDisc, sceneRobot_neutral⟩,
    (logodds_neutral_observation sceneRobot sceneLogOps Grid.fresh
      (by norm_num [sceneLogOps])).2.elim
      (fun g2 h => ⟨g2, h.1, h.2.1 2 1 sceneRobot_inLaserDisc sceneRobot_neutral⟩)⟩

/-! ## Sonar updates: range and direction -/

theorem cornerRobot_robotX : cornerRobot.robotX = 0 := by
  unfold Robot.robotX
  rw [timesScale_one _ rfl]
  simp [cornerRobot, roundFloat_zero, truncToInt_zero]

theorem cornerRobot_robotY : cornerRobot.robotY = 0 := by
  unfold Robot.robotY
  rw [timesScale_one _ rfl]
  simp [cornerRobot, roundFloat_zero, truncToInt_zero]

theorem cornerRobot_sonarRangeInt : cornerRobot.sonarRangeInt = 3 := by
  unfold Robot.sonarRangeInt
  rw [timesScale_one _ rfl]
  simp [cornerRobot, cornerBase, sceneBase, roundFloat_three, truncToInt_three]

/-- The range of the corner cell: `3.162` rounded to `double`, then to `float`. -/
theorem cornerRobot_cellRange : cornerRobot.cellRange 3 1 = 13262389 / 4194304 := by
  have h : cornerRobot.cellRange 3 1 = roundFloat (roundDouble (3162 / 1000)) := by
    simp [Robot.cellRange, cornerRobot_robotX, cornerRobot_robotY]
    simp [cornerRobot, cornerOps]
  have h1 : roundDouble (3162 / 1000) = 3560095505436377 / 1125899906842624 := by
    unfold roundDouble
    rw [roundBinary_eq 53 (-1074) _ 1 7120191010872754
      (by norm_num [abs_of_pos]) (by norm_num [abs_of_pos]) (by norm_num)
      (by norm_num [abs_lt])]
    norm_num
  rw [h, h1]
  unfold roundFloat
  rw [roundBinary_eq 24 (-149) _ 1 13262389
    (by norm_num [abs_of_pos]) (by norm_num [abs_of_pos]) (by norm_num)
    (by norm_num [abs_lt])]
  norm_num

theorem cornerRobot_cellBearing : cornerRobot.cellBearing 3 1 = 1843 / 100 := by
  simp [Robot.cellBearing, cornerRobot_robotX, cornerRobot_robotY]
  simp [cornerRobot, cornerOps]

theorem cornerRobot_sonarBeam : cornerRobot.sonarBeam 3 1 = 3 := by
  unfold Robot.sonarBeam
  rw [cornerRobot_cellBearing]
  simp [cornerRobot, cornerBase]
  norm_num

/-- The angle between the corner cell and its beam: `18.43 - 10` rounded to `float`. -/
theorem cornerRobot_sonarAlpha : cornerRobot.sonarAlpha 3 1 = 1104937 / 131072 := by
  have h : cornerRobot.sonarAlpha 3 1 = |roundFloat (843 / 100)| := by
    unfold Robot.sonarAlpha
    rw [cornerRobot_sonarBeam, cornerRobot_cellBearing]
    simp [cornerRobot, cornerBase]
    norm_num
  rw [h]
  unfold roundFloat
  rw [roundBinary_eq 24 (-149) _ 3 8839496
    (by norm_num [abs_of_pos]) (by norm_num [abs_of_pos]) (by norm_num)
    (by norm_num [abs_lt])]
  norm_num [abs_of_pos]

theorem cornerRobot_sonarReading : cornerRobot.sonarReading 3 1 = 295 / 100 := by
  unfold Robot.sonarReading
  rw [cornerRobot_sonarBeam]
  simp [cornerRobot, cornerBase]

theorem cornerRobot_maxSonarRange : cornerRobot.base.getMaxSonarRange = 3 := rfl

/-- C19, evaluated on the corner scene: the cell `(3,1)` lies at range 3.162, beyond the
maximum sonar range 3, inside the scanned square and within 0.25 of the reading 2.95 of its
beam; the sonar pass raises its `occupancySonar` from 0.5 to 0.596 (to
`149988311 / 251658240`, the range and the angle to the beam being `float` values). -/
theorem sonar_update_beyond_range :
    cornerRobot.cellRange 3 1 > cornerRobot.base.getMaxSonarRange
      ∧ (Grid.fresh 3 1).occupancySonar = 1 / 2
      ∧ (cornerRobot.mappingUsingSonar Grid.fresh 3 1).occupancySonar
          = 149988311 / 251658240 := by
  have hsq : cornerRobot.inSonarSquare 3 1 := by
    simp [Robot.inSonarSquare, cornerRobot_robotX, cornerRobot_robotY,
      cornerRobot_sonarRangeInt]
  have hon : ¬ cornerRobot.sonarOffBeam 3 1 := by
    unfold Robot.sonarOffBeam
    rw [cornerRobot_sonarAlpha]
    norm_num
  have hdiff : roundFloat (13262389 / 4194304 - 295 / 100) = 14227075 / 67108864 := by
    unfold roundFloat
    rw [roundBinary_eq 24 (-149) _ (-3) 14227075
      (by norm_num [abs_of_pos]) (by norm_num [abs_of_pos]) (by norm_num)
      (by norm_num [abs_lt])]
    norm_num
  have hr1 : cornerRobot.sonarRegion1 3 1 := by
    unfold Robot.sonarRegion1
    rw [cornerRobot_sonarReading, cornerRobot_cellRange, cornerRobot_maxSonarRange, hdiff]
    norm_num [abs_lt]
  have hmain : cornerRobot.occUpdateMainTerm 3 1 = 24159191 / 125829120 := by
    unfold Robot.occUpdateMainTerm
    rw [cornerRobot_sonarAlpha, cornerRobot_cellRange, cornerRobot_maxSonarRange]
    norm_num
  refine ⟨?_, rfl, ?_⟩
  · rw [cornerRobot_cellRange, cornerRobot_maxSonarRange]
    norm_num
  · rw [mappingUsingSonar_apply, if_pos hsq]
    unfold Robot.sonarCell
    rw [if_neg hon, if_pos hr1, hmain]
    show sonarClamp (sonarFuse _ (1 / 2)) = _
    unfold sonarClamp sonarFuse sonarDenominator
    norm_num

theorem sonarFuse_ge (u p : ℚ) (hu0 : 1 / 2 ≤ u) (hu1 : u ≤ 1) (hp0 : 1 / 100 ≤ p)
    (hp1 : p ≤ 99 / 100) : p ≤ sonarFuse u p := by
  have hden := sonarDenominator_pos u p (by linarith) hu1 hp0 hp1
  unfold sonarFuse
  rw [le_div_iff₀ (by linarith)]
  unfold sonarDenominator
  nlinarith [mul_nonneg (mul_nonneg (sub_nonneg.2 hu0) (by linarith : (0 : ℚ) ≤ p))
    (by linarith : (0 : ℚ) ≤ 1 - p)]

theorem sonarFuse_le (u p : ℚ) (hu0 : 0 ≤ u) (hu1 : u ≤ 1 / 2) (hp0 : 1 / 100 ≤ p)
    (hp1 : p ≤ 99 / 100) : sonarFuse u p ≤ p := by
  have hden := sonarDenominator_pos u p hu0 (by linarith) hp0 hp1
  unfold sonarFuse
  rw [div_le_iff₀ (by linarith)]
  unfold sonarDenominator
  nlinarith [mul_nonneg (mul_nonneg (sub_nonneg.2 hu1) (by linarith : (0 : ℚ) ≤ p))
    (by linarith : (0 : ℚ) ≤ 1 - p)]

theorem le_sonarClamp (p v : ℚ) (hp1 : p ≤ 99 / 100) (hv : p ≤ v) : p ≤ sonarClamp v := by
  unfold sonarClamp
  simp only
  split_ifs <;> linarith

theorem sonarClamp_le (p v : ℚ) (hp0 : 1 / 100 ≤ p) (hv : v ≤ p) : sonarClamp v ≤ p := by
  unfold sonarClamp
  simp only
  split_ifs <;> linarith

/-- For a cell on the beam at range in `[0, R]`, the main term lies in `[0,1]`. -/
theorem occUpdateMainTerm_unit (rb : Robot) (x y : Int)
    (hR : 0 < rb.base.getMaxSonarRange)
    (hr : 0 ≤ rb.cellRange x y ∧ rb.cellRange x y ≤ rb.base.getMaxSonarRange)
    (ha : rb.sonarAlpha x y ≤ 15) :
    0 ≤ rb.occUpdateMainTerm x y ∧ rb.occUpdateMainTerm x y ≤ 1 := by
  have ha0 : 0 ≤ rb.sonarAlpha x y := abs_nonneg _
  have h1 : 0 ≤ (rb.base.getMaxSonarRange - rb.cellRange x y) / rb.base.getMaxSonarRange :=
    div_nonneg (by linarith) (le_of_lt hR)
  have h2 : (rb.base.getMaxSonarRange - rb.cellRange x y) / rb.base.getMaxSonarRange ≤ 1 := by
    rw [div_le_iff₀ hR]
    linarith
  have h3 : 0 ≤ (15 - rb.sonarAlpha x y) / 15 := by
    apply div_nonneg <;> linarith
  have h4 : (15 - rb.sonarAlpha x y) / 15 ≤ 1 := by
    rw [div_le_iff₀ (by norm_num)]
    linarith
  unfold Robot.occUpdateMainTerm
  constructor <;> linarith

/-- C20 (sonar evidence moves the estimate in the right direction). For every cell with
`0 <= r <= maxSonarRange` (the range being positive), angular deviation `alpha <= 15` and
`occupancySonar` in `[0.01, 0.99]`: the main term lies in `[0,1]`; the at-surface update
`0.5*mainTerm + 0.5`, fused and clamped, does not decrease `occupancySonar`, and the
before-surface update `0.5*(1 - mainTerm)`, fused and clamped, does not increase it; so a
`mappingUsingSonar` pass does not decrease the cell's `occupancySonar` when the cell is at the
surface (region 1) and does not increase it otherwise. -/
theorem sonar_update_direction (rb : Robot) (g : Grid) (x y : Int)
    (hR : 0 < rb.base.getMaxSonarRange)
    (hr : 0 ≤ rb.cellRange x y ∧ rb.cellRange x y ≤ rb.base.getMaxSonarRange)
    (ha : rb.sonarAlpha x y ≤ 15)
    (hp : 1 / 100 ≤ (g x y).occupancySonar ∧ (g x y).occupancySonar ≤ 99 / 100) :
    (0 ≤ rb.occUpdateMainTerm x y ∧ rb.occUpdateMainTerm x y ≤ 1)
      ∧ (g x y).occupancySonar
          ≤ sonarClamp (sonarFuse (1 / 2 * rb.occUpdateMainTerm x y + 1 / 2)
              (g x y).occupancySonar)
      ∧ sonarClamp (sonarFuse (1 / 2 * (1 - rb.occUpdateMainTerm x y)) (g x y).occupancySonar)
          ≤ (g x y).occupancySonar
      ∧ (rb.sonarRegion1 x y →
          (g x y).occupancySonar ≤ (rb.mappingUsingSonar g x y).occupancySonar)
      ∧ (¬ rb.sonarRegion1 x y →
          (rb.mappingUsingSonar g x y).occupancySonar ≤ (g x y).occupancySonar) := by
  obtain ⟨hm0, hm1⟩ := occUpdateMainTerm_unit rb x y hR hr ha
  have hup : (g x y).occupancySonar
      ≤ sonarClamp (sonarFuse (1 / 2 * rb.occUpdateMainTerm x y + 1 / 2)
          (g x y).occupancySonar) :=
    le_sonarClamp _ _ hp.2 (sonarFuse_ge _ _ (by linarith) (by linarith) hp.1 hp.2)
  have hdown : sonarClamp (sonarFuse (1 / 2 * (1 - rb.occUpdateMainTerm x y))
      (g x y).occupancySonar) ≤ (g x y).occupancySonar :=
    sonarClamp_le _ _ hp.1 (sonarFuse_le _ _ (by linarith) (by linarith) hp.1 hp.2)
  have hon : ¬ rb.sonarOffBeam x y := not_lt.2 ha
  refine ⟨⟨hm0, hm1⟩, hup, hdown, fun h1 => ?_, fun h1 => ?_⟩
  · rw [mappingUsingSonar_apply]
    by_cases hsq : rb.inSonarSquare x y
    · rw [if_pos hsq]
      unfold Robot.sonarCell
      rw [if_neg hon, if_pos h1]
      exact hup
    · rw [if_neg hsq]
  · rw [mappingUsingSonar_apply]
    by_cases hsq : rb.inSonarSquare x y
    · rw [if_pos hsq]
      unfold Robot.sonarCell
      rw [if_neg hon, if_neg h1]
      by_cases h2 : rb.sonarRegion2 x y
      · rw [if_pos h2]
        exact hdown
      · rw [if_neg h2]
    · rw [if_neg hsq]

theorem sceneRobot_cellRange : sceneRobot.cellRange 2 0 = 2 := by
  simp [Robot.cellRange, sceneRobot_robotX, sceneRobot_robotY]
  simp [sceneRobot, sceneOps, sceneSqrt, roundDouble_two, roundFloat_two]

theorem sceneRobot_sonarAlpha : sceneRobot.sonarAlpha 2 0 = 0 := by
  simp [Robot.sonarAlpha, Robot.sonarBeam, Robot.cellBearing, sceneRobot_robotX,
    sceneRobot_robotY]
  simp [sceneRobot, sceneOps, sceneBase, sceneAtan2Deg, roundFloat_zero]

theorem sceneRobot_sonarRegion1 : sceneRobot.sonarRegion1 2 0 := by
  unfold Robot.sonarRegion1
  rw [sceneRobot_cellRange]
  simp [Robot.sonarReading, Robot.sonarBeam, Robot.cellBearing, sceneRobot_robotX,
    sceneRobot_robotY]
  simp [sceneRobot, sceneOps, sceneBase, sceneAtan2Deg, roundFloat_zero]
  norm_num

theorem sonar_update_direction_witness :
    (0 < sceneRobot.base.getMaxSonarRange
        ∧ (0 ≤ sceneRobot.cellRange 2 0
          ∧ sceneRobot.cellRange 2 0 ≤ sceneRobot.base.getMaxSonarRange)
        ∧ sceneRobot.sonarAlpha 2 0 ≤ 15
        ∧ (1 / 100 ≤ (Grid.fresh 2 0).occupancySonar
          ∧ (Grid.fresh 2 0).occupancySonar ≤ 99 / 100)
        ∧ sceneRobot.sonarRegion1 2 0)
      ∧ (Grid.fresh 2 0).occupancySonar
          ≤ (sceneRobot.mappingUsingSonar Grid.fresh 2 0).occupancySonar :=
  ⟨⟨by norm_num [sceneRobot, sceneBase],
      by rw [sceneRobot_cellRange]; norm_num [sceneRobot, sceneBase],
      by rw [sceneRobot_sonarAlpha]; norm_num,
      by norm_num [Grid.fresh, Cell.fresh], sceneRobot_sonarRegion1⟩,
    (sonar_update_direction sceneRobot Grid.fresh 2 0 (by norm_num [sceneRobot, sceneBase])
      (by rw [sceneRobot_cellRange]; norm_num [sceneRobot, sceneBase])
      (by rw [sceneRobot_sonarAlpha]; norm_num)
      (by norm_num [Grid.fresh, Cell.fresh])).2.2.2.1 sceneRobot_sonarRegion1⟩

/-! ## Potential field -/

theorem forRange_id {σ : Type} (lo hi : Int) (s : σ) :
    forRange lo hi (fun _ t => t) s = s := by
  unfold forRange
  generalize intRange lo hi = l
  induction l with
  | nil => rfl
  | cons a l ih => rw [List.foldl_cons, ih]

/-- `Planning::run` returns the grid left by the classifier: the three potential-field
methods perform no statement. -/
theorem run_grid (pl : Planning) (g : Grid) :
    (pl.run g).2 = updateCellsTypes pl.newGridLimits (resetCellsTypes pl.gridLimits g) := by
  unfold Planning.run Planning.updateGradient Planning.initializePotentials
    Planning.iteratePotentials
  simp only [forRange_id]
  rfl

theorem resetCellsTypes_pot (lim : GridLimits) (g : Grid) (i j : Int) :
    (resetCellsTypes lim g i j).pot = (g i j).pot := by
  rw [resetCellsTypes_apply]
  split_ifs <;> rfl

theorem updateCellsTypes_pot (lim : GridLimits) (g : Grid) (i j : Int) :
    (updateCellsTypes lim g i j).pot = (g i j).pot := by
  unfold updateCellsTypes
  rw [classifyFrontiers_apply lim _ (hazards_pre lim _), classifyHazards_apply,
    classifyOccupancy_apply]
  split_ifs <;> rfl

theorem resetCellsTypes_dirX (lim : GridLimits) (g : Grid) (i j : Int) :
    (resetCellsTypes lim g i j).dirX = (g i j).dirX := by
  rw [resetCellsTypes_apply]
  split_ifs <;> rfl

theorem updateCellsTypes_dirX (lim : GridLimits) (g : Grid) (i j : Int) :
    (updateCellsTypes lim g i j).dirX = (g i j).dirX := by
  unfold updateCellsTypes
  rw [classifyFrontiers_apply lim _ (hazards_pre lim _), classifyHazards_apply,
    classifyOccupancy_apply]
  split_ifs <;> rfl

set_option maxRecDepth 100000 in
/-- After `Planning::run` the origin cell of `potentialGrid 1` is a free cell of regular
planning type: no cell is occupied. -/
theorem run_potentialGrid_one :
    ((unitPlanning.run (potentialGrid 1)).2 0 0).occType = OccType.FREE
      ∧ ((unitPlanning.run (potentialGrid 1)).2 0 0).planType = PlanType.REGULAR := by
  rw [run_grid]
  constructor
  · simp only [updateCellsTypes_occType, classifyOccupancy_apply, resetCellsTypes_apply]
    decide
  · simp only [updateCellsTypes_planType, classifyHazards_apply, classifyOccupancy_apply,
      resetCellsTypes_apply, hazardValue, frontierValue]
    decide

set_option maxRecDepth 100000 in
/-- After `Planning::run` the origin cell of `potentialGrid 0` is a free cell. -/
theorem run_potentialGrid_zero :
    ((unitPlanning.run (potentialGrid 0)).2 0 0).occType = OccType.FREE := by
  rw [run_grid]
  simp only [updateCellsTypes_occType, classifyOccupancy_apply, resetCellsTypes_apply]
  decide

theorem potentialGrid_origin_pot (leftPot : ℚ) (k : Nat) : (potentialGrid leftPot 0 0).pot k = 0 :=
  rfl

theorem potentialGrid_origin_dirX (leftPot : ℚ) (k : Nat) :
    (potentialGrid leftPot 0 0).dirX k = 0 := rfl

theorem potentialGrid_neighbour_pot (leftPot : ℚ) (k : Nat) :
    (potentialGrid leftPot (-1) 0).pot k = leftPot ∧ (potentialGrid leftPot 1 0).pot k = 1
      ∧ (potentialGrid leftPot 0 1).pot k = 1 ∧ (potentialGrid leftPot 0 (-1)).pot k = 1 := by
  refine ⟨?_, ?_, ?_, ?_⟩ <;> simp [potentialGrid]

theorem run_pot (pl : Planning) (g : Grid) (i j : Int) :
    ((pl.run g).2 i j).pot = (g i j).pot := by
  rw [run_grid, updateCellsTypes_pot, resetCellsTypes_pot]

theorem run_dirX (pl : Planning) (g : Grid) (i j : Int) :
    ((pl.run g).2 i j).dirX = (g i j).dirX := by
  rw [run_grid, updateCellsTypes_dirX, resetCellsTypes_dirX]

/-- C13, evaluated on `potentialGrid 1`: the origin is a free cell of regular planning type
inside the limits, with potential 0, whose four neighbours have potential 1 (average 1).
After one call of `iteratePotentials` its potential is still 0; after `Planning::run`, with
its 100 calls, the cell is still free and regular, its potential is still 0 and the average
of its neighbours is still 1. -/
theorem iteratePotentials_leaves_potential :
    (unitLimits.contains 0 0 ∧ (potentialGrid 1 0 0).occType = OccType.FREE
        ∧ (potentialGrid 1 0 0).planType = PlanType.REGULAR)
      ∧ ((potentialGrid 1 (-1) 0).pot 0 + (potentialGrid 1 1 0).pot 0
          + (potentialGrid 1 0 1).pot 0 + (potentialGrid 1 0 (-1)).pot 0) / 4 = 1
      ∧ (unitPlanning.iteratePotentials (potentialGrid 1) 0 0).pot 0 = 0
      ∧ (((unitPlanning.run (potentialGrid 1)).2 0 0).occType = OccType.FREE
        ∧ ((unitPlanning.run (potentialGrid 1)).2 0 0).planType = PlanType.REGULAR)
      ∧ ((unitPlanning.run (potentialGrid 1)).2 0 0).pot 0 = 0
      ∧ (((unitPlanning.run (potentialGrid 1)).2 (-1) 0).pot 0
          + ((unitPlanning.run (potentialGrid 1)).2 1 0).pot 0
          + ((unitPlanning.run (potentialGrid 1)).2 0 1).pot 0
          + ((unitPlanning.run (potentialGrid 1)).2 0 (-1)).pot 0) / 4 = 1 := by
  obtain ⟨hl, hr, hu, hd⟩ := potentialGrid_neighbour_pot 1 0
  refine ⟨⟨by decide, rfl, rfl⟩, ?_, rfl, run_potentialGrid_one, ?_, ?_⟩
  · rw [hl, hr, hu, hd]
    norm_num
  · rw [run_pot]
    rfl
  · rw [run_pot, run_pot, run_pot, run_pot, hl, hr, hu, hd]
    norm_num

/-- C14, evaluated on `potentialGrid 0`: the origin is a free cell inside the limits whose
four neighbours are inside the limits, with `right.pot - left.pot = 1` and `dirX = 0`. After
`updateGradient`, and after a whole `Planning::run`, `dirX` is still 0. -/
theorem updateGradient_leaves_direction :
    (unitLimits.contains 0 0 ∧ unitLimits.contains (-1) 0 ∧ unitLimits.contains 1 0
        ∧ unitLimits.contains 0 1 ∧ unitLimits.contains 0 (-1)
        ∧ (potentialGrid 0 0 0).occType = OccType.FREE)
      ∧ (potentialGrid 0 1 0).pot 0 - (potentialGrid 0 (-1) 0).pot 0 = 1
      ∧ (unitPlanning.updateGradient (potentialGrid 0) 0 0).dirX 0 = 0
      ∧ ((unitPlanning.run (potentialGrid 0)).2 0 0).occType = OccType.FREE
      ∧ ((unitPlanning.run (potentialGrid 0)).2 0 0).dirX 0 = 0
      ∧ ((unitPlanning.run (potentialGrid 0)).2 1 0).pot 0
          - ((unitPlanning.run (potentialGrid 0)).2 (-1) 0).pot 0 = 1 := by
  obtain ⟨hl, hr, _, _⟩ := potentialGrid_neighbour_pot 0 0
  refine ⟨⟨by decide, by decide, by decide, by decide, by decide, rfl⟩, ?_, rfl,
    run_potentialGrid_zero, ?_, ?_⟩
  · rw [hl, hr]
    norm_num
  · rw [run_dirX]
    rfl
  · rw [run_pot, run_pot, hl, hr]
    norm_num

/-! ## Wall-adjacent frontiers -/

theorem hazardValue_cases (g : Grid) (x y : Int) :
    hazardValue g x y = PlanType.REGULAR
      ∨ ((g x y).occType = OccType.FREE
        ∧ (hazardValue g x y = PlanType.DANGER ∨ hazardValue g x y = PlanType.NEAR_WALLS)) := by
  unfold hazardValue
  by_cases hf : (g x y).occType = OccType.FREE
  · rw [if_pos hf]
    split_ifs
    · exact Or.inr ⟨hf, Or.inl rfl⟩
    · exact Or.inr ⟨hf, Or.inr rfl⟩
    · exact Or.inl rfl
  · rw [if_neg hf]
    exact Or.inl rfl

theorem frontierValue_eq_nearWall (g : Grid) (x y : Int)
    (h : frontierValue g x y PlanType.REGULAR = PlanType.FRONTIER_NEAR_WALL) :
    anyNear g 1 isHazard x y = true := by
  unfold frontierValue at h
  by_contra hz
  rw [if_neg hz] at h
  split_ifs at h

theorem wallGrid_phase1 :
    (classifyOccupancy rowLimits wallGrid 0 0).occType = OccType.UNEXPLORED
      ∧ (classifyOccupancy rowLimits wallGrid 1 0).occType = OccType.FREE
      ∧ (classifyOccupancy rowLimits wallGrid 2 0).occType = OccType.OCCUPIED := by
  simp only [classifyOccupancy_occType]
  decide

theorem wallGrid_hazard :
    (classifyHazards rowLimits (classifyOccupancy rowLimits wallGrid) 1 0).planType
      = PlanType.DANGER := by
  rw [classifyHazards_planType, if_pos (by decide)]
  unfold hazardValue
  rw [if_pos wallGrid_phase1.2.1,
    if_pos ((anyNear_isOccupied_iff _ 3 1 0).2
      ⟨2, 0, by decide, by decide, wallGrid_phase1.2.2⟩)]

theorem update_wallGrid :
    (updateCellsTypes rowLimits wallGrid 0 0).planType = PlanType.FRONTIER_NEAR_WALL := by
  rw [updateCellsTypes_planType, if_pos (by decide), if_pos wallGrid_phase1.1]
  unfold frontierValue
  rw [if_pos ((anyNear_isHazard_iff _ 1 0 0).2
    ⟨1, 0, by decide, by decide, Or.inl wallGrid_hazard⟩)]

theorem wallGrid_planType (i j : Int) : (wallGrid i j).planType = PlanType.REGULAR := by
  unfold wallGrid gridWith Grid.setCell Grid.fresh
  split_ifs <;> rfl

theorem himmCell_planType (rb : Robot) (x y : Int) (c : Cell) :
    (rb.himmCell x y c).planType = c.planType := by
  unfold Robot.himmCell
  split_ifs <;> rfl

theorem sonarCell_planType (rb : Robot) (x y : Int) (c : Cell) :
    (rb.sonarCell x y c).planType = c.planType := by
  unfold Robot.sonarCell sonarWrite
  split_ifs <;> rfl

theorem logOddsCell_planType (rb : Robot) (lo : LogOps) (x y : Int) (c : Cell) :
    (rb.logOddsCell lo x y c).planType = c.planType := by
  unfold Robot.logOddsCell logOddsWrite
  split_ifs <;> rfl

/-- The HIMM pass writes no `planType`. -/
theorem mappingWithHIMMUsingLaser_planType (rb : Robot) (g : Grid) (i j : Int) :
    (rb.mappingWithHIMMUsingLaser g i j).planType = (g i j).planType := by
  rw [mappingWithHIMMUsingLaser_apply]
  split_ifs
  · exact himmCell_planType rb i j _
  · rfl

/-- The sonar pass writes no `planType`. -/
theorem mappingUsingSonar_planType (rb : Robot) (g : Grid) (i j : Int) :
    (rb.mappingUsingSonar g i j).planType = (g i j).planType := by
  rw [mappingUsingSonar_apply]
  split_ifs
  · exact sonarCell_planType rb i j _
  · rfl

/-- The log-odds pass writes no `planType`. -/
theorem mappingWithLogOddsUsingLaser_planType (rb : Robot) (lo : LogOps) (g g2 : Grid)
    (h : rb.mappingWithLogOddsUsingLaser lo g = some g2) (i j : Int) :
    (g2 i j).planType = (g i j).planType := by
  obtain ⟨g3, h3, hval⟩ := mappingWithLogOddsUsingLaser_apply rb lo g
  rw [h] at h3
  have h23 : g2 = g3 := Option.some.inj h3
  rw [h23, hval i j]
  split_ifs
  · exact logOddsCell_planType rb lo i j _
  · rfl

/-- In every state the program reaches, the limits in use lie within the limits being
accumulated, and no cell outside the limits in use has been classified: `planType` is written
only by the loops of `resetCellsTypes` and `updateCellsTypes`, which run over the limits in
use, and the limits only grow. -/
theorem reachable_unclassified_outside (pl : Planning) (g : Grid) (h : Reachable pl g) :
    (pl.newGridLimits.minX ≤ pl.gridLimits.minX ∧ pl.newGridLimits.minY ≤ pl.gridLimits.minY
        ∧ pl.gridLimits.maxX ≤ pl.newGridLimits.maxX
        ∧ pl.gridLimits.maxY ≤ pl.newGridLimits.maxY)
      ∧ ∀ i j, ¬ pl.gridLimits.contains i j → (g i j).planType = PlanType.REGULAR := by
  induction h with
  | construct scale junk =>
    exact ⟨⟨le_refl _, le_refl _, le_refl _, le_refl _⟩, fun _ _ _ => rfl⟩
  | setMaxUpdateRange r _ ih => exact ih
  | setNewRobotPose p _ ih =>
    exact ⟨⟨le_trans (min_le_left _ _) ih.1.1, le_trans (min_le_left _ _) ih.1.2.1,
      le_trans ih.1.2.2.1 (le_max_left _ _), le_trans ih.1.2.2.2 (le_max_left _ _)⟩, ih.2⟩
  | mappingWithHIMMUsingLaser rb _ ih =>
    exact ⟨ih.1, fun i j hc => by
      rw [mappingWithHIMMUsingLaser_planType]; exact ih.2 i j hc⟩
  | mappingUsingSonar rb _ ih =>
    exact ⟨ih.1, fun i j hc => by rw [mappingUsingSonar_planType]; exact ih.2 i j hc⟩
  | mappingWithLogOddsUsingLaser rb lo g2 _ hg ih =>
    exact ⟨ih.1, fun i j hc => by
      rw [mappingWithLogOddsUsingLaser_planType rb lo _ g2 hg]; exact ih.2 i j hc⟩
  | @run pl g _ ih =>
    refine ⟨⟨le_refl _, le_refl _, le_refl _, le_refl _⟩, fun i j hc => ?_⟩
    have hc2 : ¬ pl.newGridLimits.contains i j := hc
    have hc1 : ¬ pl.gridLimits.contains i j := by
      intro hin
      apply hc2
      unfold GridLimits.contains at hin ⊢
      exact ⟨le_trans ih.1.1 hin.1, le_trans hin.2.1 ih.1.2.2.1,
        le_trans ih.1.2.1 hin.2.2.1, le_trans hin.2.2.2 ih.1.2.2.2⟩
    rw [run_grid, updateCellsTypes_planType, if_neg hc2, resetCellsTypes_apply, if_neg hc1]
    exact ih.2 i j hc1

/-- When no cell outside the limits carries `DANGER`, `NEAR_WALLS` or `FRONTIER_NEAR_WALL`,
a cell left `FRONTIER_NEAR_WALL` by `updateCellsTypes` lies inside the limits, is
`UNEXPLORED`, and has among its 8 neighbours a `FREE` cell marked `DANGER` or
`NEAR_WALLS`. -/
theorem updateCellsTypes_frontier_near_wall (lim : GridLimits) (g : Grid)
    (hout : ∀ i j, ¬ lim.contains i j →
      (g i j).planType ≠ PlanType.DANGER ∧ (g i j).planType ≠ PlanType.NEAR_WALLS
        ∧ (g i j).planType ≠ PlanType.FRONTIER_NEAR_WALL)
    (x y : Int)
    (h : (updateCellsTypes lim g x y).planType = PlanType.FRONTIER_NEAR_WALL) :
    lim.contains x y
      ∧ (updateCellsTypes lim g x y).occType = OccType.UNEXPLORED
      ∧ ∃ i j, ¬ (i = x ∧ j = y) ∧ (x - 1 ≤ i ∧ i ≤ x + 1) ∧ (y - 1 ≤ j ∧ j ≤ y + 1)
          ∧ (updateCellsTypes lim g i j).occType = OccType.FREE
          ∧ ((updateCellsTypes lim g i j).planType = PlanType.DANGER
            ∨ (updateCellsTypes lim g i j).planType = PlanType.NEAR_WALLS) := by
  have hc : lim.contains x y := by
    by_contra hc
    rw [updateCellsTypes_planType, if_neg hc] at h
    exact (hout x y hc).2.2 h
  have hu : (classifyOccupancy lim g x y).occType = OccType.UNEXPLORED := by
    by_contra hu
    rw [updateCellsTypes_planType, if_pos hc, if_neg hu] at h
    rcases hazardValue_cases (classifyOccupancy lim g) x y with hv | ⟨_, hv | hv⟩ <;>
      rw [hv] at h <;> exact absurd h (by decide)
  rw [updateCellsTypes_planType, if_pos hc, if_pos hu] at h
  obtain ⟨i, j, hi, hj, hz⟩ := (anyNear_iff _ 1 isHazard x y).1 (frontierValue_eq_nearWall _ x y h)
  have hcij : lim.contains i j := by
    by_contra hcij
    rw [classifyHazards_apply, if_neg hcij, classifyOccupancy_apply, if_neg hcij] at hz
    rcases (isHazard_iff _).1 hz with hz | hz
    · exact (hout i j hcij).1 hz
    · exact (hout i j hcij).2.1 hz
  have hfree : (classifyOccupancy lim g i j).occType = OccType.FREE := by
    have hz2 := (isHazard_iff _).1 hz
    rw [classifyHazards_planType, if_pos hcij] at hz2
    rcases hazardValue_cases (classifyOccupancy lim g) i j with hv | ⟨hf, _⟩
    · rw [hv] at hz2
      rcases hz2 with hz2 | hz2 <;> exact absurd hz2 (by decide)
    · exact hf
  refine ⟨hc, by rw [updateCellsTypes_occType]; exact hu, i, j, ?_, hi, hj,
    by rw [updateCellsTypes_occType]; exact hfree, ?_⟩
  · rintro ⟨rfl, rfl⟩
    rw [hu] at hfree
    exact absurd hfree (by decide)
  · rw [← updateCellsTypes_isHazard] at hz
    exact (isHazard_iff _).1 hz

/-- C16 (wall-adjacent frontier needs a free neighbour). In every state the program reaches,
no cell outside the grid limits has been classified, and every cell that the
`updateCellsTypes` call of `Planning::run` leaves with `planType = FRONTIER_NEAR_WALL` lies
inside the limits, is `UNEXPLORED`, and has among its 8 neighbours a `FREE` cell whose
`planType` is `DANGER` or `NEAR_WALLS`. The same holds of `updateCellsTypes` for every grid
state and grid limits such that no cell outside the limits carries `DANGER`, `NEAR_WALLS` or
`FRONTIER_NEAR_WALL`. -/
theorem frontier_near_wall_sound :
    (∀ (pl : Planning) (g : Grid), Reachable pl g →
        (∀ i j, ¬ pl.gridLimits.contains i j → (g i j).planType = PlanType.REGULAR)
          ∧ ∀ x y, ((pl.run g).2 x y).planType = PlanType.FRONTIER_NEAR_WALL →
            (pl.run g).1.gridLimits.contains x y
              ∧ ((pl.run g).2 x y).occType = OccType.UNEXPLORED
              ∧ ∃ i j, ¬ (i = x ∧ j = y) ∧ (x - 1 ≤ i ∧ i ≤ x + 1) ∧ (y - 1 ≤ j ∧ j ≤ y + 1)
                  ∧ ((pl.run g).2 i j).occType = OccType.FREE
                  ∧ (((pl.run g).2 i j).planType = PlanType.DANGER
                    ∨ ((pl.run g).2 i j).planType = PlanType.NEAR_WALLS))
      ∧ ∀ (lim : GridLimits) (g : Grid),
          (∀ i j, ¬ lim.contains i j →
            (g i j).planType ≠ PlanType.DANGER ∧ (g i j).planType ≠ PlanType.NEAR_WALLS
              ∧ (g i j).planType ≠ PlanType.FRONTIER_NEAR_WALL) →
          ∀ x y, (updateCellsTypes lim g x y).planType = PlanType.FRONTIER_NEAR_WALL →
            lim.contains x y
              ∧ (updateCellsTypes lim g x y).occType = OccType.UNEXPLORED
              ∧ ∃ i j, ¬ (i = x ∧ j = y) ∧ (x - 1 ≤ i ∧ i ≤ x + 1) ∧ (y - 1 ≤ j ∧ j ≤ y + 1)
                  ∧ (updateCellsTypes lim g i j).occType = OccType.FREE
                  ∧ ((updateCellsTypes lim g i j).planType = PlanType.DANGER
                    ∨ (updateCellsTypes lim g i j).planType = PlanType.NEAR_WALLS) := by
  refine ⟨fun pl g hr => ?_, fun lim g hout x y h => ?_⟩
  · obtain ⟨hlim, hreg⟩ := reachable_unclassified_outside pl g hr
    refine ⟨hreg, fun x y h => ?_⟩
    rw [run_grid] at h ⊢
    refine updateCellsTypes_frontier_near_wall pl.newGridLimits _ (fun i j hc => ?_) x y h
    have hc1 : ¬ pl.gridLimits.contains i j := by
      intro hin
      apply hc
      unfold GridLimits.contains at hin ⊢
      exact ⟨le_trans hlim.1 hin.1, le_trans hin.2.1 hlim.2.2.1,
        le_trans hlim.2.1 hin.2.2.1, le_trans hin.2.2.2 hlim.2.2.2⟩
    rw [resetCellsTypes_apply, if_neg hc1, hreg i j hc1]
    exact ⟨by decide, by decide, by decide⟩
  · exact updateCellsTypes_frontier_near_wall lim g hout x y h

theorem frontier_near_wall_sound_witness :
    ((∀ i j, ¬ rowLimits.contains i j →
          (wallGrid i j).planType ≠ PlanType.DANGER
            ∧ (wallGrid i j).planType ≠ PlanType.NEAR_WALLS
            ∧ (wallGrid i j).planType ≠ PlanType.FRONTIER_NEAR_WALL)
        ∧ (updateCellsTypes rowLimits wallGrid 0 0).planType = PlanType.FRONTIER_NEAR_WALL)
      ∧ (rowLimits.contains 0 0
        ∧ (updateCellsTypes rowLimits wallGrid 0 0).occType = OccType.UNEXPLORED
        ∧ ∃ i j, ¬ (i = 0 ∧ j = 0) ∧ (0 - 1 ≤ i ∧ i ≤ 0 + 1) ∧ (0 - 1 ≤ j ∧ j ≤ 0 + 1)
            ∧ (updateCellsTypes rowLimits wallGrid i j).occType = OccType.FREE
            ∧ ((updateCellsTypes rowLimits wallGrid i j).planType = PlanType.DANGER
              ∨ (updateCellsTypes rowLimits wallGrid i j).planType
                  = PlanType.NEAR_WALLS)) :=
  ⟨⟨fun i j _ => by rw [wallGrid_planType]; decide, update_wallGrid⟩,
    frontier_near_wall_sound.2 rowLimits wallGrid
      (fun i j _ => by rw [wallGrid_planType]; decide) 0 0 update_wallGrid⟩

/-! ## Log-odds and occupancy as inverse conversions -/

/-- The write of the log-odds loop body stores the two components of `logOddsUpdate`. -/
theorem logOddsWrite_eq (lo : LogOps) (occupancyUpdate : ℚ) (cell : Cell) :
    (logOddsWrite lo occupancyUpdate cell).logodds
        = (logOddsUpdate lo.exp lo.log occupancyUpdate cell.logodds).1
      ∧ (logOddsWrite lo occupancyUpdate cell).occupancy
        = (logOddsUpdate lo.exp lo.log occupancyUpdate cell.logodds).2 :=
  ⟨rfl, rfl⟩

/-- Outside the limits `updateCellsTypes` leaves the whole cell as it was. -/
theorem updateCellsTypes_outside (lim : GridLimits) (g : Grid) (i j : Int)
    (h : ¬ lim.contains i j) : updateCellsTypes lim g i j = g i j := by
  unfold updateCellsTypes
  rw [classifyFrontiers_apply lim _ (hazards_pre lim _), if_neg (fun hc => h hc.1),
    classifyHazards_apply, if_neg h, classifyOccupancy_apply, if_neg h]

/-- C22 (classification frame). For every grid state and grid limits, `updateCellsTypes`
leaves the `himm`, `logodds`, `occupancy`, `occupancySonar`, `pot`, `dirX` and `dirY` fields
of every cell unchanged, and leaves every cell outside the limits, in particular its
`occType` and `planType`, unchanged; so it changes only the `occType` and `planType` of cells
inside the limits. -/
theorem updateCellsTypes_frame (lim : GridLimits) (g : Grid) :
    (∀ i j, (updateCellsTypes lim g i j).himm = (g i j).himm
        ∧ (updateCellsTypes lim g i j).logodds = (g i j).logodds
        ∧ (updateCellsTypes lim g i j).occupancy = (g i j).occupancy
        ∧ (updateCellsTypes lim g i j).occupancySonar = (g i j).occupancySonar
        ∧ (updateCellsTypes lim g i j).pot = (g i j).pot
        ∧ (updateCellsTypes lim g i j).dirX = (g i j).dirX
        ∧ (updateCellsTypes lim g i j).dirY = (g i j).dirY)
      ∧ (∀ i j, ¬ lim.contains i j →
          (updateCellsTypes lim g i j).occType = (g i j).occType
            ∧ (updateCellsTypes lim g i j).planType = (g i j).planType
            ∧ updateCellsTypes lim g i j = g i j) := by
  refine ⟨fun i j => ?_, fun i j h => ?_⟩
  · unfold updateCellsTypes
    rw [classifyFrontiers_apply lim _ (hazards_pre lim _), classifyHazards_apply,
      classifyOccupancy_apply]
    split_ifs <;> exact ⟨rfl, rfl, rfl, rfl, rfl, rfl, rfl⟩
  · rw [updateCellsTypes_outside lim g i j h]
    exact ⟨rfl, rfl, rfl⟩

end Phir2
